import Mathlib

/-!
# Verification of the IFC-Coordinator core against its specification

This file gives a shallow embedding, in Lean 4, of the core algorithms of the
IFC-Coordinator repository:

* the spatial-tree data model and its repair pass (`sanitizeNodes` in `src/App.tsx`),
* the move operations (`moveBuildingToSite`, `moveStoreyToBuilding`,
  `moveObjectToGroup` in `src/App.tsx`),
* the identifier codec (`ifcGuidFromUuid` in `src/ifc/exportIfc2x3.ts`),
* the tag-pattern engine and its uniqueness retry loop
  (`applyPattern` and the while loops in `bulkApplyTags` / `createObject`),
* the importer (`importIfcIntoCoordinator` in `src/ifc/importIfc.ts`),
* the exporter (`exportIfc2x3FromTree` in `src/ifc/exportIfc2x3.ts`).

A snapshot (`Record<string, TreeNode>` in the source) is embedded as an
insertion-ordered association list `St := List (String × TreeNode)`, which is
exactly a JavaScript object: iteration (`Object.entries`/`Object.values`)
follows insertion order, assignment to a present key replaces in place, and
assignment to an absent key appends at the end.  JavaScript objects cannot have
duplicate keys, which is expressed by the hypothesis `NodupKeys` where needed.

Asynchronous attribute lookups of the importer (`safeGetGlobalId` …) are
embedded as a pure attribute source `Attrs`: every lookup either yields a value
or degrades to absence, which is exactly the behavior of the `safe*` wrappers.
Random identifier minting (`crypto`-based GUID strings of the exporter) only
affects surface text of the emitted records and is elided from the abstract
record syntax; entity numbering, record order and record structure are kept.
-/

namespace IfcCoord

/-- `NodeKind` from `src/App.tsx` / `src/ifc/importIfc.ts`. -/
inductive NodeKind where
  | Root | Project | Site | Building | Storey | ClassGroup | Object
deriving DecidableEq, Repr

/-- Property set: `type Pset = { name: string; props: Record<string, string> }`.
`props` is an insertion-ordered string-keyed object, embedded like snapshots. -/
structure Pset where
  name : String
  props : List (String × String)
deriving DecidableEq, Repr

/-- `ifc` bookkeeping of imported nodes (`TreeNode.ifc` in importIfc.ts). -/
structure IfcMeta where
  modelID : Nat
  expressID : Nat
  globalId : Option String
  type : Option String
deriving DecidableEq, Repr

/-- `TreeNode` from the source.  Optional fields are `Option`s; `undefined`
is `none`.  The `docs` field (attached documents) is never read or written by
any modeled operation and is omitted. -/
structure TreeNode where
  id : String
  kind : NodeKind
  name : String
  parentId : Option String := none
  children : List String := []
  ifcClass : Option String := none
  tag : Option String := none
  psets : List Pset := []
  ifc : Option IfcMeta := none
deriving DecidableEq, Repr

/-- A snapshot: a JavaScript object keyed by node id, in insertion order. -/
abbrev St := List (String × TreeNode)

/-- `obj[k]` — first (and in a real object: only) binding of the key. -/
def lookupN (s : St) (k : String) : Option TreeNode :=
  match s with
  | [] => none
  | (k0, n0) :: rest => if k0 = k then some n0 else lookupN rest k

/-- `k in obj` as a Bool. -/
def containsN (s : St) (k : String) : Bool :=
  (lookupN s k).isSome

/-- `obj[k] = v` — replace in place if the key is present, else append. -/
def setN (s : St) (k : String) (v : TreeNode) : St :=
  match s with
  | [] => [(k, v)]
  | (k0, n0) :: rest => if k0 = k then (k, v) :: rest else (k0, n0) :: setN rest k v

/-- The keys of a snapshot, in insertion order. -/
def keysOf (s : St) : List String := s.map Prod.fst

/-- `Object.values(obj)`, in insertion order. -/
def valuesOf (s : St) : List TreeNode := s.map Prod.snd

/-- A real JavaScript object has no duplicate keys. -/
def NodupKeys (s : St) : Prop := (keysOf s).Nodup

/-- Every stored node's `id` field agrees with its key (all nodes built by the
application satisfy this; hand-edited snapshots need not). -/
def IdConsistent (s : St) : Prop := ∀ p ∈ s, (Prod.snd p).id = Prod.fst p

/-! ## The repair pass: `sanitizeNodes` (src/App.tsx, lines 134-162) -/

/-- Step 1 of `sanitizeNodes` applied to one entry: drop dangling and
self-referential children, then clear `parentId` if the parent key is gone.
Key existence is tested against the original snapshot (the loop replaces
values in place but the key set never changes during step 1).  The JS guard
`out[id].parentId && …` is string truthiness: an empty-string parent id is
falsy and is left untouched. -/
def sanitizeEntry (s : St) (id : String) (n : TreeNode) : TreeNode :=
  let children := n.children.filter (fun cid => containsN s cid && cid != id)
  let parentId :=
    match n.parentId with
    | none => none
    | some p => if p != "" && !containsN s p then none else some p
  { n with children := children, parentId := parentId }

/-- The node created by `sanitizeNodes` when no `root` key exists. -/
def rootFallback : TreeNode :=
  { id := "root", kind := .Root, name := "Workspace", children := [] }

/-- Step 1 of `sanitizeNodes`: the per-entry cleanup applied to every entry.
`Object.entries` snapshots the entries once; key existence is constant during
the loop, so this is a `map` testing keys against the input. -/
def sanStep1 (input : St) : St :=
  input.map (fun p => (p.1, sanitizeEntry input p.1 p.2))

/-- Step 2 of `sanitizeNodes`: `if (!out.root) out.root = …` — assignment to
an absent key appends at the end of the object. -/
def sanStep2 (s1 : St) : St :=
  if containsN s1 "root" then s1 else s1 ++ [("root", rootFallback)]

/-- The `id` fields of all `Project`-kind values, in insertion order
(`Object.values(out).filter(kind=Project).map(n => n.id)`). -/
def projectsOf (s : St) : List String :=
  ((valuesOf s).filter (fun n => n.kind == NodeKind.Project)).map TreeNode.id

/-- `sanitizeNodes` from src/App.tsx: (1) per-entry cleanup, (2) ensure a
`root` key exists, (3) restrict `root.children` to currently-valid `Project`
children, re-deriving the list from all `Project`-kind values (their `id`
fields) if none qualify.  The `none` branch of the match is unreachable
(step 2 guarantees a `root` key). -/
def sanitizeNodes (input : St) : St :=
  let out2 : St := sanStep2 (sanStep1 input)
  match lookupN out2 "root" with
  | none => out2
  | some root =>
    let validRootChildren := root.children.filter
      (fun cid => (lookupN out2 cid).map TreeNode.kind == some NodeKind.Project)
    if validRootChildren.isEmpty then
      setN out2 "root" { root with children := projectsOf out2 }
    else
      setN out2 "root" { root with children := validRootChildren }

/-- The new `children` list written into the `root` node by step 3. -/
def sanRootChildren (s : St) (r : TreeNode) : List String :=
  let out2 := sanStep2 (sanStep1 s)
  let validRootChildren := r.children.filter
    (fun cid => (lookupN out2 cid).map TreeNode.kind == some NodeKind.Project)
  if validRootChildren.isEmpty then projectsOf out2 else validRootChildren

/-- The `root`-keyed node, if present, is not a `Project`.  (When it is, the
step-3 `projects` fallback can write `root` into its own `children`; see the
counterexamples below.) -/
def RootNotProject (s : St) : Prop :=
  (lookupN s "root").map TreeNode.kind ≠ some NodeKind.Project

instance (s : St) : Decidable (NodupKeys s) := by
  unfold NodupKeys
  infer_instance

instance (s : St) : Decidable (IdConsistent s) := by
  unfold IdConsistent
  infer_instance

instance (s : St) : Decidable (RootNotProject s) := by
  unfold RootNotProject
  infer_instance

/-! ## Concrete snapshots for the repair-pass counterexamples and witnesses -/

/-- A hand-constructed node: the `root` key holds a `Project`-kind node. -/
def cexRootProject : TreeNode := { id := "root", kind := .Project, name := "R" }

/-- An ordinary `Project` node keyed `p`. -/
def cexProjectP : TreeNode := { id := "p", kind := .Project, name := "P" }

/-- Snapshot whose `root`-keyed node is a `Project`, next to a second
`Project`: repairing it twice differs from repairing it once. -/
def cexC1snap : St := [("root", cexRootProject), ("p", cexProjectP)]

/-- Snapshot whose only node is a `Project` stored under the key `root`:
repair writes `root` into its own `children`. -/
def cexC5snap : St := [("root", cexRootProject)]

/-- A well-formed root for the witnesses. -/
def witRoot : TreeNode :=
  { id := "root", kind := .Root, name := "Workspace", children := ["a"] }

/-- A well-formed project node for the witnesses. -/
def witProjA : TreeNode :=
  { id := "a", kind := .Project, name := "A", parentId := some "root" }

/-- A well-formed two-node snapshot used to witness the repair theorems. -/
def witSnap : St := [("root", witRoot), ("a", witProjA)]

/-! ## Identifier codec: `ifcGuidFromUuid` (src/ifc/exportIfc2x3.ts, 36-59) -/

/-- The fixed 64-symbol alphabet of `toBase64Chars`. -/
def guidChars : List Char :=
  "0123456789ABCDEFGHIJKLMNOPQRSTUVWXYZabcdefghijklmnopqrstuvwxyz_$".toList

/-- `chars[n] ?? "0"`: out-of-range indices fall back to the character 0. -/
def toBase64Chars (n : Nat) : Char := guidChars.getD n '0'

/-- A character accepted as a radix-16 digit by `parseInt`. -/
def isHexDigit (c : Char) : Bool :=
  c.isDigit || ('a' ≤ c && c ≤ 'f') || ('A' ≤ c && c ≤ 'F')

/-- Value of a radix-16 digit. -/
def hexVal (c : Char) : Nat :=
  if c.isDigit then c.toNat - '0'.toNat
  else if 'a' ≤ c && c ≤ 'f' then c.toNat - 'a'.toNat + 10
  else c.toNat - 'A'.toNat + 10

/-- Value of a radix-16 digit string. -/
def hexNat (cs : List Char) : Nat :=
  cs.foldl (fun acc c => acc * 16 + hexVal c) 0

/-- JavaScript `parseInt(str, 16)`: skip leading whitespace, take an optional
sign and an optional `0x`/`0X` prefix, then the longest prefix of radix-16
digits; the result is `NaN` (`none`) if that prefix is empty. -/
def jsParseIntHex (str : String) : Option Int :=
  let cs := str.toList.dropWhile Char.isWhitespace
  let signed : Int × List Char :=
    match cs with
    | '-' :: rest => (-1, rest)
    | '+' :: rest => (1, rest)
    | _ => (1, cs)
  let cs2 : List Char :=
    match signed.2 with
    | '0' :: 'x' :: rest => rest
    | '0' :: 'X' :: rest => rest
    | _ => signed.2
  let ds := cs2.takeWhile isHexDigit
  if ds.isEmpty then none else some (signed.1 * (hexNat ds : Int))

/-- `Uint8Array` element assignment (ToUint8): `NaN` becomes 0, other numbers
are truncated modulo 2^8. -/
def toUint8 (v : Option Int) : Nat :=
  match v with
  | none => 0
  | some i => (i.emod 256).toNat

/-- The 16 bytes parsed from the 32-character hex string:
`bytes[i] = parseInt(hex.slice(i*2, i*2+2), 16)` stored into a `Uint8Array`. -/
def ifcGuidBytes (hex : List Char) : List Nat :=
  (List.range 16).map (fun i => toUint8 (jsParseIntHex (String.mk ((hex.drop (2 * i)).take 2))))

/-- `num = (num << 8) + bytes[i]` over all 16 bytes. -/
def ifcGuidNum (bytes : List Nat) : Nat :=
  bytes.foldl (fun num b => num * 256 + b) 0

/-- The 22 output digits: `(num >> ((21-i)*6)) & 0x3f`, most significant
first, each rendered through the 64-symbol alphabet. -/
def ifcGuidCompress (hex : List Char) : String :=
  let num := ifcGuidNum (ifcGuidBytes hex)
  String.mk ((List.range 22).map (fun i => toBase64Chars ((num >>> ((21 - i) * 6)) &&& 63)))

/-- `ifcGuidFromUuid` (exportIfc2x3.ts): strip all separators `-`; throw if the
remaining length is not 32; otherwise compress.  Note the source checks only
the length, not that the characters are hex digits. -/
def ifcGuidFromUuid (uuid : String) : Except String String :=
  let hex := uuid.toList.filter (fun c => c != '-')
  if hex.length ≠ 32 then .error "UUID must be 32 hex chars"
  else .ok (ifcGuidCompress hex)

/-- 32 letters `z`: not hex digits, yet of length 32. -/
def cexC3uuid : String := String.mk (List.replicate 32 'z')

/-- A syntactically valid 128-bit UUID string. -/
def witC3uuid : String := "123e4567-e89b-12d3-a456-426614174000"

/-! ## Pattern/Tag engine (src/App.tsx, lines 1012-1254) -/

/-- The caller-supplied, whitespace-stripped context strings substituted for
the five name tokens. -/
structure TokenMap where
  CLASS : String
  SITE : String
  BLDG : String
  STRY : String
  CUSTOM : String
deriving DecidableEq, Repr

/-- Whether the second list begins with the first. -/
def startsWithChars : List Char → List Char → Bool
  | [], _ => true
  | _ :: _, [] => false
  | a :: as, b :: bs => a == b && startsWithChars as bs

/-- `String.includes`: whether `needle` occurs inside `haystack`. -/
def containsChars (haystack needle : List Char) : Bool :=
  match haystack with
  | [] => needle.isEmpty
  | _ :: rest => startsWithChars needle haystack || containsChars rest needle

/-- Strip a leading `Ifc` case-insensitively (`replace(/^Ifc/i, "")`). -/
def stripIfc (s : String) : String :=
  match s.toList with
  | c1 :: c2 :: c3 :: rest =>
    if c1.toLower = 'i' && c2.toLower = 'f' && c3.toLower = 'c'
    then String.mk rest else s
  | _ => s

/-- `str.toLowerCase()` at character level. -/
def toLowerChars (s : String) : List Char := s.toList.map Char.toLower

/-- `str.toUpperCase()` at character level. -/
def toUpperStr (s : String) : String := String.mk (s.toList.map Char.toUpper)

/-- `normalizeClassShort` (App.tsx 1012-1020): strip the `Ifc` prefix, map
recognized substrings to short codes, else uppercase. -/
def normalizeClassShort (ifcClass : Option String) : String :=
  let c := stripIfc (ifcClass.getD "IfcBuildingElementProxy")
  if containsChars (toLowerChars c) ("pump".toList) then "PUMP"
  else if containsChars (toLowerChars c) ("valve".toList) then "VALVE"
  else if containsChars (toLowerChars c) ("tank".toList) then "TANK"
  else if containsChars (toLowerChars c) ("pipe".toList) then "PIPE"
  else if containsChars (toLowerChars c) ("proxy".toList) then "PROXY"
  else toUpperStr c

/-- `pad` (App.tsx 1022-1025): zero-pad to `max 1 width` digits. -/
def pad (num : Int) (width : Nat) : String :=
  let w := max 1 width
  let s := toString num
  if s.length ≥ w then s
  else String.mk (List.replicate (w - s.length) '0' ++ s.toList)

/-- Digit-string value (the `Number(m[1])` of `parseNWidth`). -/
def natOfDigits (ds : List Char) : Nat :=
  ds.foldl (fun a c => a * 10 + (c.toNat - '0'.toNat)) 0

/-- Scanner for the first occurrence of the regex `\{N(?::(\d+))?\}`:
returns the captured width (0 when the token is a bare `{N}`), or `none`
when the pattern contains no `{N…}` token. -/
def findNWidth : List Char → Option Nat
  | [] => none
  | c :: rest =>
    match c, rest with
    | '{', 'N' :: '}' :: _ => some 0
    | '{', 'N' :: ':' :: rest2 =>
      let ds := rest2.takeWhile Char.isDigit
      if !ds.isEmpty && ((rest2.drop ds.length).head? == some '}')
      then some (natOfDigits ds)
      else findNWidth rest
    | _, _ => findNWidth rest

/-- `parseNWidth` (App.tsx 1027-1031). -/
def parseNWidth (pattern : String) : Nat := (findNWidth pattern.toList).getD 0

/-- Global replacement of every `{N}` / `{N:width}` token by the rendered
counter string (the regex `\{N(?::\d+)?\}` with the `g` flag).  The fuel is
the input length; each step consumes at least one character, so the
fuel-exhausted branch is unreachable. -/
def replaceNAux (val : List Char) : Nat → List Char → List Char
  | 0, cs => cs
  | _, [] => []
  | fuel + 1, c :: rest =>
    match c, rest with
    | '{', 'N' :: '}' :: rest2 => val ++ replaceNAux val fuel rest2
    | '{', 'N' :: ':' :: rest2 =>
      let ds := rest2.takeWhile Char.isDigit
      if !ds.isEmpty && ((rest2.drop ds.length).head? == some '}')
      then val ++ replaceNAux val fuel ((rest2.drop ds.length).drop 1)
      else c :: replaceNAux val fuel rest
    | _, _ => c :: replaceNAux val fuel rest

/-- Global replacement of every occurrence of a literal token
(`out.replace(/\{CLASS\}/g, …)` and friends), scanning left to right over
non-overlapping matches.  The fuel is the input length; each step consumes at
least one character. -/
def replaceTokenAux (token val : List Char) : Nat → List Char → List Char
  | 0, cs => cs
  | _, [] => []
  | fuel + 1, c :: rest =>
    if !token.isEmpty && startsWithChars token (c :: rest)
    then val ++ replaceTokenAux token val fuel ((c :: rest).drop token.length)
    else c :: replaceTokenAux token val fuel rest

/-- All occurrences of the literal `token` in `s` replaced by `val`. -/
def replaceToken (s token val : String) : String :=
  String.mk (replaceTokenAux token.toList val.toList s.toList.length s.toList)

/-- `applyPattern` (App.tsx 1033-1047): substitute the five name tokens, then
replace every `{N…}` token by the counter, zero-padded when the first `{N…}`
occurrence of the original pattern carries a width. -/
def applyPattern (pattern : String) (tokenMap : TokenMap) (nValue : Int) : String :=
  let out := replaceToken pattern "{CLASS}" tokenMap.CLASS
  let out := replaceToken out "{SITE}" tokenMap.SITE
  let out := replaceToken out "{BLDG}" tokenMap.BLDG
  let out := replaceToken out "{STRY}" tokenMap.STRY
  let out := replaceToken out "{CUSTOM}" tokenMap.CUSTOM
  let width := parseNWidth pattern
  let nStr := if width > 0 then pad nValue width else toString nValue
  String.mk (replaceNAux nStr.toList out.toList.length out.toList)

/-- `existingTagsSet` (App.tsx 1049-1055): the tags of all `Object` nodes
(`n.tag` truthy, i.e. present and non-empty). -/
def existingTagsSet (nodes : St) : List String :=
  (valuesOf nodes).filterMap (fun n =>
    if n.kind == NodeKind.Object then
      match n.tag with
      | some t => if t != "" then some t else none
      | none => none
    else none)

/-- Fuel-indexed unrolling of the uniqueness retry loop
`while (used.has(candidate)) { num = next; candidate = applyPattern(…) }`
of `bulkApplyTags` (App.tsx 1241-1247) and of the identical loop in batch
`createObject` (App.tsx 1128-1131), with the counter advanced by `step` per
retry.  The source has no attempt ceiling and no error path: after `fuel`
attempts the loop either found a free label or is still running (`none`). -/
def tagRetryLoop (used : List String) (pattern : String) (tokenMap : TokenMap)
    (step : Int) : Nat → Int → Option (String × Int)
  | 0, _ => none
  | fuel + 1, n =>
    let candidate := applyPattern pattern tokenMap n
    if candidate ∈ used then tagRetryLoop used pattern tokenMap step fuel (n + step)
    else some (candidate, n)

/-- Token map of the diverging input: `{CUSTOM}` renders as `X`. -/
def cexC4tokenMap : TokenMap :=
  { CLASS := "", SITE := "", BLDG := "", STRY := "", CUSTOM := "X" }

/-! ## Move operations (src/App.tsx, lines 605-652 and 731-753) -/

/-- `detachFromParent` (App.tsx 605-610): remove the child from the parent's
`children`; no-op when the parent id is falsy (absent or empty) or the parent
key is missing.  The parent's kind is not checked. -/
def detachFromParent (childId : String) (parentId : Option String) (draft : St) : St :=
  match parentId with
  | none => draft
  | some pid =>
    if pid = "" then draft
    else
      match lookupN draft pid with
      | none => draft
      | some p => setN draft pid { p with children := p.children.filter (fun c => c != childId) }

/-- `attachToParent` (App.tsx 612-616): append the child to the parent's
`children`; no-op when the parent key is missing. -/
def attachToParent (childId : String) (parentId : String) (draft : St) : St :=
  match lookupN draft parentId with
  | none => draft
  | some p => setN draft parentId { p with children := p.children ++ [childId] }

/-- Common shape of `moveBuildingToSite` (App.tsx 618-634) and
`moveStoreyToBuilding` (App.tsx 636-652): the two functions are identical up
to the required child and target kinds.  Returns the input unchanged when the
moved node or target is missing or of the wrong kind, or when the node
already sits under the target; otherwise detach (from whatever the old
parent is), attach, and overwrite the moved node with the original node
value carrying the new `parentId`. -/
def moveDetachAttach (childKind parentKind : NodeKind) (prev : St)
    (childId targetId : String) : St :=
  match lookupN prev childId, lookupN prev targetId with
  | some b, some target =>
    if b.kind ≠ childKind then prev
    else if target.kind ≠ parentKind then prev
    else if b.parentId = some targetId then prev
    else
      setN (attachToParent childId targetId (detachFromParent childId b.parentId prev))
        childId { b with parentId := some targetId }
  | _, _ => prev

/-- `moveBuildingToSite` (App.tsx 618-634). -/
def moveBuildingToSite (prev : St) (buildingId targetSiteId : String) : St :=
  moveDetachAttach NodeKind.Building NodeKind.Site prev buildingId targetSiteId

/-- `moveStoreyToBuilding` (App.tsx 636-652). -/
def moveStoreyToBuilding (prev : St) (storeyId targetBuildingId : String) : St :=
  moveDetachAttach NodeKind.Storey NodeKind.Building prev storeyId targetBuildingId

/-- `moveObjectToGroup` (App.tsx 731-753).  Differences from the
building/storey moves, all present in the source: a falsy current `parentId`
is a no-op even when the target is valid; the old parent's children are
filtered only when the old parent has kind `ClassGroup`; the target group's
children are extended from the value captured before the detach (so moving an
object onto its current group duplicates the entry); and the object's
`ifcClass` is overwritten with the target group's. -/
def moveObjectToGroup (prev : St) (objectId targetGroupId : String) : St :=
  match lookupN prev objectId, lookupN prev targetGroupId with
  | some obj, some targetGroup =>
    if obj.kind ≠ NodeKind.Object then prev
    else if targetGroup.kind ≠ NodeKind.ClassGroup then prev
    else
      match obj.parentId with
      | none => prev
      | some oldGroupId =>
        if oldGroupId = "" then prev
        else
          let next :=
            match lookupN prev oldGroupId with
            | some oldGroup =>
              if oldGroup.kind = NodeKind.ClassGroup then
                setN prev oldGroupId
                  { oldGroup with children := oldGroup.children.filter (fun c => c != objectId) }
              else prev
            | none => prev
          let next := setN next targetGroupId
            { targetGroup with children := targetGroup.children ++ [objectId] }
          setN next objectId
            { obj with parentId := some targetGroupId, ifcClass := targetGroup.ifcClass }
  | _, _ => prev

/-- Modelled from the spec words of C7, for comparison with the code: "…
otherwise detaches from the old parent and attaches to the new one, updating
`parentId`" — the unconditional detach-then-attach the claim describes for
the non-failing case. -/
def moveSpecDescribed (s : St) (childId targetId : String) : St :=
  match lookupN s childId with
  | none => s
  | some b =>
    setN (attachToParent childId targetId (detachFromParent childId b.parentId s))
      childId { b with parentId := some targetId }

/-- Site with two buildings; `b1` already sits under `S`. -/
def cexC7snap : St :=
  [("S", { id := "S", kind := .Site, name := "Site", children := ["b1", "b2"] }),
   ("b1", { id := "b1", kind := .Building, name := "B1", parentId := some "S" }),
   ("b2", { id := "b2", kind := .Building, name := "B2", parentId := some "S" })]

/-- Two class groups with one object under `g1`, used to witness C7. -/
def witC7snap : St :=
  [("g1", { id := "g1", kind := .ClassGroup, name := "IfcPump",
            ifcClass := some "IfcPump", children := ["o1"] }),
   ("g2", { id := "g2", kind := .ClassGroup, name := "IfcValve",
            ifcClass := some "IfcValve", children := [] }),
   ("o1", { id := "o1", kind := .Object, name := "P1", parentId := some "g1",
            ifcClass := some "IfcPump" })]

theorem lookupN_eq_none_iff (s : St) (k : String) :
    lookupN s k = none ↔ k ∉ keysOf s := by
  induction s with
  | nil => simp [lookupN, keysOf]
  | cons hd tl ih =>
    obtain ⟨k0, n0⟩ := hd
    by_cases h : k0 = k
    · subst h
      simp [lookupN, keysOf]
    · simp [lookupN, keysOf, h, ih]
      intro h2
      exact fun hk => h hk.symm

theorem lookupN_isSome_iff (s : St) (k : String) :
    (lookupN s k).isSome = true ↔ k ∈ keysOf s := by
  rw [Option.isSome_iff_ne_none]
  constructor
  · intro h
    by_contra hk
    exact h ((lookupN_eq_none_iff s k).2 hk)
  · intro h hn
    exact ((lookupN_eq_none_iff s k).1 hn) h

theorem containsN_iff (s : St) (k : String) :
    containsN s k = true ↔ k ∈ keysOf s := by
  simp [containsN, lookupN_isSome_iff]

theorem lookupN_mem (s : St) (k : String) (n : TreeNode)
    (h : lookupN s k = some n) : (k, n) ∈ s := by
  induction s with
  | nil => simp [lookupN] at h
  | cons hd tl ih =>
    obtain ⟨k0, n0⟩ := hd
    by_cases hk : k0 = k
    · subst hk
      simp [lookupN] at h
      simp [h]
    · simp [lookupN, hk] at h
      exact List.mem_cons_of_mem _ (ih h)

theorem mem_lookupN (s : St) (k : String) (n : TreeNode)
    (hnd : NodupKeys s) (h : (k, n) ∈ s) : lookupN s k = some n := by
  induction s with
  | nil => simp at h
  | cons hd tl ih =>
    obtain ⟨k0, n0⟩ := hd
    have hnd' : NodupKeys tl := (List.nodup_cons.1 hnd).2
    rcases List.mem_cons.1 h with h1 | h1
    · obtain ⟨hk, hn⟩ := Prod.mk.injEq .. ▸ h1
      injection h1 with h1a
      simp_all [lookupN]
    · have hk0 : k0 ≠ k := by
        intro he
        subst he
        exact (List.nodup_cons.1 hnd).1 (by
          simpa [keysOf] using List.mem_map_of_mem Prod.fst h1)
      simp [lookupN, hk0, ih hnd' h1]

theorem lookupN_setN_self (s : St) (k : String) (v : TreeNode) :
    lookupN (setN s k v) k = some v := by
  induction s with
  | nil => simp [setN, lookupN]
  | cons hd tl ih =>
    obtain ⟨k0, n0⟩ := hd
    by_cases h : k0 = k <;> simp [setN, lookupN, h, ih]

theorem lookupN_setN_ne (s : St) (k k2 : String) (v : TreeNode) (h : k2 ≠ k) :
    lookupN (setN s k v) k2 = lookupN s k2 := by
  have hne : k ≠ k2 := Ne.symm h
  induction s with
  | nil => simp [setN, lookupN, hne]
  | cons hd tl ih =>
    obtain ⟨k0, n0⟩ := hd
    by_cases hk : k0 = k
    · subst hk
      simp [setN, lookupN, hne]
    · simp [setN, lookupN, hk, ih]

theorem setN_eq_of_lookupN (s : St) (k : String) (v : TreeNode)
    (h : lookupN s k = some v) : setN s k v = s := by
  induction s with
  | nil => simp [lookupN] at h
  | cons hd tl ih =>
    obtain ⟨k0, n0⟩ := hd
    by_cases hk : k0 = k
    · subst hk
      simp [lookupN] at h
      simp [setN, h]
    · simp [lookupN, hk] at h
      simp [setN, hk, ih h]

theorem keysOf_setN_of_mem (s : St) (k : String) (v : TreeNode)
    (h : k ∈ keysOf s) : keysOf (setN s k v) = keysOf s := by
  induction s with
  | nil => simp [keysOf] at h
  | cons hd tl ih =>
    obtain ⟨k0, n0⟩ := hd
    by_cases hk : k0 = k
    · subst hk
      simp [setN, keysOf]
    · have hmem : k ∈ keysOf tl := by
        simp only [keysOf, List.map_cons, List.mem_cons] at h
        rcases h with h1 | h1
        · exact absurd h1.symm hk
        · exact h1
      simp only [setN, if_neg hk, keysOf, List.map_cons]
      rw [show List.map Prod.fst (setN tl k v) = keysOf (setN tl k v) from rfl,
        ih hmem]
      rfl

theorem mem_keysOf_setN (s : St) (k k2 : String) (v : TreeNode) :
    k2 ∈ keysOf (setN s k v) ↔ k2 ∈ keysOf s ∨ k2 = k := by
  induction s with
  | nil => simp [setN, keysOf, eq_comm]
  | cons hd tl ih =>
    obtain ⟨k0, n0⟩ := hd
    by_cases hk : k0 = k
    · subst hk
      simp [setN, keysOf]
      tauto
    · simp only [setN, if_neg hk, keysOf, List.map_cons, List.mem_cons]
      rw [show List.map Prod.fst (setN tl k v) = keysOf (setN tl k v) from rfl]
      rw [show List.map Prod.fst tl = keysOf tl from rfl]
      rw [ih]
      tauto

/-! ## Importer (src/ifc/importIfc.ts)

The external spatial hierarchy (`getSpatialStructure`) is a tree of
`{expressID, type, children}` nodes; the attribute source is the set of
`safeGet*` wrappers, each returning a value or degrading to absence.  The
importer walk is embedded as a pure mutual recursion over that tree. -/

mutual
/-- `SpatialNode` from importIfc.ts. -/
inductive SpatialNode where
  | mk (expressID : Nat) (type : String) (children : SpatialForest)
/-- The `children` array of a `SpatialNode`. -/
inductive SpatialForest where
  | nil
  | cons (head : SpatialNode) (tail : SpatialForest)
end

/-- The caller-supplied attribute source: `safeGetGlobalId`, `safeGetName`,
`safeGetTag`, `safeGetPsets`, each per `expressID` (the model id is fixed per
import), each individually optional (failures degrade to absence). -/
structure Attrs where
  globalId : Nat → Option String
  name : Nat → Option String
  tag : Nat → Option String
  psets : Nat → List Pset

/-- `str.toUpperCase()` for the IFC type tag. -/
def jsToUpper (s : String) : String := String.mk (s.toList.map Char.toUpper)

/-- The TS `NodeKind` value as its string (the kind is a string literal
union in the source, used in `name || kind`). -/
def kindStr : NodeKind → String
  | .Root => "Root"
  | .Project => "Project"
  | .Site => "Site"
  | .Building => "Building"
  | .Storey => "Storey"
  | .ClassGroup => "ClassGroup"
  | .Object => "Object"

/-- `ensureNode` (importIfc.ts 47-50): create the id with the fallback node
when absent.  (The `if (!draft[id].children)` repair line is vacuous here:
`children` is always a list in the model.) -/
def ensureNode (draft : St) (id : String) (fallback : TreeNode) : St :=
  if containsN draft id then draft else setN draft id fallback

/-- `ensureChild` (importIfc.ts 52-56): append the child id to the parent's
`children` when the parent exists and does not already list it. -/
def ensureChild (draft : St) (parentId childId : String) : St :=
  match lookupN draft parentId with
  | none => draft
  | some p =>
    if childId ∈ p.children then draft
    else setN draft parentId { p with children := p.children ++ [childId] }

/-- Assignment into a string-keyed object / `Map.set`: replace in place when
the key is present, else append (generic over the value type). -/
def setA {v : Type} (l : List (String × v)) (k : String) (x : v) : List (String × v) :=
  match l with
  | [] => [(k, x)]
  | (k0, x0) :: rest => if k0 = k then (k, x) :: rest else (k0, x0) :: setA rest k x

/-- Key lookup in a string-keyed object / `Map.get` (generic). -/
def lookupA {v : Type} (l : List (String × v)) (k : String) : Option v :=
  match l with
  | [] => none
  | (k0, x0) :: rest => if k0 = k then some x0 else lookupA rest k

/-- `{ ...cur, ...incoming }` on a `Record<string,string>`: every incoming key
overwrites or appends, in incoming order. -/
def mergeProps (cur incoming : List (String × String)) : List (String × String) :=
  incoming.foldl (fun acc kv => setA acc kv.1 kv.2) cur

/-- Insertion into a name-sorted pset list (models the final
`sort((a, b) => a.name.localeCompare(b.name))`; code-point order stands in
for the locale order, which agrees on the ASCII names in use). -/
def insertPsetSorted (p : Pset) : List Pset → List Pset
  | [] => [p]
  | q :: rest => if p.name ≤ q.name then p :: q :: rest else q :: insertPsetSorted p rest

/-- Sort a pset list by name. -/
def sortPsetsByName (ps : List Pset) : List Pset :=
  ps.foldl (fun acc p => insertPsetSorted p acc) []

/-- `mergePsets` (importIfc.ts 58-67): union per set name; within one set
incoming keys overwrite same-named existing keys; result sorted by name. -/
def mergePsets (oldPsets newPsets : List Pset) : List Pset :=
  let m0 : List (String × Pset) :=
    oldPsets.foldl (fun m p => setA m p.name { name := p.name, props := p.props }) []
  let m1 : List (String × Pset) :=
    newPsets.foldl (fun m p =>
      match lookupA m p.name with
      | none => setA m p.name { name := p.name, props := p.props }
      | some cur => setA m p.name { name := p.name, props := mergeProps cur.props p.props }) m0
  sortPsetsByName (m1.map Prod.snd)

/-- `upsertNode` (importIfc.ts 69-87).  The merge `{...existing, ...node,
name: existing.name || node.name, tag: existing.tag ?? node.tag, ifcClass:
existing.ifcClass ?? node.ifcClass, psets: merged, children: existing when
non-empty}` — `kind` and `parentId` always come from the incoming node (every
call site supplies them); `ifc` comes from the incoming node when its literal
carries the property (spatial and object upserts do; the synthetic ones keep
the existing value, which the `node.ifc = none` case reproduces). -/
def upsertNode (draft : St) (node : TreeNode) : St :=
  match lookupN draft node.id with
  | none => setN draft node.id node
  | some existing =>
    setN draft node.id
      { id := node.id
        kind := node.kind
        name := if existing.name ≠ "" then existing.name else node.name
        parentId := node.parentId
        children := if existing.children.isEmpty then node.children else existing.children
        ifcClass := match existing.ifcClass with
          | some c => some c
          | none => node.ifcClass
        tag := match existing.tag with
          | some t => some t
          | none => node.tag
        psets := mergePsets existing.psets node.psets
        ifc := match node.ifc with
          | some m => some m
          | none => existing.ifc }

/-- `spatialKindFromIfcType` (importIfc.ts 161-167). -/
def spatialKindFromIfcType (typeUpper : String) : Option NodeKind :=
  if typeUpper = "IFCPROJECT" then some .Project
  else if typeUpper = "IFCSITE" then some .Site
  else if typeUpper = "IFCBUILDING" then some .Building
  else if typeUpper = "IFCBUILDINGSTOREY" then some .Storey
  else none

/-- `ifcClassForElement` (importIfc.ts 174-178): every element class falls
back to `IfcBuildingElementProxy` (including the one explicit mapping). -/
def ifcClassForElement (typeUpper : String) : String :=
  if typeUpper = "IFCBUILDINGELEMENTPROXY" then "IfcBuildingElementProxy"
  else "IfcBuildingElementProxy"

/-- `stableSpatialId` (importIfc.ts 180-187). -/
def stableSpatialId (kind : NodeKind) (globalId : Option String) (expressID : Nat) : String :=
  let key := globalId.getD (toString expressID)
  match kind with
  | .Project => "ifc:project:" ++ key
  | .Site => "ifc:site:" ++ key
  | .Building => "ifc:building:" ++ key
  | .Storey => "ifc:storey:" ++ key
  | _ => "ifc:item:" ++ key

/-- `ensureSyntheticStorey` (importIfc.ts 205-218): find-or-create the
deterministic synthetic storey of a building; returns the updated draft and
the storey id. -/
def ensureSyntheticStorey (draft : St) (buildingId : String) : St × String :=
  let synthStoreyId := "ifc:storey:synthetic:" ++ buildingId
  if containsN draft synthStoreyId then (draft, synthStoreyId)
  else
    let d := upsertNode draft
      { id := synthStoreyId, kind := .Storey, name := "Storey 0",
        parentId := some buildingId, children := [] }
    (ensureChild d buildingId synthStoreyId, synthStoreyId)

/-- `ensureFallbackSpatialContainers` (importIfc.ts 220-247): find-or-create
the fixed placeholder Project, Building and Storey; returns the updated draft
and the synthetic storey id. -/
def ensureFallbackSpatialContainers (draft : St) : St × String :=
  let defaultProjectId := "ifc:project:default"
  let d :=
    if containsN draft defaultProjectId then draft
    else
      ensureChild
        (upsertNode draft
          { id := defaultProjectId, kind := .Project, name := "Imported Project",
            parentId := some "root", children := [] })
        "root" defaultProjectId
  let synthBuildingId := "ifc:building:synthetic:" ++ defaultProjectId
  let d2 :=
    if containsN d synthBuildingId then d
    else
      ensureChild
        (upsertNode d
          { id := synthBuildingId, kind := .Building, name := "Building 0",
            parentId := some defaultProjectId, children := [] })
        defaultProjectId synthBuildingId
  ensureSyntheticStorey d2 synthBuildingId

/-- The `buildingId` resolution of the leaf branch (importIfc.ts 295-302):
`parent?.kind === "Building" ? parent.id : parent?.parentId &&
draft[parent.parentId]?.kind === "Building" ? parent.parentId : undefined`.
Note it returns the parent's `id` field, and an empty-string `parentId` is
falsy. -/
def leafBuildingId (draft : St) (resolvedParentId : String) : Option String :=
  match lookupN draft resolvedParentId with
  | none => none
  | some pnode =>
    if pnode.kind = NodeKind.Building then some pnode.id
    else
      match pnode.parentId with
      | none => none
      | some pp =>
        if pp = "" then none
        else
          match lookupN draft pp with
          | none => none
          | some g => if g.kind = NodeKind.Building then some pp else none

mutual
/-- `walk` (importIfc.ts 249-349), one spatial-structure node.  `parentId` is
always a concrete string at every call site (the top call passes `"root"`),
so `parentId ?? "root"` is the parameter itself. -/
def walk (a : Attrs) (modelID : Nat) : SpatialNode → String → Option String → St → St
  | .mk expressID ty children, parentId, currentStoreyId, draft =>
    let typeUpper := jsToUpper ty
    let globalId := a.globalId expressID
    let name := (a.name expressID).getD typeUpper
    let tag := a.tag expressID
    let psets := a.psets expressID
    match spatialKindFromIfcType typeUpper with
    | some kind =>
      let myId := stableSpatialId kind globalId expressID
      let rp := if kind = .Project then "root" else parentId
      let d := ensureNode draft rp { id := rp, kind := .Root, name := "Workspace", children := [] }
      let d := upsertNode d
        { id := myId, kind := kind,
          name := if name ≠ "" then name else kindStr kind,
          parentId := some rp, children := [],
          ifc := some { modelID := modelID, expressID := expressID,
                        globalId := globalId, type := some typeUpper } }
      let d := ensureChild d rp myId
      let nextStoreyId := if kind = .Storey then some myId else currentStoreyId
      walkF a modelID children myId nextStoreyId d
    | none =>
      let resolved : St × String :=
        match currentStoreyId with
        | some sid => (draft, sid)
        | none =>
          match leafBuildingId draft parentId with
          | some bid => ensureSyntheticStorey draft bid
          | none => ensureFallbackSpatialContainers draft
      let d := resolved.1
      let storeyId := resolved.2
      let className := ifcClassForElement typeUpper
      let classGroupId := storeyId ++ "__" ++ className
      let d :=
        if containsN d classGroupId then d
        else
          ensureChild
            (upsertNode d
              { id := classGroupId, kind := .ClassGroup, name := className,
                parentId := some storeyId, children := [], ifcClass := some className })
            storeyId classGroupId
      let objId := "ifc:obj:" ++
        (match globalId with
         | some g => g
         | none => toString modelID ++ ":" ++ toString expressID)
      let d := upsertNode d
        { id := objId, kind := .Object,
          name := if name ≠ "" then name else className,
          parentId := some classGroupId, children := [], ifcClass := some className,
          tag := match tag with
            | some t => if t ≠ "" then some t else globalId
            | none => globalId,
          psets := psets,
          ifc := some { modelID := modelID, expressID := expressID,
                        globalId := globalId, type := some typeUpper } }
      let d := ensureChild d classGroupId objId
      walkF a modelID children parentId (some storeyId) d

/-- The `for (const ch of sp.children ?? [])` loops of `walk`. -/
def walkF (a : Attrs) (modelID : Nat) : SpatialForest → String → Option String → St → St
  | .nil, _, _, draft => draft
  | .cons h t, p, st, draft => walkF a modelID t p st (walk a modelID h p st draft)
end

/-- `importIfcIntoCoordinator` (importIfc.ts 190-353): clone the snapshot
(structural copy — the identity on the pure model), ensure `root`, then walk
the spatial structure from `("root", no current storey)`. -/
def importIfcIntoCoordinator (a : Attrs) (modelID : Nat) (spatial : SpatialNode)
    (nodes : St) : St :=
  let draft := ensureNode nodes "root"
    { id := "root", kind := .Root, name := "Workspace", children := [] }
  walk a modelID spatial "root" none draft

/-- Per-node classification shape: the `ifcClass` field is absent or the
proxy class, and every `Object` node carries the proxy class and sits under a
class-group id of the form `storeyId ++ "__IfcBuildingElementProxy"`. -/
def ClassOk (n : TreeNode) : Prop :=
  (n.ifcClass = none ∨ n.ifcClass = some "IfcBuildingElementProxy") ∧
  (n.kind = NodeKind.Object →
    n.ifcClass = some "IfcBuildingElementProxy" ∧
    ∃ stid, n.parentId = some (stid ++ "__IfcBuildingElementProxy"))

/-- Snapshot-wide classification invariant. -/
def ClassInv (u : St) : Prop :=
  ∀ k n, lookupN u k = some n → ClassOk n

/-- Structural induction over the mutual spatial-node/forest tree. -/
theorem spatialInduction (P : SpatialNode → Prop) (Q : SpatialForest → Prop)
    (h1 : ∀ e ty ch, Q ch → P (.mk e ty ch))
    (hnil : Q .nil)
    (hcons : ∀ h t, P h → Q t → Q (.cons h t)) :
    (∀ sp, P sp) ∧ (∀ f, Q f) :=
  ⟨fun sp => @SpatialNode.rec P Q h1 hnil hcons sp,
   fun f => @SpatialForest.rec P Q h1 hnil hcons f⟩

/-- An attribute source with no attributes (every lookup degrades to
absence). -/
def impAttrsNone : Attrs :=
  { globalId := fun _ => none, name := fun _ => none,
    tag := fun _ => none, psets := fun _ => [] }

/-- A single leaf element whose type tag is not one of the four recognized
spatial tags. -/
def impLeafWall : SpatialNode := .mk 7 "IfcWall" .nil

/-- The object node produced by importing `impLeafWall` with no attributes
into an empty tree. -/
def impLeafWallObj : TreeNode :=
  { id := "ifc:obj:0:7", kind := .Object, name := "IFCWALL",
    parentId := some
      "ifc:storey:synthetic:ifc:building:synthetic:ifc:project:default__IfcBuildingElementProxy",
    children := [], ifcClass := some "IfcBuildingElementProxy", tag := none,
    psets := [],
    ifc := some { modelID := 0, expressID := 7, globalId := none, type := some "IFCWALL" } }

/-- The deterministic object id of an imported element
(`ifc:obj:` + global id, else + `modelID:expressID`). -/
def c8objId (a : Attrs) (m e : Nat) : String :=
  "ifc:obj:" ++
    (match a.globalId e with
     | some g => g
     | none => toString m ++ ":" ++ toString e)

/-- The object node built by the leaf branch of `walk` for one element with
no enclosing storey, after the fallback containers exist. -/
def c8ObjNode (a : Attrs) (m e : Nat) (ty : String) : TreeNode :=
  { id := c8objId a m e, kind := .Object,
    name := if (a.name e).getD (jsToUpper ty) ≠ "" then (a.name e).getD (jsToUpper ty)
            else "IfcBuildingElementProxy",
    parentId := some
      "ifc:storey:synthetic:ifc:building:synthetic:ifc:project:default__IfcBuildingElementProxy",
    children := [], ifcClass := some "IfcBuildingElementProxy",
    tag := match a.tag e with
      | some t => if t ≠ "" then some t else a.globalId e
      | none => a.globalId e,
    psets := a.psets e,
    ifc := some { modelID := m, expressID := e, globalId := a.globalId e,
                  type := some (jsToUpper ty) } }

/-- The draft state right before the leaf branch of `walk` reaches the object
upsert, when importing one unrecognized leaf into an empty tree: root plus
the fallback Project, Building, Storey and the proxy class group. -/
def c8Draft5 : St :=
  [("root",
    { id := "root", kind := .Root, name := "Workspace",
      children := ["ifc:project:default"] }),
   ("ifc:project:default",
    { id := "ifc:project:default", kind := .Project, name := "Imported Project",
      parentId := some "root",
      children := ["ifc:building:synthetic:ifc:project:default"] }),
   ("ifc:building:synthetic:ifc:project:default",
    { id := "ifc:building:synthetic:ifc:project:default", kind := .Building,
      name := "Building 0", parentId := some "ifc:project:default",
      children := ["ifc:storey:synthetic:ifc:building:synthetic:ifc:project:default"] }),
   ("ifc:storey:synthetic:ifc:building:synthetic:ifc:project:default",
    { id := "ifc:storey:synthetic:ifc:building:synthetic:ifc:project:default",
      kind := .Storey, name := "Storey 0",
      parentId := some "ifc:building:synthetic:ifc:project:default",
      children :=
        ["ifc:storey:synthetic:ifc:building:synthetic:ifc:project:default__IfcBuildingElementProxy"] }),
   ("ifc:storey:synthetic:ifc:building:synthetic:ifc:project:default__IfcBuildingElementProxy",
    { id := "ifc:storey:synthetic:ifc:building:synthetic:ifc:project:default__IfcBuildingElementProxy",
      kind := .ClassGroup, name := "IfcBuildingElementProxy",
      parentId := some "ifc:storey:synthetic:ifc:building:synthetic:ifc:project:default",
      children := [], ifcClass := some "IfcBuildingElementProxy" })]

/-- The snapshot produced by importing one unrecognized leaf element into an
empty tree: the fixed placeholder Project, Building and Storey, one class
group and one object. -/
def c8Result (a : Attrs) (m e : Nat) (ty : String) : St :=
  [("root",
    { id := "root", kind := .Root, name := "Workspace",
      children := ["ifc:project:default"] }),
   ("ifc:project:default",
    { id := "ifc:project:default", kind := .Project, name := "Imported Project",
      parentId := some "root",
      children := ["ifc:building:synthetic:ifc:project:default"] }),
   ("ifc:building:synthetic:ifc:project:default",
    { id := "ifc:building:synthetic:ifc:project:default", kind := .Building,
      name := "Building 0", parentId := some "ifc:project:default",
      children := ["ifc:storey:synthetic:ifc:building:synthetic:ifc:project:default"] }),
   ("ifc:storey:synthetic:ifc:building:synthetic:ifc:project:default",
    { id := "ifc:storey:synthetic:ifc:building:synthetic:ifc:project:default",
      kind := .Storey, name := "Storey 0",
      parentId := some "ifc:building:synthetic:ifc:project:default",
      children :=
        ["ifc:storey:synthetic:ifc:building:synthetic:ifc:project:default__IfcBuildingElementProxy"] }),
   ("ifc:storey:synthetic:ifc:building:synthetic:ifc:project:default__IfcBuildingElementProxy",
    { id := "ifc:storey:synthetic:ifc:building:synthetic:ifc:project:default__IfcBuildingElementProxy",
      kind := .ClassGroup, name := "IfcBuildingElementProxy",
      parentId := some "ifc:storey:synthetic:ifc:building:synthetic:ifc:project:default",
      children := [c8objId a m e], ifcClass := some "IfcBuildingElementProxy" }),
   (c8objId a m e, c8ObjNode a m e ty)]

/-! ### Structural lemmas about the three repair stages -/

theorem lookupN_map_entry (f : String → TreeNode → TreeNode) (l : St) (k : String) :
    lookupN (l.map (fun p => (p.1, f p.1 p.2))) k = (lookupN l k).map (f k) := by
  induction l with
  | nil => simp [lookupN]
  | cons hd tl ih =>
    obtain ⟨k0, n0⟩ := hd
    by_cases h : k0 = k
    · subst h
      simp [lookupN]
    · simp [lookupN, h, ih]

theorem lookupN_sanStep1 (s : St) (k : String) :
    lookupN (sanStep1 s) k = (lookupN s k).map (sanitizeEntry s k) :=
  lookupN_map_entry (sanitizeEntry s) s k

theorem keysOf_sanStep1 (s : St) : keysOf (sanStep1 s) = keysOf s := by
  simp [sanStep1, keysOf]

theorem lookupN_append_right (s t : St) (k : String) (h : lookupN s k = none) :
    lookupN (s ++ t) k = lookupN t k := by
  induction s with
  | nil => simp
  | cons hd tl ih =>
    obtain ⟨k0, n0⟩ := hd
    by_cases hk : k0 = k
    · simp [lookupN, hk] at h
    · simp only [lookupN, hk, if_neg hk, List.cons_append]
      simp [lookupN, hk] at h ⊢
      exact ih h

theorem lookupN_append_left (s t : St) (k : String) (n : TreeNode)
    (h : lookupN s k = some n) : lookupN (s ++ t) k = some n := by
  induction s with
  | nil => simp [lookupN] at h
  | cons hd tl ih =>
    obtain ⟨k0, n0⟩ := hd
    by_cases hk : k0 = k
    · simp [lookupN, hk] at h ⊢
      exact h
    · simp [lookupN, hk] at h ⊢
      exact ih h

theorem nodup_sanStep1 (s : St) (h : NodupKeys s) : NodupKeys (sanStep1 s) := by
  unfold NodupKeys at *
  rw [keysOf_sanStep1]
  exact h

theorem nodup_sanStep2 (s1 : St) (h : NodupKeys s1) : NodupKeys (sanStep2 s1) := by
  unfold sanStep2
  by_cases hc : containsN s1 "root"
  · simp [hc, h]
  · simp only [hc, Bool.false_eq_true, if_false]
    unfold NodupKeys at *
    have hr : "root" ∉ keysOf s1 := by
      intro hmem
      exact hc ((containsN_iff s1 "root").2 hmem)
    simp [keysOf, List.nodup_append]
    constructor
    · simpa [keysOf] using h
    · simpa [keysOf] using hr

theorem nodup_setN (s : St) (k : String) (v : TreeNode) (h : NodupKeys s)
    (hk : k ∈ keysOf s) : NodupKeys (setN s k v) := by
  unfold NodupKeys
  rw [keysOf_setN_of_mem s k v hk]
  exact h

theorem keysOf_sanStep2 (s1 : St) :
    keysOf (sanStep2 s1) = if containsN s1 "root" then keysOf s1 else keysOf s1 ++ ["root"] := by
  unfold sanStep2
  by_cases hc : containsN s1 "root" <;> simp [hc, keysOf]

theorem root_mem_sanStep2 (s1 : St) : "root" ∈ keysOf (sanStep2 s1) := by
  rw [keysOf_sanStep2]
  by_cases hc : containsN s1 "root"
  · simpa [hc] using (containsN_iff s1 "root").1 hc
  · simp [hc]

theorem lookupN_sanStep2_ne (s1 : St) (k : String) (hk : k ≠ "root") :
    lookupN (sanStep2 s1) k = lookupN s1 k := by
  unfold sanStep2
  by_cases hc : containsN s1 "root"
  · simp [hc]
  · simp only [hc, Bool.false_eq_true, if_false]
    cases hl : lookupN s1 k with
    | some n => exact lookupN_append_left _ _ _ _ hl
    | none =>
      rw [lookupN_append_right _ _ _ hl]
      simp [lookupN, Ne.symm hk]

theorem lookupN_sanStep2_root (s1 : St) :
    lookupN (sanStep2 s1) "root" =
      match lookupN s1 "root" with
      | some n => some n
      | none => some rootFallback := by
  unfold sanStep2
  cases hl : lookupN s1 "root" with
  | some n =>
    have : containsN s1 "root" = true := by simp [containsN, hl]
    simp [this, hl]
  | none =>
    have : containsN s1 "root" = false := by simp [containsN, hl]
    simp [this]
    rw [lookupN_append_right _ _ _ hl]
    simp [lookupN]

theorem map_entry_id (f : String → TreeNode → TreeNode) (l : St)
    (h : ∀ p ∈ l, f p.1 p.2 = p.2) :
    l.map (fun p => (p.1, f p.1 p.2)) = l := by
  induction l with
  | nil => rfl
  | cons hd tl ih =>
    obtain ⟨k0, n0⟩ := hd
    rw [List.map_cons, h (k0, n0) (List.mem_cons_self _ _),
      ih (fun p hp => h p (List.mem_cons_of_mem _ hp))]

theorem sanitizeNodes_eq_setRoot (s : St) (r : TreeNode)
    (hr : lookupN (sanStep2 (sanStep1 s)) "root" = some r) :
    sanitizeNodes s =
      setN (sanStep2 (sanStep1 s)) "root" { r with children := sanRootChildren s r } := by
  unfold sanitizeNodes sanRootChildren
  simp only [hr]
  by_cases hV : (r.children.filter
      (fun cid => (lookupN (sanStep2 (sanStep1 s)) cid).map TreeNode.kind ==
        some NodeKind.Project)).isEmpty
  · simp [hV]
  · simp [hV]

/-- If every entry survives the per-entry cleanup and `root` exists,
steps 1 and 2 act as the identity. -/
theorem sanFix_out2 (T : St)
    (h1 : ∀ p ∈ T, sanitizeEntry T p.1 p.2 = p.2)
    (hroot : "root" ∈ keysOf T) :
    sanStep2 (sanStep1 T) = T := by
  have hstep1 : sanStep1 T = T := map_entry_id _ T h1
  have hcont : containsN T "root" = true := (containsN_iff T "root").2 hroot
  rw [hstep1]
  unfold sanStep2
  simp [hcont]

/-- A snapshot on which `sanitizeNodes` acts as the identity:
every entry survives the per-entry cleanup, `root` exists, and `root`'s
children already agree with what step 3 would compute. -/
theorem sanitizeNodes_eq_self (T : St)
    (h1 : ∀ p ∈ T, sanitizeEntry T p.1 p.2 = p.2)
    (hroot : "root" ∈ keysOf T)
    (h3 : ∀ r, lookupN T "root" = some r → sanRootChildren T r = r.children) :
    sanitizeNodes T = T := by
  have hstep2 : sanStep2 (sanStep1 T) = T := sanFix_out2 T h1 hroot
  cases hl : lookupN T "root" with
  | none => exact absurd ((lookupN_eq_none_iff T "root").1 hl) (by simpa using hroot)
  | some r =>
    have hr2 : lookupN (sanStep2 (sanStep1 T)) "root" = some r := by rw [hstep2]; exact hl
    rw [sanitizeNodes_eq_setRoot T r hr2, hstep2]
    have : sanRootChildren T r = r.children := h3 r hl
    have hch : sanRootChildren T r =
        sanRootChildren T r := rfl
    rw [show ({ r with children := sanRootChildren T r } : TreeNode) = r by
      rw [this]]
    exact setN_eq_of_lookupN T "root" r hl

/-! ### Cleanliness facts about the repaired snapshot -/

theorem sanitizeEntry_children_clean (s : St) (k : String) (m : TreeNode) :
    ∀ cid ∈ (sanitizeEntry s k m).children, cid ∈ keysOf s ∧ cid ≠ k := by
  intro cid hcid
  unfold sanitizeEntry at hcid
  simp only [List.mem_filter, Bool.and_eq_true, bne_iff_ne, ne_eq] at hcid
  exact ⟨(containsN_iff s cid).1 hcid.2.1, hcid.2.2⟩

theorem sanitizeEntry_parent_clean (s : St) (k : String) (m : TreeNode) :
    ∀ p, (sanitizeEntry s k m).parentId = some p → p = "" ∨ p ∈ keysOf s := by
  intro p hp
  unfold sanitizeEntry at hp
  cases hmp : m.parentId with
  | none => simp [hmp] at hp
  | some q =>
    simp only [hmp] at hp
    by_cases hq : (q != "" && !containsN s q) = true
    · simp [hq] at hp
    · simp only [if_neg hq] at hp
      injection hp with hp
      subst hp
      by_cases hpe : q = ""
      · exact Or.inl hpe
      · right
        have hcc : containsN s q = true := by
          by_contra hcc
          apply hq
          simp only [Bool.and_eq_true, bne_iff_ne, ne_eq, Bool.not_eq_true]
          exact ⟨hpe, by simpa using hcc⟩
        exact (containsN_iff s q).1 hcc

theorem sanitizeEntry_eq_self (T : St) (k : String) (n : TreeNode)
    (hc : ∀ cid ∈ n.children, cid ∈ keysOf T ∧ cid ≠ k)
    (hp : ∀ p, n.parentId = some p → p = "" ∨ p ∈ keysOf T) :
    sanitizeEntry T k n = n := by
  unfold sanitizeEntry
  have hch : n.children.filter (fun cid => containsN T cid && cid != k) = n.children := by
    apply List.filter_eq_self.2
    intro cid hcid
    rcases hc cid hcid with ⟨h1, h2⟩
    simp [containsN_iff, h1, h2]
  have hpar :
      (match n.parentId with
        | none => none
        | some p => if p != "" && !containsN T p then none else some p) = n.parentId := by
    cases hnp : n.parentId with
    | none => rfl
    | some p =>
      rcases hp p hnp with h | h
      · simp [h]
      · simp [containsN_iff, h]
  rw [hch, hpar]

theorem idConsistent_sanStep1 (s : St) (h : IdConsistent s) :
    IdConsistent (sanStep1 s) := by
  intro p hp
  unfold sanStep1 at hp
  rcases List.mem_map.1 hp with ⟨q, hq, rfl⟩
  have := h q hq
  simpa [sanitizeEntry] using this

theorem idConsistent_sanStep2 (s1 : St) (h : IdConsistent s1) :
    IdConsistent (sanStep2 s1) := by
  intro p hp
  unfold sanStep2 at hp
  by_cases hc : containsN s1 "root"
  · rw [if_pos hc] at hp
    exact h p hp
  · rw [if_neg (by simpa using hc)] at hp
    rcases List.mem_append.1 hp with h1 | h1
    · exact h p h1
    · simp at h1
      subst h1
      rfl

theorem mem_valuesOf (s : St) (n : TreeNode) :
    n ∈ valuesOf s ↔ ∃ k, (k, n) ∈ s := by
  unfold valuesOf
  constructor
  · intro h
    rcases List.mem_map.1 h with ⟨⟨k, m⟩, hm, he⟩
    exact ⟨k, by simpa [← he] using hm⟩
  · rintro ⟨k, hk⟩
    exact List.mem_map.2 ⟨(k, n), hk, rfl⟩

theorem mem_projectsOf (s : St) (cid : String) :
    cid ∈ projectsOf s ↔
      ∃ n, n ∈ valuesOf s ∧ n.kind = NodeKind.Project ∧ n.id = cid := by
  unfold projectsOf
  constructor
  · intro h
    rcases List.mem_map.1 h with ⟨n, hn, he⟩
    have := List.mem_filter.1 hn
    exact ⟨n, this.1, by simpa using this.2, he⟩
  · rintro ⟨n, h1, h2, h3⟩
    exact List.mem_map.2 ⟨n, List.mem_filter.2 ⟨h1, by simpa using h2⟩, h3⟩

theorem projectsOf_setN (s : St) (k : String) (v w : TreeNode)
    (hl : lookupN s k = some w) (hkind : v.kind = w.kind) (hid : v.id = w.id) :
    projectsOf (setN s k v) = projectsOf s := by
  induction s with
  | nil => simp [lookupN] at hl
  | cons hd tl ih =>
    obtain ⟨k0, n0⟩ := hd
    by_cases hk : k0 = k
    · subst hk
      simp [lookupN] at hl
      subst hl
      have hset : setN ((k0, n0) :: tl) k0 v = (k0, v) :: tl := by simp [setN]
      rw [hset]
      unfold projectsOf valuesOf
      simp only [List.map_cons, List.filter_cons]
      rw [hkind]
      by_cases hkw : (n0.kind == NodeKind.Project) = true
      · simp [hkw, hid]
      · simp [hkw]
    · simp only [lookupN, if_neg hk] at hl
      simp only [setN, if_neg hk]
      unfold projectsOf valuesOf
      simp only [List.map_cons, List.filter_cons]
      have := ih hl
      unfold projectsOf valuesOf at this
      by_cases hkn : (n0.kind == NodeKind.Project) = true
      · simp only [hkn, if_pos]
        simp [this]
      · simp only [hkn]
        simp [this]

theorem sanitizeEntry_kind (s : St) (k : String) (m : TreeNode) :
    (sanitizeEntry s k m).kind = m.kind := rfl

theorem sanitizeEntry_id_field (s : St) (k : String) (m : TreeNode) :
    (sanitizeEntry s k m).id = m.id := rfl

theorem nodup_out2 (s : St) (h : NodupKeys s) :
    NodupKeys (sanStep2 (sanStep1 s)) :=
  nodup_sanStep2 _ (nodup_sanStep1 _ h)

theorem idc_out2 (s : St) (h : IdConsistent s) :
    IdConsistent (sanStep2 (sanStep1 s)) :=
  idConsistent_sanStep2 _ (idConsistent_sanStep1 _ h)

theorem root_cases_out2 (s : St) (r : TreeNode)
    (hr : lookupN (sanStep2 (sanStep1 s)) "root" = some r) :
    r = rootFallback ∨ ∃ m, lookupN s "root" = some m ∧ r = sanitizeEntry s "root" m := by
  rw [lookupN_sanStep2_root, lookupN_sanStep1] at hr
  cases hm : lookupN s "root" with
  | none =>
    rw [hm] at hr
    simp at hr
    exact Or.inl hr.symm
  | some m =>
    rw [hm] at hr
    simp at hr
    exact Or.inr ⟨m, rfl, hr.symm⟩

theorem root_kind_out2 (s : St) (hrp : RootNotProject s) (r : TreeNode)
    (hr : lookupN (sanStep2 (sanStep1 s)) "root" = some r) :
    r.kind ≠ NodeKind.Project := by
  rcases root_cases_out2 s r hr with h | ⟨m, hm, he⟩
  · subst h
    simp [rootFallback]
  · subst he
    rw [sanitizeEntry_kind]
    intro he2
    apply hrp
    rw [hm]
    simp [he2]

theorem keysOf_sub_out2 (s : St) :
    ∀ k ∈ keysOf s, k ∈ keysOf (sanStep2 (sanStep1 s)) := by
  intro k hk
  rw [keysOf_sanStep2, keysOf_sanStep1]
  by_cases hc : containsN (sanStep1 s) "root" <;> simp [hc, hk]

theorem keysOf_out2_sub (s : St) :
    ∀ k ∈ keysOf (sanStep2 (sanStep1 s)), k ∈ keysOf s ∨ k = "root" := by
  intro k hk
  rw [keysOf_sanStep2, keysOf_sanStep1] at hk
  by_cases hc : containsN (sanStep1 s) "root"
  · rw [if_pos hc] at hk
    exact Or.inl hk
  · rw [if_neg (by simpa using hc)] at hk
    rcases List.mem_append.1 hk with h | h
    · exact Or.inl h
    · simp at h
      exact Or.inr h

/-- Every id step 3 writes into `root.children` keys a `Project`-kind node of
the (step-2) snapshot and differs from `"root"`. -/
theorem sanRootChildren_spec (s : St) (hnd : NodupKeys s) (hid : IdConsistent s)
    (hrp : RootNotProject s) (r : TreeNode)
    (hr : lookupN (sanStep2 (sanStep1 s)) "root" = some r) :
    ∀ cid ∈ sanRootChildren s r,
      (lookupN (sanStep2 (sanStep1 s)) cid).map TreeNode.kind = some NodeKind.Project ∧
        cid ≠ "root" := by
  intro cid hcid
  have hkind :
      (lookupN (sanStep2 (sanStep1 s)) cid).map TreeNode.kind = some NodeKind.Project := by
    unfold sanRootChildren at hcid
    by_cases hV : (r.children.filter
        (fun c => (lookupN (sanStep2 (sanStep1 s)) c).map TreeNode.kind ==
          some NodeKind.Project)).isEmpty
    · rw [if_pos hV] at hcid
      rcases (mem_projectsOf _ cid).1 hcid with ⟨n, hn, hk, hni⟩
      rcases (mem_valuesOf _ n).1 hn with ⟨k, hkm⟩
      have hkc : k = cid := by
        have := idc_out2 s hid (k, n) hkm
        simp only at this
        rw [← hni, this]
      subst hkc
      rw [mem_lookupN _ _ _ (nodup_out2 s hnd) hkm]
      simp [hk]
    · rw [if_neg hV] at hcid
      have := (List.mem_filter.1 hcid).2
      simpa using this
  refine ⟨hkind, ?_⟩
  intro he
  subst he
  rw [hr] at hkind
  simp at hkind
  exact root_kind_out2 s hrp r hr hkind

theorem out2_root_some (s : St) :
    ∃ r, lookupN (sanStep2 (sanStep1 s)) "root" = some r := by
  have := (lookupN_isSome_iff (sanStep2 (sanStep1 s)) "root").2 (root_mem_sanStep2 _)
  exact Option.isSome_iff_exists.1 this

theorem keysOf_sanitizeNodes (s : St) :
    keysOf (sanitizeNodes s) = keysOf (sanStep2 (sanStep1 s)) := by
  rcases out2_root_some s with ⟨r, hr⟩
  rw [sanitizeNodes_eq_setRoot s r hr]
  exact keysOf_setN_of_mem _ _ _ (root_mem_sanStep2 _)

theorem lookupN_sanitizeNodes_ne (s : St) (k : String) (hk : k ≠ "root") :
    lookupN (sanitizeNodes s) k = lookupN (sanStep2 (sanStep1 s)) k := by
  rcases out2_root_some s with ⟨r, hr⟩
  rw [sanitizeNodes_eq_setRoot s r hr]
  exact lookupN_setN_ne _ _ _ _ hk

theorem lookupN_sanitizeNodes_root (s : St) (r : TreeNode)
    (hr : lookupN (sanStep2 (sanStep1 s)) "root" = some r) :
    lookupN (sanitizeNodes s) "root" = some { r with children := sanRootChildren s r } := by
  rw [sanitizeNodes_eq_setRoot s r hr]
  exact lookupN_setN_self _ _ _

theorem nodup_sanitizeNodes (s : St) (h : NodupKeys s) :
    NodupKeys (sanitizeNodes s) := by
  unfold NodupKeys
  rw [keysOf_sanitizeNodes]
  exact nodup_out2 s h

/-- Child integrity of the repaired snapshot: every id in every node's
`children` is a key of the repaired map and differs from the node's own key.
Hypotheses: real JS object (no duplicate keys), `id` fields agree with keys,
and the `root`-keyed node is not a `Project`. -/
theorem sanitize_children_invariant (s : St) (hnd : NodupKeys s)
    (hid : IdConsistent s) (hrp : RootNotProject s) :
    ∀ k n, lookupN (sanitizeNodes s) k = some n → ∀ cid ∈ n.children,
      cid ∈ keysOf (sanitizeNodes s) ∧ cid ≠ k := by
  intro k n hkn cid hcid
  rcases out2_root_some s with ⟨r, hr⟩
  by_cases hkr : k = "root"
  · subst hkr
    rw [lookupN_sanitizeNodes_root s r hr] at hkn
    injection hkn with hkn
    subst hkn
    simp only at hcid
    rcases sanRootChildren_spec s hnd hid hrp r hr cid hcid with ⟨hk1, hk2⟩
    refine ⟨?_, hk2⟩
    rw [keysOf_sanitizeNodes]
    rw [← lookupN_isSome_iff]
    cases hl : lookupN (sanStep2 (sanStep1 s)) cid with
    | none => rw [hl] at hk1; simp at hk1
    | some m => simp
  · rw [lookupN_sanitizeNodes_ne s k hkr, lookupN_sanStep2_ne _ _ hkr,
      lookupN_sanStep1] at hkn
    cases hm : lookupN s k with
    | none => rw [hm] at hkn; simp at hkn
    | some m =>
      rw [hm] at hkn
      simp at hkn
      subst hkn
      rcases sanitizeEntry_children_clean s k m cid hcid with ⟨h1, h2⟩
      refine ⟨?_, h2⟩
      rw [keysOf_sanitizeNodes]
      exact keysOf_sub_out2 s cid h1

/-- Parent integrity of the repaired snapshot (helper for idempotence). -/
theorem sanitize_parent_invariant (s : St) :
    ∀ k n, lookupN (sanitizeNodes s) k = some n → ∀ p, n.parentId = some p →
      p = "" ∨ p ∈ keysOf (sanitizeNodes s) := by
  intro k n hkn p hp
  rcases out2_root_some s with ⟨r, hr⟩
  by_cases hkr : k = "root"
  · subst hkr
    rw [lookupN_sanitizeNodes_root s r hr] at hkn
    injection hkn with hkn
    subst hkn
    simp only at hp
    rcases root_cases_out2 s r hr with h | ⟨m, hm, he⟩
    · subst h
      simp [rootFallback] at hp
    · subst he
      rcases sanitizeEntry_parent_clean s "root" m p hp with h1 | h1
      · exact Or.inl h1
      · right
        rw [keysOf_sanitizeNodes]
        exact keysOf_sub_out2 s p h1
  · rw [lookupN_sanitizeNodes_ne s k hkr, lookupN_sanStep2_ne _ _ hkr,
      lookupN_sanStep1] at hkn
    cases hm : lookupN s k with
    | none => rw [hm] at hkn; simp at hkn
    | some m =>
      rw [hm] at hkn
      simp at hkn
      subst hkn
      rcases sanitizeEntry_parent_clean s k m p hp with h1 | h1
      · exact Or.inl h1
      · right
        rw [keysOf_sanitizeNodes]
        exact keysOf_sub_out2 s p h1

/-- Idempotence of the repair pass, for snapshots whose `id` fields agree with
their keys and whose `root`-keyed node (if any) is not a `Project`. -/
theorem sanitizeNodes_idem (s : St) (hnd : NodupKeys s) (hid : IdConsistent s)
    (hrp : RootNotProject s) :
    sanitizeNodes (sanitizeNodes s) = sanitizeNodes s := by
  rcases out2_root_some s with ⟨r, hr⟩
  have hTnodup : NodupKeys (sanitizeNodes s) := nodup_sanitizeNodes s hnd
  have hrootT : "root" ∈ keysOf (sanitizeNodes s) := by
    rw [keysOf_sanitizeNodes]
    exact root_mem_sanStep2 _
  have h1 : ∀ p ∈ sanitizeNodes s, sanitizeEntry (sanitizeNodes s) p.1 p.2 = p.2 := by
    intro p hp
    obtain ⟨k, n⟩ := p
    have hl : lookupN (sanitizeNodes s) k = some n := mem_lookupN _ k n hTnodup hp
    exact sanitizeEntry_eq_self _ k n
      (fun cid hc => sanitize_children_invariant s hnd hid hrp k n hl cid hc)
      (fun q hq => sanitize_parent_invariant s k n hl q hq)
  have hout2T : sanStep2 (sanStep1 (sanitizeNodes s)) = sanitizeNodes s :=
    sanFix_out2 _ h1 hrootT
  apply sanitizeNodes_eq_self _ h1 hrootT
  intro r2 hr2
  have hr2' : lookupN (sanitizeNodes s) "root" =
      some { r with children := sanRootChildren s r } :=
    lookupN_sanitizeNodes_root s r hr
  rw [hr2'] at hr2
  injection hr2 with hr2
  subst hr2
  set W := sanRootChildren s r with hWdef
  have hall : ∀ cid ∈ W,
      ((lookupN (sanitizeNodes s) cid).map TreeNode.kind ==
        some NodeKind.Project) = true := by
    intro cid hcid
    rcases sanRootChildren_spec s hnd hid hrp r hr cid (hWdef ▸ hcid) with ⟨hk1, hk2⟩
    rw [lookupN_sanitizeNodes_ne s cid hk2, hk1]
    simp
  have hfilt : W.filter
      (fun cid => (lookupN (sanitizeNodes s) cid).map TreeNode.kind ==
        some NodeKind.Project) = W :=
    List.filter_eq_self.2 hall
  show sanRootChildren (sanitizeNodes s)
      { r with children := W } = TreeNode.children { r with children := W }
  unfold sanRootChildren
  rw [hout2T]
  show (if (W.filter (fun cid => (lookupN (sanitizeNodes s) cid).map TreeNode.kind ==
        some NodeKind.Project)).isEmpty
      then projectsOf (sanitizeNodes s)
      else W.filter (fun cid => (lookupN (sanitizeNodes s) cid).map TreeNode.kind ==
        some NodeKind.Project)) = W
  rw [hfilt]
  by_cases hW : W.isEmpty
  · rw [if_pos hW]
    have hWnil : W = [] := List.isEmpty_iff.1 hW
    have hproj2 : projectsOf (sanStep2 (sanStep1 s)) = [] := by
      rw [hWdef] at hWnil
      unfold sanRootChildren at hWnil
      by_cases hV : (r.children.filter
          (fun cid => (lookupN (sanStep2 (sanStep1 s)) cid).map TreeNode.kind ==
            some NodeKind.Project)).isEmpty
      · rw [if_pos hV] at hWnil
        exact hWnil
      · rw [if_neg hV] at hWnil
        exact absurd (List.isEmpty_iff.2 hWnil) hV
    have hprojT : projectsOf (sanitizeNodes s) = projectsOf (sanStep2 (sanStep1 s)) := by
      rw [sanitizeNodes_eq_setRoot s r hr]
      exact projectsOf_setN _ _ _ _ hr rfl rfl
    rw [hprojT, hproj2, hWnil]
  · rw [if_neg hW]

/-! ## Claim C1 — idempotence of the repair pass -/

/-- **C1** (corrected).  The claim "`repair(repair(s)) == repair(s)` for every
snapshot `s`" fails when the `root`-keyed node has kind `Project` (see
`C1_counterexample`) or when a node's `id` field differs from its key.  The
amended statement: the repair pass `sanitizeNodes` is idempotent on every
snapshot (duplicate-free id-keyed map) whose nodes' `id` fields agree with
their keys and whose `root`-keyed node, if present, is not a `Project`. -/
theorem C1_repair_idempotent_amended (s : St) (hnd : NodupKeys s)
    (hid : IdConsistent s) (hrp : RootNotProject s) :
    sanitizeNodes (sanitizeNodes s) = sanitizeNodes s :=
  sanitizeNodes_idem s hnd hid hrp

/-- Witness for C1: a concrete well-formed snapshot satisfying all three
hypotheses, on which the amended theorem applies. -/
theorem C1_witness :
    (NodupKeys witSnap ∧ IdConsistent witSnap ∧ RootNotProject witSnap) ∧
      sanitizeNodes (sanitizeNodes witSnap) = sanitizeNodes witSnap :=
  ⟨⟨by decide, by decide, by decide⟩,
    C1_repair_idempotent_amended witSnap (by decide) (by decide) (by decide)⟩

/-- Counterexample for C1 as stated: on the snapshot whose `root` key holds a
`Project` node next to a second `Project`, step 3 writes
`root.children = ["root", "p"]` on the first pass; the second pass drops the
self-reference and keeps the now-valid child `["p"]`, so repairing twice
differs from repairing once. -/
theorem C1_counterexample :
    sanitizeNodes (sanitizeNodes cexC1snap) ≠ sanitizeNodes cexC1snap := by decide

/-! ## Claim C5 — child integrity after repair -/

/-- **C5** (corrected).  The claim "after repair every id in every node's
`children` exists in the map and differs from that node's own id" fails as
stated: when the `root`-keyed node is itself a `Project`, step 3 writes
`root` into its own `children` (see `C5_counterexample`); a node whose `id`
field differs from its key likewise puts dangling ids into `root.children`.
Amended: for every snapshot whose `id` fields agree with their keys and whose
`root`-keyed node is not a `Project`, after `sanitizeNodes` every id in every
node's `children` is a key of the repaired map and differs from that node's
own key. -/
theorem C5_children_invariant_amended (s : St) (hnd : NodupKeys s)
    (hid : IdConsistent s) (hrp : RootNotProject s) :
    ∀ k n, lookupN (sanitizeNodes s) k = some n → ∀ cid ∈ n.children,
      cid ∈ keysOf (sanitizeNodes s) ∧ cid ≠ k :=
  sanitize_children_invariant s hnd hid hrp

/-- Witness for C5: on the concrete snapshot `witSnap` the repaired root keeps
its child `a`, which is a key of the repaired map and differs from `root`. -/
theorem C5_witness :
    (NodupKeys witSnap ∧ IdConsistent witSnap ∧ RootNotProject witSnap) ∧
      ("a" ∈ keysOf (sanitizeNodes witSnap) ∧ "a" ≠ "root") :=
  ⟨⟨by decide, by decide, by decide⟩,
    C5_children_invariant_amended witSnap (by decide) (by decide) (by decide)
      "root" witRoot (by decide) "a" (by decide)⟩

/-- Counterexample for C5 as stated: repairing the snapshot whose only node is
a `Project` stored under the key `root` produces a root node that lists its
own id `root` among its `children`. -/
theorem C5_counterexample :
    (lookupN (sanitizeNodes cexC5snap) "root").map TreeNode.children =
      some ["root"] := by decide

/-! ## Claim C3 — the identifier compressor -/

theorem toBase64Chars_mem (n : Nat) : toBase64Chars n ∈ guidChars := by
  unfold toBase64Chars
  by_cases h : n < guidChars.length
  · rw [List.getD_eq_getElem?_getD, List.getElem?_eq_getElem h]
    exact List.getElem_mem _
  · rw [List.getD_eq_getElem?_getD, List.getElem?_eq_none (Nat.le_of_not_lt h)]
    decide

/-- **C3** (corrected).  The claim promises a 22-character output over the
fixed 64-symbol alphabet for every input reducing to 32 hex digits, and an
error for every input not reducing to 32 hex digits.  The error half is wrong:
the source checks only the length after separator removal, never hex-ness
(see `C3_counterexample`).  Amended: after removing `-` separators, an input
of length exactly 32 (hex or not — byte pairs that fail to parse are read as
0) yields a 22-character string whose characters all come from the 64-symbol
alphabet, and an input of any other length raises. -/
theorem C3_codec_amended (uuid : String) :
    ((uuid.toList.filter (fun c => c != '-')).length = 32 →
      ∃ out, ifcGuidFromUuid uuid = .ok out ∧ out.length = 22 ∧
        ∀ c ∈ out.toList, c ∈ guidChars) ∧
    ((uuid.toList.filter (fun c => c != '-')).length ≠ 32 →
      ifcGuidFromUuid uuid = .error "UUID must be 32 hex chars") := by
  constructor
  · intro h
    refine ⟨ifcGuidCompress (uuid.toList.filter (fun c => c != '-')), ?_, ?_, ?_⟩
    · simp only [ifcGuidFromUuid]
      rw [if_neg (by simp only [ne_eq, not_not]; exact h)]
    · unfold ifcGuidCompress
      simp [String.length]
    · intro c hc
      unfold ifcGuidCompress at hc
      simp only [String.toList] at hc
      rcases List.mem_map.1 hc with ⟨i, _, he⟩
      rw [← he]
      exact toBase64Chars_mem _
  · intro h
    simp only [ifcGuidFromUuid]
    rw [if_pos h]

/-- Witness for C3: a syntactically valid UUID string satisfies the length
hypothesis and compresses to 22 alphabet characters. -/
theorem C3_witness :
    ((witC3uuid.toList.filter (fun c => c != '-')).length = 32) ∧
    (∃ out, ifcGuidFromUuid witC3uuid = .ok out ∧ out.length = 22 ∧
      ∀ c ∈ out.toList, c ∈ guidChars) :=
  ⟨by decide, (C3_codec_amended witC3uuid).1 (by decide)⟩

/-- Counterexample for C3 as stated: 32 letters `z` are not hex digits, yet
the compressor does not raise — it returns the 22-character string of zeros
(every `parseInt` on a `zz` pair is NaN, stored as byte 0). -/
theorem C3_counterexample :
    (ifcGuidFromUuid cexC3uuid).toOption = some (String.mk (List.replicate 22 '0')) ∧
      cexC3uuid.toList.all isHexDigit = false := by decide

/-! ### Behavioral lemmas for the move operations -/

theorem lookupN_detach_ne (cid : String) (pid : Option String) (s : St) (x : String)
    (hx : ∀ p, pid = some p → x ≠ p) :
    lookupN (detachFromParent cid pid s) x = lookupN s x := by
  unfold detachFromParent
  cases pid with
  | none => rfl
  | some p =>
    dsimp only
    by_cases hp : p = ""
    · rw [if_pos hp]
    · rw [if_neg hp]
      cases hl : lookupN s p with
      | none => rfl
      | some po => exact lookupN_setN_ne _ _ _ _ (hx p rfl)

theorem lookupN_detach_hit (cid p : String) (s : St) (po : TreeNode)
    (hp : p ≠ "") (hpo : lookupN s p = some po) :
    lookupN (detachFromParent cid (some p) s) p =
      some { po with children := po.children.filter (fun c => c != cid) } := by
  unfold detachFromParent
  dsimp only
  rw [if_neg hp, hpo]
  exact lookupN_setN_self _ _ _

theorem lookupN_attach_ne (cid tid : String) (s : St) (x : String) (hx : x ≠ tid) :
    lookupN (attachToParent cid tid s) x = lookupN s x := by
  unfold attachToParent
  cases hl : lookupN s tid with
  | none => rfl
  | some p => exact lookupN_setN_ne _ _ _ _ hx

theorem lookupN_attach_hit (cid tid : String) (s : St) (t' : TreeNode)
    (ht : lookupN s tid = some t') :
    lookupN (attachToParent cid tid s) tid =
      some { t' with children := t'.children ++ [cid] } := by
  unfold attachToParent
  rw [ht]
  exact lookupN_setN_self _ _ _

theorem moveDetachAttach_guard_child (ck pk : NodeKind) (s : St) (cid tid : String)
    (h : (lookupN s cid).map TreeNode.kind ≠ some ck) :
    moveDetachAttach ck pk s cid tid = s := by
  unfold moveDetachAttach
  cases hb : lookupN s cid with
  | none => cases ht : lookupN s tid <;> rfl
  | some b =>
    cases ht : lookupN s tid with
    | none => rfl
    | some t' =>
      have hbk : b.kind ≠ ck := by
        intro he
        apply h
        rw [hb]
        simp [he]
      simp only
      rw [if_pos hbk]

theorem moveDetachAttach_guard_target (ck pk : NodeKind) (s : St) (cid tid : String)
    (h : (lookupN s tid).map TreeNode.kind ≠ some pk) :
    moveDetachAttach ck pk s cid tid = s := by
  unfold moveDetachAttach
  cases hb : lookupN s cid with
  | none => cases ht : lookupN s tid <;> rfl
  | some b =>
    cases ht : lookupN s tid with
    | none => rfl
    | some t' =>
      have htk : t'.kind ≠ pk := by
        intro he
        apply h
        rw [ht]
        simp [he]
      simp only
      by_cases hbk : b.kind ≠ ck
      · rw [if_pos hbk]
      · rw [if_neg hbk, if_pos htk]

theorem moveDetachAttach_guard_same (ck pk : NodeKind) (s : St) (cid tid : String)
    (b : TreeNode) (hb : lookupN s cid = some b) (hpar : b.parentId = some tid) :
    moveDetachAttach ck pk s cid tid = s := by
  unfold moveDetachAttach
  rw [hb]
  cases ht : lookupN s tid with
  | none => rfl
  | some t' =>
    simp only
    by_cases hbk : b.kind ≠ ck
    · rw [if_pos hbk]
    · rw [if_neg hbk]
      by_cases htk : t'.kind ≠ pk
      · rw [if_pos htk]
      · rw [if_neg htk, if_pos hpar]

theorem moveDetachAttach_success (ck pk : NodeKind) (hck : ck ≠ pk) (s : St)
    (cid tid : String) (b t' : TreeNode)
    (hb : lookupN s cid = some b) (hbk : b.kind = ck)
    (ht : lookupN s tid = some t') (htk : t'.kind = pk)
    (hpar : b.parentId ≠ some tid) :
    lookupN (moveDetachAttach ck pk s cid tid) cid =
      some { b with parentId := some tid } ∧
    lookupN (moveDetachAttach ck pk s cid tid) tid =
      some { t' with children := t'.children ++ [cid] } ∧
    (∀ old po, b.parentId = some old → old ≠ "" → old ≠ cid →
      lookupN s old = some po →
      lookupN (moveDetachAttach ck pk s cid tid) old =
        some { po with children := po.children.filter (fun c => c != cid) }) ∧
    (∀ x, x ≠ cid → x ≠ tid → b.parentId ≠ some x →
      lookupN (moveDetachAttach ck pk s cid tid) x = lookupN s x) := by
  have hct : cid ≠ tid := by
    intro he
    subst he
    rw [hb] at ht
    injection ht with ht
    rw [ht, htk] at hbk
    exact hck hbk.symm
  have htc : tid ≠ cid := Ne.symm hct
  have hred : moveDetachAttach ck pk s cid tid =
      setN (attachToParent cid tid (detachFromParent cid b.parentId s)) cid
        { b with parentId := some tid } := by
    unfold moveDetachAttach
    rw [hb, ht]
    simp only
    rw [if_neg (by simp [hbk]), if_neg (by simp [htk]), if_neg hpar]
  have hpar_tid : ∀ p, b.parentId = some p → tid ≠ p := by
    intro p hp he
    subst he
    exact hpar hp
  refine ⟨?_, ?_, ?_, ?_⟩
  · rw [hred]
    exact lookupN_setN_self _ _ _
  · rw [hred, lookupN_setN_ne _ _ _ _ htc,
      lookupN_attach_hit cid tid _ t' (by rw [lookupN_detach_ne cid b.parentId s tid hpar_tid]; exact ht)]
  · intro old po hold hne hnec hpo
    have hot : old ≠ tid := by
      intro he
      subst he
      exact hpar hold
    rw [hred, lookupN_setN_ne _ _ _ _ hnec, lookupN_attach_ne _ _ _ _ hot,
      hold, lookupN_detach_hit cid old s po hne hpo]
  · intro x hxc hxt hxp
    have hxp2 : ∀ p, b.parentId = some p → x ≠ p := by
      intro p hp he
      subst he
      exact hxp hp
    rw [hred, lookupN_setN_ne _ _ _ _ hxc, lookupN_attach_ne _ _ _ _ hxt,
      lookupN_detach_ne _ _ _ _ hxp2]

/-! ### Behavioral lemmas for `moveObjectToGroup` -/

theorem moveObjectToGroup_guard_obj (s : St) (oid tid : String)
    (h : (lookupN s oid).map TreeNode.kind ≠ some NodeKind.Object) :
    moveObjectToGroup s oid tid = s := by
  unfold moveObjectToGroup
  cases hb : lookupN s oid with
  | none => cases ht : lookupN s tid <;> rfl
  | some obj =>
    cases ht : lookupN s tid with
    | none => rfl
    | some tg =>
      have hk : obj.kind ≠ NodeKind.Object := by
        intro he
        apply h
        rw [hb]
        simp [he]
      simp only
      rw [if_pos hk]

theorem moveObjectToGroup_guard_target (s : St) (oid tid : String)
    (h : (lookupN s tid).map TreeNode.kind ≠ some NodeKind.ClassGroup) :
    moveObjectToGroup s oid tid = s := by
  unfold moveObjectToGroup
  cases hb : lookupN s oid with
  | none => cases ht : lookupN s tid <;> rfl
  | some obj =>
    cases ht : lookupN s tid with
    | none => rfl
    | some tg =>
      have hk : tg.kind ≠ NodeKind.ClassGroup := by
        intro he
        apply h
        rw [ht]
        simp [he]
      simp only
      by_cases hok : obj.kind ≠ NodeKind.Object
      · rw [if_pos hok]
      · rw [if_neg hok, if_pos hk]

theorem moveObjectToGroup_guard_noparent (s : St) (oid tid : String) (obj : TreeNode)
    (hb : lookupN s oid = some obj)
    (hpar : obj.parentId = none ∨ obj.parentId = some "") :
    moveObjectToGroup s oid tid = s := by
  unfold moveObjectToGroup
  rw [hb]
  cases ht : lookupN s tid with
  | none => rfl
  | some tg =>
    simp only
    by_cases hok : obj.kind ≠ NodeKind.Object
    · rw [if_pos hok]
    · rw [if_neg hok]
      by_cases htk : tg.kind ≠ NodeKind.ClassGroup
      · rw [if_pos htk]
      · rw [if_neg htk]
        rcases hpar with hp | hp
        · rw [hp]
        · rw [hp]
          simp

theorem moveObjectToGroup_success (s : St) (oid tid : String) (obj tg : TreeNode)
    (og : String)
    (hb : lookupN s oid = some obj) (hk : obj.kind = NodeKind.Object)
    (ht : lookupN s tid = some tg) (htk : tg.kind = NodeKind.ClassGroup)
    (hog : obj.parentId = some og) (hogne : og ≠ "") :
    lookupN (moveObjectToGroup s oid tid) oid =
      some { obj with parentId := some tid, ifcClass := tg.ifcClass } ∧
    lookupN (moveObjectToGroup s oid tid) tid =
      some { tg with children := tg.children ++ [oid] } ∧
    (og ≠ oid → og ≠ tid → ∀ go, lookupN s og = some go →
      lookupN (moveObjectToGroup s oid tid) og =
        some (if go.kind = NodeKind.ClassGroup then
          { go with children := go.children.filter (fun c => c != oid) } else go)) ∧
    (∀ x, x ≠ oid → x ≠ tid → x ≠ og →
      lookupN (moveObjectToGroup s oid tid) x = lookupN s x) := by
  have hto : tid ≠ oid := by
    intro he
    subst he
    rw [hb] at ht
    injection ht with ht
    rw [ht, htk] at hk
    exact absurd hk (by decide)
  have hot : oid ≠ tid := Ne.symm hto
  have hred : moveObjectToGroup s oid tid =
      setN (setN
        (match lookupN s og with
         | some oldGroup =>
           if oldGroup.kind = NodeKind.ClassGroup then
             setN s og { oldGroup with children := oldGroup.children.filter (fun c => c != oid) }
           else s
         | none => s) tid { tg with children := tg.children ++ [oid] })
        oid { obj with parentId := some tid, ifcClass := tg.ifcClass } := by
    unfold moveObjectToGroup
    rw [hb, ht]
    simp only
    rw [if_neg (by simp [hk]), if_neg (by simp [htk]), hog]
    simp only
    rw [if_neg hogne]
  have hdet_lookup : ∀ x, x ≠ og →
      lookupN (match lookupN s og with
        | some oldGroup =>
          if oldGroup.kind = NodeKind.ClassGroup then
            setN s og { oldGroup with children := oldGroup.children.filter (fun c => c != oid) }
          else s
        | none => s) x = lookupN s x := by
    intro x hx
    cases hl : lookupN s og with
    | none => rfl
    | some go =>
      simp only
      by_cases hgk : go.kind = NodeKind.ClassGroup
      · rw [if_pos hgk]
        exact lookupN_setN_ne _ _ _ _ hx
      · rw [if_neg hgk]
  refine ⟨?_, ?_, ?_, ?_⟩
  · rw [hred]
    exact lookupN_setN_self _ _ _
  · rw [hred, lookupN_setN_ne _ _ _ _ hto]
    exact lookupN_setN_self _ _ _
  · intro hgo hgt go hgol
    rw [hred, lookupN_setN_ne _ _ _ _ hgo, lookupN_setN_ne _ _ _ _ hgt, hgol]
    simp only
    by_cases hgk : go.kind = NodeKind.ClassGroup
    · rw [if_pos hgk, if_pos hgk]
      exact lookupN_setN_self _ _ _
    · rw [if_neg hgk, if_neg hgk]
      exact hgol
  · intro x hxo hxt hxg
    rw [hred, lookupN_setN_ne _ _ _ _ hxo, lookupN_setN_ne _ _ _ _ hxt]
    exact hdet_lookup x hxg

/-! ## Claim C4 — the tag-uniqueness retry loop -/

theorem applyPattern_custom_const (n : Int) :
    applyPattern "{CUSTOM}" cexC4tokenMap n = "X" := rfl

/-- **C4** (code bug).  The claim — echoing the spec requirement — says the
uniqueness retry loop of `bulkApplyTags` / batch `createObject` terminates
within a bounded number of attempts and fails with a `PatternExhausted`
error.  The source loop has no ceiling and no error path at all: on the
pattern `{CUSTOM}` with custom token `X` and an existing tag `X`, the
candidate label never changes, so after any number `fuel` of attempts the
loop is still running, from every counter value. -/
theorem C4_retry_loop_unbounded :
    ∀ fuel n, tagRetryLoop ["X"] "{CUSTOM}" cexC4tokenMap 1 fuel n = none := by
  intro fuel
  induction fuel with
  | zero => intro n; rfl
  | succ f ih =>
    intro n
    show tagRetryLoop ["X"] "{CUSTOM}" cexC4tokenMap 1 (f + 1) n = none
    unfold tagRetryLoop
    rw [applyPattern_custom_const n]
    simp only [List.mem_singleton, if_pos rfl]
    exact ih (n + 1)


/-! ## Claim C7 — the move operations -/

/-- **C7** (corrected).  As stated the claim fails: `moveBuildingToSite` /
`moveStoreyToBuilding` also return the input unchanged when the node already
sits under the target parent (instead of the described detach-and-re-attach,
which would move it to the end of the `children` list — see
`C7_counterexample`), and `moveObjectToGroup` additionally no-ops when the
object has no (or an empty) current `parentId`.  Amended, per operation:
(1) a missing or wrongly-kinded node or target leaves the snapshot unchanged;
(2) building/storey moves also leave it unchanged when the node's `parentId`
already equals the target;
(3) object moves also leave it unchanged when the object's `parentId` is
absent or empty;
(4) otherwise the node is detached from its old parent's `children`
(for object moves only when the old parent has kind `ClassGroup`; for
building/storey moves regardless of the old parent's kind), appended to the
target's `children` (object moves read the target's pre-detach value, so a
move onto the current group duplicates the entry), and rewritten with the new
`parentId` (object moves also overwrite `ifcClass` with the target group's);
every other entry is untouched. -/
theorem C7_moves_amended (s : St) (nid tid : String) :
    (((lookupN s nid).map TreeNode.kind ≠ some NodeKind.Building →
        moveBuildingToSite s nid tid = s) ∧
     ((lookupN s tid).map TreeNode.kind ≠ some NodeKind.Site →
        moveBuildingToSite s nid tid = s) ∧
     (∀ b, lookupN s nid = some b → b.parentId = some tid →
        moveBuildingToSite s nid tid = s) ∧
     (∀ b t2, lookupN s nid = some b → b.kind = NodeKind.Building →
        lookupN s tid = some t2 → t2.kind = NodeKind.Site → b.parentId ≠ some tid →
        lookupN (moveBuildingToSite s nid tid) nid =
          some { b with parentId := some tid } ∧
        lookupN (moveBuildingToSite s nid tid) tid =
          some { t2 with children := t2.children ++ [nid] } ∧
        (∀ old po, b.parentId = some old → old ≠ "" → old ≠ nid →
          lookupN s old = some po →
          lookupN (moveBuildingToSite s nid tid) old =
            some { po with children := po.children.filter (fun c => c != nid) }) ∧
        (∀ x, x ≠ nid → x ≠ tid → b.parentId ≠ some x →
          lookupN (moveBuildingToSite s nid tid) x = lookupN s x))) ∧
    (((lookupN s nid).map TreeNode.kind ≠ some NodeKind.Storey →
        moveStoreyToBuilding s nid tid = s) ∧
     ((lookupN s tid).map TreeNode.kind ≠ some NodeKind.Building →
        moveStoreyToBuilding s nid tid = s) ∧
     (∀ b, lookupN s nid = some b → b.parentId = some tid →
        moveStoreyToBuilding s nid tid = s) ∧
     (∀ b t2, lookupN s nid = some b → b.kind = NodeKind.Storey →
        lookupN s tid = some t2 → t2.kind = NodeKind.Building → b.parentId ≠ some tid →
        lookupN (moveStoreyToBuilding s nid tid) nid =
          some { b with parentId := some tid } ∧
        lookupN (moveStoreyToBuilding s nid tid) tid =
          some { t2 with children := t2.children ++ [nid] } ∧
        (∀ old po, b.parentId = some old → old ≠ "" → old ≠ nid →
          lookupN s old = some po →
          lookupN (moveStoreyToBuilding s nid tid) old =
            some { po with children := po.children.filter (fun c => c != nid) }) ∧
        (∀ x, x ≠ nid → x ≠ tid → b.parentId ≠ some x →
          lookupN (moveStoreyToBuilding s nid tid) x = lookupN s x))) ∧
    (((lookupN s nid).map TreeNode.kind ≠ some NodeKind.Object →
        moveObjectToGroup s nid tid = s) ∧
     ((lookupN s tid).map TreeNode.kind ≠ some NodeKind.ClassGroup →
        moveObjectToGroup s nid tid = s) ∧
     (∀ obj, lookupN s nid = some obj →
        (obj.parentId = none ∨ obj.parentId = some "") →
        moveObjectToGroup s nid tid = s) ∧
     (∀ obj tg og, lookupN s nid = some obj → obj.kind = NodeKind.Object →
        lookupN s tid = some tg → tg.kind = NodeKind.ClassGroup →
        obj.parentId = some og → og ≠ "" →
        lookupN (moveObjectToGroup s nid tid) nid =
          some { obj with parentId := some tid, ifcClass := tg.ifcClass } ∧
        lookupN (moveObjectToGroup s nid tid) tid =
          some { tg with children := tg.children ++ [nid] } ∧
        (og ≠ nid → og ≠ tid → ∀ go, lookupN s og = some go →
          lookupN (moveObjectToGroup s nid tid) og =
            some (if go.kind = NodeKind.ClassGroup then
              { go with children := go.children.filter (fun c => c != nid) } else go)) ∧
        (∀ x, x ≠ nid → x ≠ tid → x ≠ og →
          lookupN (moveObjectToGroup s nid tid) x = lookupN s x))) := by
  refine ⟨⟨?_, ?_, ?_, ?_⟩, ⟨?_, ?_, ?_, ?_⟩, ⟨?_, ?_, ?_, ?_⟩⟩
  · exact moveDetachAttach_guard_child _ _ s nid tid
  · exact moveDetachAttach_guard_target _ _ s nid tid
  · exact fun b hb hp => moveDetachAttach_guard_same _ _ s nid tid b hb hp
  · exact fun b t2 hb hbk ht htk hpar =>
      moveDetachAttach_success _ _ (by decide) s nid tid b t2 hb hbk ht htk hpar
  · exact moveDetachAttach_guard_child _ _ s nid tid
  · exact moveDetachAttach_guard_target _ _ s nid tid
  · exact fun b hb hp => moveDetachAttach_guard_same _ _ s nid tid b hb hp
  · exact fun b t2 hb hbk ht htk hpar =>
      moveDetachAttach_success _ _ (by decide) s nid tid b t2 hb hbk ht htk hpar
  · exact moveObjectToGroup_guard_obj s nid tid
  · exact moveObjectToGroup_guard_target s nid tid
  · exact fun obj hb hp => moveObjectToGroup_guard_noparent s nid tid obj hb hp
  · exact fun obj tg og hb hk ht htk hog hogne =>
      moveObjectToGroup_success s nid tid obj tg og hb hk ht htk hog hogne

/-- Witness for C7: moving the object `o1` from group `g1` to group `g2` in
the concrete snapshot updates its parent and class and appends it to `g2`. -/
theorem C7_witness :
    lookupN (moveObjectToGroup witC7snap "o1" "g2") "o1" =
      some { id := "o1", kind := .Object, name := "P1", parentId := some "g2",
             ifcClass := some "IfcValve" } ∧
    lookupN (moveObjectToGroup witC7snap "o1" "g2") "g2" =
      some { id := "g2", kind := .ClassGroup, name := "IfcValve",
             children := ["o1"], ifcClass := some "IfcValve" } :=
  have h := ((C7_moves_amended witC7snap "o1" "g2").2.2).2.2.2
    { id := "o1", kind := .Object, name := "P1", parentId := some "g1",
      ifcClass := some "IfcPump" }
    { id := "g2", kind := .ClassGroup, name := "IfcValve",
      ifcClass := some "IfcValve" }
    "g1" (by decide) rfl (by decide) rfl (by decide) (by decide)
  ⟨h.1, h.2.1⟩

/-- Counterexample for C7 as stated: in `cexC7snap` both ids exist with
compatible kinds (`b1` a Building, `S` a Site), yet `moveBuildingToSite`
returns the input unchanged because `b1` already sits under `S`, whereas the
detach-then-attach the claim describes for the compatible case would reorder
`S.children` to `["b2", "b1"]`. -/
theorem C7_counterexample :
    (lookupN cexC7snap "b1").map TreeNode.kind = some NodeKind.Building ∧
    (lookupN cexC7snap "S").map TreeNode.kind = some NodeKind.Site ∧
    moveBuildingToSite cexC7snap "b1" "S" = cexC7snap ∧
    moveSpecDescribed cexC7snap "b1" "S" ≠ cexC7snap := by decide

/-! ## Claim C9 — classification invariants of the importer -/

theorem classInv_setN (u : St) (k : String) (v : TreeNode)
    (hu : ClassInv u) (hv : ClassOk v) : ClassInv (setN u k v) := by
  intro x n hx
  by_cases hk : x = k
  · subst hk
    rw [lookupN_setN_self] at hx
    injection hx with hx
    subst hx
    exact hv
  · rw [lookupN_setN_ne _ _ _ _ hk] at hx
    exact hu x n hx

theorem classOk_merge (existing node : TreeNode)
    (he : ClassOk existing) (hn : ClassOk node) :
    ClassOk { id := node.id, kind := node.kind,
              name := if existing.name ≠ "" then existing.name else node.name,
              parentId := node.parentId,
              children := if existing.children.isEmpty then node.children else existing.children,
              ifcClass := match existing.ifcClass with
                | some c => some c
                | none => node.ifcClass,
              tag := match existing.tag with
                | some t => some t
                | none => node.tag,
              psets := mergePsets existing.psets node.psets,
              ifc := match node.ifc with
                | some m => some m
                | none => existing.ifc } := by
  constructor
  · cases hec : existing.ifcClass with
    | none => simpa using hn.1
    | some c =>
      rcases he.1 with h | h
      · rw [hec] at h
        exact absurd h (by simp)
      · rw [hec] at h
        injection h with h
        subst h
        simp
  · intro hk
    simp only at hk
    rcases hn.2 hk with ⟨hcls, stid, hpar⟩
    refine ⟨?_, stid, by simpa using hpar⟩
    cases hec : existing.ifcClass with
    | none => simpa using hcls
    | some c =>
      rcases he.1 with h | h
      · rw [hec] at h
        exact absurd h (by simp)
      · rw [hec] at h
        injection h with h
        subst h
        simp

theorem classInv_upsertNode (u : St) (node : TreeNode)
    (hu : ClassInv u) (hn : ClassOk node) : ClassInv (upsertNode u node) := by
  unfold upsertNode
  cases hl : lookupN u node.id with
  | none => exact classInv_setN u node.id node hu hn
  | some existing =>
    exact classInv_setN u node.id _ hu (classOk_merge existing node (hu _ _ hl) hn)

theorem classInv_ensureNode (u : St) (id : String) (fb : TreeNode)
    (hu : ClassInv u) (hfb : ClassOk fb) : ClassInv (ensureNode u id fb) := by
  unfold ensureNode
  by_cases hc : containsN u id
  · rw [if_pos hc]
    exact hu
  · rw [if_neg hc]
    exact classInv_setN u id fb hu hfb

theorem classInv_ensureChild (u : St) (pid cid : String)
    (hu : ClassInv u) : ClassInv (ensureChild u pid cid) := by
  unfold ensureChild
  cases hl : lookupN u pid with
  | none => exact hu
  | some p =>
    simp only
    by_cases hc : cid ∈ p.children
    · rw [if_pos hc]
      exact hu
    · rw [if_neg hc]
      refine classInv_setN u pid _ hu ?_
      have := hu pid p hl
      exact ⟨this.1, fun hk => by
        rcases this.2 hk with ⟨h1, stid, h2⟩
        exact ⟨h1, stid, h2⟩⟩

theorem classInv_synthStorey (u : St) (bid : String)
    (hu : ClassInv u) : ClassInv (ensureSyntheticStorey u bid).1 := by
  unfold ensureSyntheticStorey
  by_cases hc : containsN u ("ifc:storey:synthetic:" ++ bid)
  · rw [if_pos hc]
    exact hu
  · rw [if_neg hc]
    exact classInv_ensureChild _ _ _
      (classInv_upsertNode u _ hu ⟨Or.inl rfl, by simp⟩)

theorem classInv_fallback (u : St)
    (hu : ClassInv u) : ClassInv (ensureFallbackSpatialContainers u).1 := by
  unfold ensureFallbackSpatialContainers
  apply classInv_synthStorey
  split
  · split
    · exact hu
    · exact classInv_ensureChild _ _ _
        (classInv_upsertNode _ _ hu ⟨Or.inl rfl, by simp⟩)
  · have hd : ClassInv (ensureChild (upsertNode u
        { id := "ifc:project:default", kind := .Project, name := "Imported Project",
          parentId := some "root", children := [] }) "root" "ifc:project:default") :=
      classInv_ensureChild _ _ _
        (classInv_upsertNode _ _ hu ⟨Or.inl rfl, by simp⟩)
    split
    · exact hd
    · exact classInv_ensureChild _ _ _
        (classInv_upsertNode _ _ hd ⟨Or.inl rfl, by simp⟩)

theorem spatialKind_ne_object (t : String) (k : NodeKind)
    (h : spatialKindFromIfcType t = some k) : k ≠ NodeKind.Object := by
  unfold spatialKindFromIfcType at h
  split_ifs at h <;> injection h with h <;> subst h <;> decide

theorem ifcClassForElement_eq (t : String) :
    ifcClassForElement t = "IfcBuildingElementProxy" := by
  unfold ifcClassForElement
  split <;> rfl

theorem strAppend_assoc (a b c : String) : a ++ b ++ c = a ++ (b ++ c) := by
  apply congrArg String.mk
  exact List.append_assoc a.data b.data c.data

/-- Every snapshot reachable by the walk from a `ClassInv` snapshot satisfies
`ClassInv`. -/
theorem walk_classInv :
    (∀ sp : SpatialNode, ∀ (a : Attrs) (m : Nat) (p : String) (st : Option String)
      (u : St), ClassInv u → ClassInv (walk a m sp p st u)) ∧
    (∀ f : SpatialForest, ∀ (a : Attrs) (m : Nat) (p : String) (st : Option String)
      (u : St), ClassInv u → ClassInv (walkF a m f p st u)) := by
  refine spatialInduction
    (fun sp => ∀ a m p st u, ClassInv u → ClassInv (walk a m sp p st u))
    (fun f => ∀ a m p st u, ClassInv u → ClassInv (walkF a m f p st u))
    ?_ ?_ ?_
  · intro e ty ch ih a m p st u hu
    rw [walk.eq_def]
    dsimp only
    cases hk : spatialKindFromIfcType (jsToUpper ty) with
    | some kind =>
      dsimp only
      apply ih
      apply classInv_ensureChild
      apply classInv_upsertNode
      · exact classInv_ensureNode _ _ _ hu ⟨Or.inl rfl, by simp⟩
      · exact ⟨Or.inl rfl, fun hko => absurd hko (spatialKind_ne_object _ _ hk)⟩
    | none =>
      dsimp only
      have hres : ClassInv (match st with
          | some sid => ((u, sid) : St × String)
          | none =>
            match leafBuildingId u p with
            | some bid => ensureSyntheticStorey u bid
            | none => ensureFallbackSpatialContainers u).1 := by
        cases st with
        | some sid => exact hu
        | none =>
          cases leafBuildingId u p with
          | some bid => exact classInv_synthStorey _ _ hu
          | none => exact classInv_fallback _ hu
      apply ih
      apply classInv_ensureChild
      apply classInv_upsertNode
      · split
        · exact hres
        · exact classInv_ensureChild _ _ _
            (classInv_upsertNode _ _ hres ⟨Or.inr (by rw [ifcClassForElement_eq]),
              by simp⟩)
      · refine ⟨Or.inr (by simp [ifcClassForElement_eq]), fun _ => ?_⟩
        refine ⟨by simp [ifcClassForElement_eq], ?_⟩
        refine ⟨(match st with
          | some sid => ((u, sid) : St × String)
          | none =>
            match leafBuildingId u p with
            | some bid => ensureSyntheticStorey u bid
            | none => ensureFallbackSpatialContainers u).2, ?_⟩
        simp only [ifcClassForElement_eq]
        rw [strAppend_assoc]
        rfl
  · intro a m p st u hu
    rw [walkF.eq_def]
    exact hu
  · intro h t ihh iht a m p st u hu
    rw [walkF.eq_def]
    exact iht a m p st _ (ihh a m p st u hu)

/-! ## Claim C9 — every import classification is the proxy class -/

/-- **C9** (confirmed).  `ifcClassForElement` maps every IFC type tag to
`IfcBuildingElementProxy`, and starting from an empty tree every `Object`
node the importer produces carries that class and sits under a class group
whose id is the enclosing storey id concatenated with
`__IfcBuildingElementProxy`; no other classification is ever produced. -/
theorem C9_import_classification :
    (∀ ty, ifcClassForElement ty = "IfcBuildingElementProxy") ∧
    (∀ (a : Attrs) (m : Nat) (sp : SpatialNode) (k : String) (n : TreeNode),
      lookupN (importIfcIntoCoordinator a m sp []) k = some n →
      n.kind = NodeKind.Object →
      n.ifcClass = some "IfcBuildingElementProxy" ∧
      ∃ stid, n.parentId = some (stid ++ "__IfcBuildingElementProxy")) := by
  refine ⟨ifcClassForElement_eq, ?_⟩
  intro a m sp k n hl hk
  have hinv : ClassInv (importIfcIntoCoordinator a m sp []) := by
    unfold importIfcIntoCoordinator
    apply walk_classInv.1
    apply classInv_ensureNode
    · intro x q hx
      simp [lookupN] at hx
    · exact ⟨Or.inl rfl, by simp⟩
  exact (hinv k n hl).2 hk

/-- Witness for C9: the object imported from a single unrecognized leaf. -/
theorem C9_witness :
    (lookupN (importIfcIntoCoordinator impAttrsNone 0 impLeafWall []) "ifc:obj:0:7" =
      some impLeafWallObj ∧ impLeafWallObj.kind = NodeKind.Object) ∧
    (impLeafWallObj.ifcClass = some "IfcBuildingElementProxy" ∧
      ∃ stid, impLeafWallObj.parentId = some (stid ++ "__IfcBuildingElementProxy")) :=
  ⟨⟨by decide, by decide⟩,
    C9_import_classification.2 impAttrsNone 0 impLeafWall "ifc:obj:0:7" impLeafWallObj
      (by decide) (by decide)⟩

/-! ### C8: deterministic fallback containers for an unrecognized leaf -/

theorem strDataAppend (s t : String) : (s ++ t).data = s.data ++ t.data := by
  cases s
  cases t
  rfl

theorem c8objId_take5 (a : Attrs) (m e : Nat) :
    (c8objId a m e).data.take 5 = ['i', 'f', 'c', ':', 'o'] := by
  unfold c8objId
  rw [strDataAppend]
  rfl

theorem c8objId_ne (a : Attrs) (m e : Nat) (y : String)
    (hy : y.data.take 5 ≠ ['i', 'f', 'c', ':', 'o']) : c8objId a m e ≠ y := by
  intro h
  exact hy (h ▸ c8objId_take5 a m e)

theorem c8objId_absent (a : Attrs) (m e : Nat) :
    lookupN c8Draft5 (c8objId a m e) = none := by
  rw [lookupN_eq_none_iff]
  intro hmem
  have hk : keysOf c8Draft5 =
      ["root", "ifc:project:default",
       "ifc:building:synthetic:ifc:project:default",
       "ifc:storey:synthetic:ifc:building:synthetic:ifc:project:default",
       "ifc:storey:synthetic:ifc:building:synthetic:ifc:project:default__IfcBuildingElementProxy"] := rfl
  rw [hk] at hmem
  simp only [List.mem_cons, List.not_mem_nil, or_false] at hmem
  rcases hmem with h | h | h | h | h <;> exact c8objId_ne a m e _ (by decide) h

theorem setN_append_of_absent (s : St) (k : String) (v : TreeNode)
    (h : lookupN s k = none) : setN s k v = s ++ [(k, v)] := by
  induction s with
  | nil => rfl
  | cons hd tl ih =>
    obtain ⟨k0, n0⟩ := hd
    by_cases hk : k0 = k
    · subst hk
      simp [lookupN] at h
    · simp [lookupN, hk] at h
      simp [setN, hk, ih h]

theorem upsertNode_absent (d : St) (n : TreeNode)
    (h : lookupN d n.id = none) : upsertNode d n = d ++ [(n.id, n)] := by
  unfold upsertNode
  rw [h]
  exact setN_append_of_absent d n.id n h

/-- C8: importing a single leaf element whose type tag is not one of the four
recognized spatial tags, with no Building above it, into an otherwise-empty
tree produces exactly the fixed placeholder Project, Building and Storey
(ids independent of the attribute source) plus one ClassGroup and one Object
node under them. -/
theorem C8_placeholder_containers (a : Attrs) (m e : Nat) (ty : String)
    (hty : spatialKindFromIfcType (jsToUpper ty) = none) :
    importIfcIntoCoordinator a m (.mk e ty .nil) [] = c8Result a m e ty ∧
    keysOf (c8Result a m e ty) =
      ["root", "ifc:project:default",
       "ifc:building:synthetic:ifc:project:default",
       "ifc:storey:synthetic:ifc:building:synthetic:ifc:project:default",
       "ifc:storey:synthetic:ifc:building:synthetic:ifc:project:default__IfcBuildingElementProxy",
       c8objId a m e] ∧
    ((valuesOf (c8Result a m e ty)).filter fun n => n.kind == NodeKind.Project).length = 1 ∧
    ((valuesOf (c8Result a m e ty)).filter fun n => n.kind == NodeKind.Building).length = 1 ∧
    ((valuesOf (c8Result a m e ty)).filter fun n => n.kind == NodeKind.Storey).length = 1 ∧
    ((valuesOf (c8Result a m e ty)).filter fun n => n.kind == NodeKind.ClassGroup).length = 1 ∧
    ((valuesOf (c8Result a m e ty)).filter fun n => n.kind == NodeKind.Object).length = 1 := by
  refine ⟨?_, rfl, rfl, rfl, rfl, rfl, rfl⟩
  unfold importIfcIntoCoordinator
  rw [walk.eq_def]
  dsimp only
  rw [hty]
  dsimp only
  rw [ifcClassForElement_eq]
  show ensureChild (upsertNode c8Draft5 (c8ObjNode a m e ty))
      "ifc:storey:synthetic:ifc:building:synthetic:ifc:project:default__IfcBuildingElementProxy"
      (c8objId a m e) = c8Result a m e ty
  rw [upsertNode_absent c8Draft5 (c8ObjNode a m e ty) (c8objId_absent a m e)]
  rfl

/-- C8 at a concrete input: the leaf `IfcWall` element with an empty
attribute source. -/
theorem C8_witness :
    importIfcIntoCoordinator impAttrsNone 0 (.mk 7 "IfcWall" .nil) [] =
      c8Result impAttrsNone 0 7 "IfcWall" ∧
    keysOf (c8Result impAttrsNone 0 7 "IfcWall") =
      ["root", "ifc:project:default",
       "ifc:building:synthetic:ifc:project:default",
       "ifc:storey:synthetic:ifc:building:synthetic:ifc:project:default",
       "ifc:storey:synthetic:ifc:building:synthetic:ifc:project:default__IfcBuildingElementProxy",
       c8objId impAttrsNone 0 7] ∧
    ((valuesOf (c8Result impAttrsNone 0 7 "IfcWall")).filter fun n => n.kind == NodeKind.Project).length = 1 ∧
    ((valuesOf (c8Result impAttrsNone 0 7 "IfcWall")).filter fun n => n.kind == NodeKind.Building).length = 1 ∧
    ((valuesOf (c8Result impAttrsNone 0 7 "IfcWall")).filter fun n => n.kind == NodeKind.Storey).length = 1 ∧
    ((valuesOf (c8Result impAttrsNone 0 7 "IfcWall")).filter fun n => n.kind == NodeKind.ClassGroup).length = 1 ∧
    ((valuesOf (c8Result impAttrsNone 0 7 "IfcWall")).filter fun n => n.kind == NodeKind.Object).length = 1 :=
  C8_placeholder_containers impAttrsNone 0 7 "IfcWall" (by decide)

/-! ### C6: import idempotence on node ids.

Two matched runs of the importer are simulated.  `Sinv` is the single-state
shape invariant every reachable snapshot satisfies: id fields match keys,
`Building` kind exactly on `ifc:bu`-prefixed keys, `ifc:pr` keys parented at
root, the root node of kind Root with no parent, and `ifc:si` keys carrying a
nonempty present parent.  `Rel u v` relates the run-1 state to the run-2
state at the same walk position: key inclusion plus parent agreement on site
keys (site parents are the only state the leaf branch reads that later
operations can touch). -/

def bu6 : List Char := ['i', 'f', 'c', ':', 'b', 'u']

def pr6 : List Char := ['i', 'f', 'c', ':', 'p', 'r']

def si6 : List Char := ['i', 'f', 'c', ':', 's', 'i']

def st6 : List Char := ['i', 'f', 'c', ':', 's', 't']

def ob6 : List Char := ['i', 'f', 'c', ':', 'o', 'b']

def take6 (k : String) : List Char := k.data.take 6

def Sinv (s : St) : Prop :=
  (∀ k n, lookupN s k = some n → n.id = k) ∧
  (∀ k n, lookupN s k = some n → (n.kind = NodeKind.Building ↔ take6 k = bu6)) ∧
  (∀ k n, lookupN s k = some n → take6 k = pr6 → n.parentId = some "root") ∧
  (∀ n, lookupN s "root" = some n → n.kind = NodeKind.Root ∧ n.parentId = none) ∧
  (∀ k n, lookupN s k = some n → take6 k = si6 →
    ∃ pp, n.parentId = some pp ∧ pp ≠ "" ∧ pp ∈ keysOf s)

def Rel (u v : St) : Prop :=
  (∀ x, x ∈ keysOf u → x ∈ keysOf v) ∧
  (∀ k nu nv, lookupN u k = some nu → lookupN v k = some nv → take6 k = si6 →
    nv.parentId = nu.parentId)

def POk (p : String) : Prop :=
  p = "root" ∨ take6 p = pr6 ∨ take6 p = si6 ∨ take6 p = bu6

def StOk : Option String → Prop
  | none => True
  | some sid => take6 sid = st6

theorem mem_keysOf_iff (s : St) (x : String) :
    x ∈ keysOf s ↔ ∃ n, lookupN s x = some n := by
  rw [← lookupN_isSome_iff, Option.isSome_iff_exists]

theorem take6_ne_imp (x y : String) (h : take6 x ≠ take6 y) : x ≠ y :=
  fun he => h (he ▸ rfl)

theorem ne_empty_of_take6 (x : String) (c : List Char) (h : take6 x = c)
    (hc : c ≠ []) : x ≠ "" := by
  intro he
  subst he
  exact hc h.symm

theorem take6_append_of (x y : String) (c : List Char) (hc : c.length = 6)
    (h : take6 x = c) : take6 (x ++ y) = c := by
  unfold take6 at *
  rw [strDataAppend]
  have h6 : min 6 x.data.length = 6 := by
    rw [← List.length_take, h, hc]
  have hle : 6 ≤ x.data.length := by omega
  rw [List.take_append_of_le_length hle, h]

theorem lookupN_upsert_ne (s : St) (node : TreeNode) (k : String)
    (h : k ≠ node.id) : lookupN (upsertNode s node) k = lookupN s k := by
  unfold upsertNode
  cases hl : lookupN s node.id with
  | none => exact lookupN_setN_ne s node.id k node h
  | some ex => exact lookupN_setN_ne s node.id k _ h

theorem lookupN_upsert_self (s : St) (node : TreeNode) :
    ∃ n', lookupN (upsertNode s node) node.id = some n' ∧
      n'.id = node.id ∧ n'.kind = node.kind ∧ n'.parentId = node.parentId := by
  unfold upsertNode
  cases hl : lookupN s node.id with
  | none => exact ⟨node, lookupN_setN_self s node.id node, rfl, rfl, rfl⟩
  | some ex => exact ⟨_, lookupN_setN_self s node.id _, rfl, rfl, rfl⟩

theorem mem_keysOf_upsert (s : St) (node : TreeNode) (x : String) :
    x ∈ keysOf (upsertNode s node) ↔ x = node.id ∨ x ∈ keysOf s := by
  unfold upsertNode
  cases hl : lookupN s node.id with
  | none => rw [mem_keysOf_setN]; tauto
  | some ex => rw [mem_keysOf_setN]; tauto

theorem lookupN_ensureChild_proj (s : St) (a b k : String) :
    (lookupN (ensureChild s a b) k).map (fun n => (n.id, n.kind, n.parentId)) =
    (lookupN s k).map (fun n => (n.id, n.kind, n.parentId)) := by
  unfold ensureChild
  cases hl : lookupN s a with
  | none => rfl
  | some p =>
    dsimp only
    by_cases hc : b ∈ p.children
    · rw [if_pos hc]
    · rw [if_neg hc]
      by_cases hk : k = a
      · subst hk
        rw [lookupN_setN_self, hl]
        rfl
      · rw [lookupN_setN_ne s a k _ hk]

theorem keysOf_ensureChild (s : St) (a b : String) :
    keysOf (ensureChild s a b) = keysOf s := by
  unfold ensureChild
  cases hl : lookupN s a with
  | none => rfl
  | some p =>
    dsimp only
    by_cases hc : b ∈ p.children
    · rw [if_pos hc]
    · rw [if_neg hc]
      exact keysOf_setN_of_mem s a _ ((mem_keysOf_iff s a).2 ⟨p, hl⟩)

theorem ensureNode_of_mem (s : St) (p : String) (fb : TreeNode)
    (h : p ∈ keysOf s) : ensureNode s p fb = s := by
  unfold ensureNode
  rw [if_pos ((containsN_iff s p).2 h)]

theorem take6_project (x : String) : take6 ("ifc:project:" ++ x) = pr6 := by
  unfold take6
  rw [strDataAppend]
  rfl

theorem take6_site (x : String) : take6 ("ifc:site:" ++ x) = si6 := by
  unfold take6
  rw [strDataAppend]
  rfl

theorem take6_building (x : String) : take6 ("ifc:building:" ++ x) = bu6 := by
  unfold take6
  rw [strDataAppend]
  rfl

theorem take6_storey (x : String) : take6 ("ifc:storey:" ++ x) = st6 := by
  unfold take6
  rw [strDataAppend]
  rfl

theorem take6_storeySynth (x : String) : take6 ("ifc:storey:synthetic:" ++ x) = st6 := by
  unfold take6
  rw [strDataAppend]
  rfl

theorem take6_buildingSynth (x : String) : take6 ("ifc:building:synthetic:" ++ x) = bu6 := by
  unfold take6
  rw [strDataAppend]
  rfl

theorem take6_objId (x : String) : take6 ("ifc:obj:" ++ x) = ob6 := by
  unfold take6
  rw [strDataAppend]
  rfl

theorem Sinv_upsert (s : St) (node : TreeNode) (hS : Sinv s)
    (hb : node.kind = NodeKind.Building ↔ take6 node.id = bu6)
    (hpr : take6 node.id = pr6 → node.parentId = some "root")
    (hsi : take6 node.id = si6 →
      ∃ pp, node.parentId = some pp ∧ pp ≠ "" ∧ pp ∈ keysOf s)
    (hroot : node.id ≠ "root") :
    Sinv (upsertNode s node) := by
  obtain ⟨h1, h2, h3, h4, h5⟩ := hS
  obtain ⟨n', hn', hid, hkind, hpar⟩ := lookupN_upsert_self s node
  refine ⟨?_, ?_, ?_, ?_, ?_⟩
  · intro k n hl
    by_cases hk : k = node.id
    · subst hk
      rw [hn'] at hl
      injection hl with he
      rw [← he, hid]
    · rw [lookupN_upsert_ne s node k hk] at hl
      exact h1 k n hl
  · intro k n hl
    by_cases hk : k = node.id
    · subst hk
      rw [hn'] at hl
      injection hl with he
      rw [← he, hkind]
      exact hb
    · rw [lookupN_upsert_ne s node k hk] at hl
      exact h2 k n hl
  · intro k n hl hk6
    by_cases hk : k = node.id
    · subst hk
      rw [hn'] at hl
      injection hl with he
      rw [← he, hpar]
      exact hpr hk6
    · rw [lookupN_upsert_ne s node k hk] at hl
      exact h3 k n hl hk6
  · intro n hl
    rw [lookupN_upsert_ne s node "root" (Ne.symm hroot)] at hl
    exact h4 n hl
  · intro k n hl hk6
    by_cases hk : k = node.id
    · subst hk
      rw [hn'] at hl
      injection hl with he
      obtain ⟨pp, hp, hne, hmem⟩ := hsi hk6
      exact ⟨pp, by rw [← he, hpar]; exact hp, hne,
        (mem_keysOf_upsert s node pp).2 (Or.inr hmem)⟩
    · rw [lookupN_upsert_ne s node k hk] at hl
      obtain ⟨pp, hp, hne, hmem⟩ := h5 k n hl hk6
      exact ⟨pp, hp, hne, (mem_keysOf_upsert s node pp).2 (Or.inr hmem)⟩

theorem proj_transfer (s : St) (a b k : String) (n : TreeNode)
    (hl : lookupN (ensureChild s a b) k = some n) :
    ∃ m, lookupN s k = some m ∧ n.id = m.id ∧ n.kind = m.kind ∧
      n.parentId = m.parentId := by
  have h := lookupN_ensureChild_proj s a b k
  rw [hl] at h
  cases hm : lookupN s k with
  | none =>
    rw [hm] at h
    exact Option.noConfusion h
  | some m =>
    rw [hm] at h
    have he := Option.some.inj h
    exact ⟨m, rfl, congrArg Prod.fst he, congrArg (fun q => q.2.1) he,
      congrArg (fun q => q.2.2) he⟩

theorem Sinv_ensureChild (s : St) (a b : String) (hS : Sinv s) :
    Sinv (ensureChild s a b) := by
  obtain ⟨h1, h2, h3, h4, h5⟩ := hS
  have hkeys := keysOf_ensureChild s a b
  refine ⟨?_, ?_, ?_, ?_, ?_⟩
  · intro k n hl
    obtain ⟨m, hm, e1, _, _⟩ := proj_transfer s a b k n hl
    rw [e1]
    exact h1 k m hm
  · intro k n hl
    obtain ⟨m, hm, _, e2, _⟩ := proj_transfer s a b k n hl
    rw [e2]
    exact h2 k m hm
  · intro k n hl hk6
    obtain ⟨m, hm, _, _, e3⟩ := proj_transfer s a b k n hl
    rw [e3]
    exact h3 k m hm hk6
  · intro n hl
    obtain ⟨m, hm, _, e2, e3⟩ := proj_transfer s a b "root" n hl
    obtain ⟨hk, hp⟩ := h4 m hm
    exact ⟨by rw [e2]; exact hk, by rw [e3]; exact hp⟩
  · intro k n hl hk6
    obtain ⟨m, hm, _, _, e3⟩ := proj_transfer s a b k n hl
    obtain ⟨pp, hp, hne, hmem⟩ := h5 k m hm hk6
    exact ⟨pp, by rw [e3]; exact hp, hne, by rw [hkeys]; exact hmem⟩

theorem Rel_upsert (u v : St) (node : TreeNode) (hR : Rel u v) :
    Rel (upsertNode u node) (upsertNode v node) := by
  obtain ⟨ha, hb⟩ := hR
  constructor
  · intro x hx
    rw [mem_keysOf_upsert] at hx ⊢
    rcases hx with h | h
    · exact Or.inl h
    · exact Or.inr (ha x h)
  · intro k nu nv hlu hlv h6
    by_cases hk : k = node.id
    · subst hk
      obtain ⟨nu', hnu', _, _, hpu⟩ := lookupN_upsert_self u node
      obtain ⟨nv', hnv', _, _, hpv⟩ := lookupN_upsert_self v node
      rw [hnu'] at hlu
      rw [hnv'] at hlv
      injection hlu with e1
      injection hlv with e2
      rw [← e1, ← e2, hpu, hpv]
    · rw [lookupN_upsert_ne u node k hk] at hlu
      rw [lookupN_upsert_ne v node k hk] at hlv
      exact hb k nu nv hlu hlv h6

theorem Rel_ensureChild (u v : St) (a b : String) (hR : Rel u v) :
    Rel (ensureChild u a b) (ensureChild v a b) := by
  obtain ⟨ha, hb⟩ := hR
  constructor
  · intro x hx
    rw [keysOf_ensureChild] at hx ⊢
    exact ha x hx
  · intro k nu nv hlu hlv h6
    obtain ⟨mu, hmu, _, _, hpu⟩ := proj_transfer u a b k nu hlu
    obtain ⟨mv, hmv, _, _, hpv⟩ := proj_transfer v a b k nv hlv
    rw [hpu, hpv]
    exact hb k mu mv hmu hmv h6

/-- The find-or-create block shared by the fallback containers, the
synthetic storey and the class group: keep the snapshot when the id exists,
else create the node and attach it to `par`. -/
def condCreate (s : St) (k par : String) (node : TreeNode) : St :=
  if containsN s k then s else ensureChild (upsertNode s node) par k

/-- The run-1/run-2 step contract: both states keep the shape invariant,
stay related, run 1 only grows, and every key of the new run-2 state is an
old run-2 key or a key of the new run-1 state. -/
def Good (u v u' v' : St) : Prop :=
  Sinv u' ∧ Sinv v' ∧ Rel u' v' ∧
  (∀ x, x ∈ keysOf u → x ∈ keysOf u') ∧
  (∀ x, x ∈ keysOf v' → x ∈ keysOf v ∨ x ∈ keysOf u')

theorem Good_trans (u v u1 v1 u2 v2 : St) (h1 : Good u v u1 v1)
    (h2 : Good u1 v1 u2 v2) : Good u v u2 v2 := by
  obtain ⟨_, _, _, m1, n1⟩ := h1
  obtain ⟨s2, t2, r2, m2, n2⟩ := h2
  refine ⟨s2, t2, r2, fun x hx => m2 x (m1 x hx), fun x hx => ?_⟩
  rcases n2 x hx with h | h
  · rcases n1 x h with h' | h'
    · exact Or.inl h'
    · exact Or.inr (m2 x h')
  · exact Or.inr h

theorem ensureSyntheticStorey_eq (d : St) (bid : String) :
    ensureSyntheticStorey d bid =
      (condCreate d ("ifc:storey:synthetic:" ++ bid) bid
        { id := "ifc:storey:synthetic:" ++ bid, kind := .Storey,
          name := "Storey 0", parentId := some bid, children := [] },
       "ifc:storey:synthetic:" ++ bid) := by
  unfold ensureSyntheticStorey condCreate
  cases h : containsN d ("ifc:storey:synthetic:" ++ bid) <;> simp [h]

theorem Sinv_condCreate (s : St) (k par : String) (node : TreeNode)
    (hid : node.id = k) (hS : Sinv s)
    (hb : node.kind = NodeKind.Building ↔ take6 k = bu6)
    (hpr : take6 k = pr6 → node.parentId = some "root")
    (hsi : take6 k ≠ si6) (hroot : k ≠ "root") :
    Sinv (condCreate s k par node) := by
  unfold condCreate
  by_cases hc : containsN s k = true
  · rw [if_pos hc]
    exact hS
  · rw [if_neg hc]
    refine Sinv_ensureChild _ _ _ (Sinv_upsert s node hS ?_ ?_ ?_ ?_)
    · rw [hid]
      exact hb
    · rw [hid]
      exact hpr
    · rw [hid]
      intro h
      exact absurd h hsi
    · rw [hid]
      exact hroot

theorem mem_keysOf_condCreate (s : St) (k par : String) (node : TreeNode)
    (hid : node.id = k) (x : String) :
    x ∈ keysOf (condCreate s k par node) ↔ x = k ∨ x ∈ keysOf s := by
  unfold condCreate
  by_cases hc : containsN s k = true
  · rw [if_pos hc]
    constructor
    · exact Or.inr
    · intro h
      rcases h with e | h
      · subst e
        exact (containsN_iff s x).1 hc
      · exact h
  · rw [if_neg hc]
    rw [keysOf_ensureChild, mem_keysOf_upsert, hid]

theorem lookupN_condCreate_parent (s : St) (k par : String) (node : TreeNode)
    (hid : node.id = k) (k2 : String) (hne : k2 ≠ k) (n : TreeNode)
    (hl : lookupN (condCreate s k par node) k2 = some n) :
    ∃ m, lookupN s k2 = some m ∧ n.parentId = m.parentId := by
  unfold condCreate at hl
  by_cases hc : containsN s k = true
  · rw [if_pos hc] at hl
    exact ⟨n, hl, rfl⟩
  · rw [if_neg hc] at hl
    obtain ⟨m, hm, _, _, e3⟩ := proj_transfer (upsertNode s node) par k k2 n hl
    rw [lookupN_upsert_ne s node k2 (fun e => hne (e.trans hid))] at hm
    exact ⟨m, hm, e3⟩

theorem Rel_condCreate (u v : St) (k par : String) (node : TreeNode)
    (hid : node.id = k) (hR : Rel u v) (hsi : take6 k ≠ si6) :
    Rel (condCreate u k par node) (condCreate v k par node) := by
  obtain ⟨ha, hb⟩ := hR
  constructor
  · intro x hx
    rw [mem_keysOf_condCreate u k par node hid] at hx
    rw [mem_keysOf_condCreate v k par node hid]
    rcases hx with e | hx
    · exact Or.inl e
    · exact Or.inr (ha x hx)
  · intro k2 nu nv hlu hlv h6
    have hk2 : k2 ≠ k := fun e => hsi (e ▸ h6)
    obtain ⟨mu, hmu, epu⟩ := lookupN_condCreate_parent u k par node hid k2 hk2 nu hlu
    obtain ⟨mv, hmv, epv⟩ := lookupN_condCreate_parent v k par node hid k2 hk2 nv hlv
    rw [epu, epv]
    exact hb k2 mu mv hmu hmv h6

theorem Good_condCreate (u v : St) (k par : String) (node : TreeNode)
    (hid : node.id = k) (hSu : Sinv u) (hSv : Sinv v) (hR : Rel u v)
    (hb : node.kind = NodeKind.Building ↔ take6 k = bu6)
    (hpr : take6 k = pr6 → node.parentId = some "root")
    (hsi : take6 k ≠ si6) (hroot : k ≠ "root") :
    Good u v (condCreate u k par node) (condCreate v k par node) ∧
    k ∈ keysOf (condCreate u k par node) := by
  refine ⟨⟨Sinv_condCreate u k par node hid hSu hb hpr hsi hroot,
    Sinv_condCreate v k par node hid hSv hb hpr hsi hroot,
    Rel_condCreate u v k par node hid hR hsi, ?_, ?_⟩,
    (mem_keysOf_condCreate u k par node hid k).2 (Or.inl rfl)⟩
  · intro x hx
    exact (mem_keysOf_condCreate u k par node hid x).2 (Or.inr hx)
  · intro x hx
    rcases (mem_keysOf_condCreate v k par node hid x).1 hx with e | h
    · exact Or.inr ((mem_keysOf_condCreate u k par node hid x).2 (Or.inl e))
    · exact Or.inl h

theorem Good_upsert (u v : St) (node : TreeNode)
    (hSu : Sinv u) (hSv : Sinv v) (hR : Rel u v)
    (hb : node.kind = NodeKind.Building ↔ take6 node.id = bu6)
    (hpr : take6 node.id = pr6 → node.parentId = some "root")
    (hsi : take6 node.id = si6 →
      ∃ pp, node.parentId = some pp ∧ pp ≠ "" ∧ pp ∈ keysOf u)
    (hroot : node.id ≠ "root") :
    Good u v (upsertNode u node) (upsertNode v node) ∧
    node.id ∈ keysOf (upsertNode u node) := by
  refine ⟨⟨Sinv_upsert u node hSu hb hpr hsi hroot,
    Sinv_upsert v node hSv hb hpr (fun h => ?_) hroot,
    Rel_upsert u v node hR, ?_, ?_⟩,
    (mem_keysOf_upsert u node node.id).2 (Or.inl rfl)⟩
  · obtain ⟨pp, h1, h2, h3⟩ := hsi h
    exact ⟨pp, h1, h2, hR.1 pp h3⟩
  · intro x hx
    exact (mem_keysOf_upsert u node x).2 (Or.inr hx)
  · intro x hx
    rcases (mem_keysOf_upsert v node x).1 hx with e | h
    · exact Or.inr ((mem_keysOf_upsert u node x).2 (Or.inl e))
    · exact Or.inl h

theorem Good_ensureChild (u v : St) (a b : String)
    (hSu : Sinv u) (hSv : Sinv v) (hR : Rel u v) :
    Good u v (ensureChild u a b) (ensureChild v a b) := by
  refine ⟨Sinv_ensureChild u a b hSu, Sinv_ensureChild v a b hSv,
    Rel_ensureChild u v a b hR, ?_, ?_⟩
  · intro x hx
    rw [keysOf_ensureChild]
    exact hx
  · intro x hx
    rw [keysOf_ensureChild] at hx
    exact Or.inl hx

theorem ensureFallbackSpatialContainers_eq (d : St) :
    ensureFallbackSpatialContainers d =
      (condCreate
        (condCreate
          (condCreate d "ifc:project:default" "root"
            { id := "ifc:project:default", kind := .Project,
              name := "Imported Project", parentId := some "root", children := [] })
          ("ifc:building:synthetic:" ++ "ifc:project:default") "ifc:project:default"
          { id := "ifc:building:synthetic:" ++ "ifc:project:default", kind := .Building,
            name := "Building 0", parentId := some "ifc:project:default", children := [] })
        ("ifc:storey:synthetic:" ++ ("ifc:building:synthetic:" ++ "ifc:project:default"))
        ("ifc:building:synthetic:" ++ "ifc:project:default")
        { id := "ifc:storey:synthetic:" ++ ("ifc:building:synthetic:" ++ "ifc:project:default"),
          kind := .Storey, name := "Storey 0",
          parentId := some ("ifc:building:synthetic:" ++ "ifc:project:default"),
          children := [] },
       "ifc:storey:synthetic:" ++ ("ifc:building:synthetic:" ++ "ifc:project:default")) := by
  unfold ensureFallbackSpatialContainers
  rw [ensureSyntheticStorey_eq]
  rfl

theorem leafBuildingId_eq (u v : St) (p : String) (hSu : Sinv u) (hSv : Sinv v)
    (hR : Rel u v) (hp : p ∈ keysOf u) (hpok : POk p) :
    leafBuildingId v p = leafBuildingId u p := by
  obtain ⟨hu1, hu2, hu3, hu4, hu5⟩ := hSu
  obtain ⟨hv1, hv2, hv3, hv4, hv5⟩ := hSv
  obtain ⟨ha, hrel⟩ := hR
  obtain ⟨nu, hnu⟩ := (mem_keysOf_iff u p).1 hp
  obtain ⟨nv, hnv⟩ := (mem_keysOf_iff v p).1 (ha p hp)
  unfold leafBuildingId
  rw [hnu, hnv]
  dsimp only
  rcases hpok with e | h6 | h6 | h6
  · subst e
    obtain ⟨hku, hpu⟩ := hu4 nu hnu
    obtain ⟨hkv, hpv⟩ := hv4 nv hnv
    rw [hku, hkv, hpu, hpv]
    rfl
  · have hkundB : ¬ nu.kind = NodeKind.Building :=
      fun h => absurd (h6.symm.trans ((hu2 p nu hnu).1 h)) (by decide)
    have hkvndB : ¬ nv.kind = NodeKind.Building :=
      fun h => absurd (h6.symm.trans ((hv2 p nv hnv).1 h)) (by decide)
    have hpu := hu3 p nu hnu h6
    have hpv := hv3 p nv hnv h6
    rw [if_neg hkundB, if_neg hkvndB, hpu, hpv]
    dsimp only
    rcases hru : lookupN u "root" with _ | gu <;>
      rcases hrv : lookupN v "root" with _ | gv <;> dsimp only
    · rw [(hv4 gv hrv).1]
      try rfl
    · rw [(hu4 gu hru).1]
      try rfl
    · rw [(hu4 gu hru).1, (hv4 gv hrv).1]
      try rfl
  · have hkundB : ¬ nu.kind = NodeKind.Building :=
      fun h => absurd (h6.symm.trans ((hu2 p nu hnu).1 h)) (by decide)
    have hkvndB : ¬ nv.kind = NodeKind.Building :=
      fun h => absurd (h6.symm.trans ((hv2 p nv hnv).1 h)) (by decide)
    obtain ⟨pp, hppu, hppne, hppmem⟩ := hu5 p nu hnu h6
    have hppv : nv.parentId = nu.parentId := hrel p nu nv hnu hnv h6
    rw [if_neg hkundB, if_neg hkvndB, hppv, hppu]
    dsimp only
    rw [if_neg hppne, if_neg hppne]
    obtain ⟨gu, hgu⟩ := (mem_keysOf_iff u pp).1 hppmem
    obtain ⟨gv, hgv⟩ := (mem_keysOf_iff v pp).1 (ha pp hppmem)
    rw [hgu, hgv]
    dsimp only
    by_cases hbu : take6 pp = bu6
    · rw [if_pos ((hu2 pp gu hgu).2 hbu), if_pos ((hv2 pp gv hgv).2 hbu)]
    · rw [if_neg (fun h => hbu ((hu2 pp gu hgu).1 h)),
        if_neg (fun h => hbu ((hv2 pp gv hgv).1 h))]
  · rw [if_pos ((hu2 p nu hnu).2 h6), if_pos ((hv2 p nv hnv).2 h6),
      hu1 p nu hnu, hv1 p nv hnv]


theorem spatialKind_cases (t : String) (k : NodeKind)
    (h : spatialKindFromIfcType t = some k) :
    k = NodeKind.Project ∨ k = NodeKind.Site ∨ k = NodeKind.Building ∨
      k = NodeKind.Storey := by
  unfold spatialKindFromIfcType at h
  split_ifs at h <;> injection h with he
  · exact Or.inl he.symm
  · exact Or.inr (Or.inl he.symm)
  · exact Or.inr (Or.inr (Or.inl he.symm))
  · exact Or.inr (Or.inr (Or.inr he.symm))

theorem take6_stable_project (g : Option String) (e : Nat) :
    take6 (stableSpatialId .Project g e) = pr6 := take6_project _

theorem take6_stable_site (g : Option String) (e : Nat) :
    take6 (stableSpatialId .Site g e) = si6 := take6_site _

theorem take6_stable_building (g : Option String) (e : Nat) :
    take6 (stableSpatialId .Building g e) = bu6 := take6_building _

theorem take6_stable_storey (g : Option String) (e : Nat) :
    take6 (stableSpatialId .Storey g e) = st6 := take6_storey _

theorem Good_upsert_child (u v : St) (node : TreeNode) (rp : String)
    (hSu : Sinv u) (hSv : Sinv v) (hR : Rel u v)
    (hb : node.kind = NodeKind.Building ↔ take6 node.id = bu6)
    (hpr : take6 node.id = pr6 → node.parentId = some "root")
    (hsi : take6 node.id = si6 →
      ∃ pp, node.parentId = some pp ∧ pp ≠ "" ∧ pp ∈ keysOf u)
    (hroot : node.id ≠ "root") :
    Good u v (ensureChild (upsertNode u node) rp node.id)
      (ensureChild (upsertNode v node) rp node.id) ∧
    node.id ∈ keysOf (ensureChild (upsertNode u node) rp node.id) := by
  obtain ⟨⟨s1, t1, r1, m1, n1⟩, hmem⟩ :=
    Good_upsert u v node hSu hSv hR hb hpr hsi hroot
  have g2 := Good_ensureChild (upsertNode u node) (upsertNode v node) rp node.id
    s1 t1 r1
  refine ⟨Good_trans _ _ _ _ _ _ ⟨s1, t1, r1, m1, n1⟩ g2, ?_⟩
  rw [keysOf_ensureChild]
  exact hmem

theorem Good_leafTail (u v : St) (sid okey nm : String) (tg : Option String)
    (ps : List Pset) (meta : Option IfcMeta)
    (hSu : Sinv u) (hSv : Sinv v) (hR : Rel u v) (hsid : take6 sid = st6) :
    Good u v
      (ensureChild
        (upsertNode
          (condCreate u (sid ++ "__" ++ "IfcBuildingElementProxy") sid
            { id := sid ++ "__" ++ "IfcBuildingElementProxy", kind := .ClassGroup,
              name := "IfcBuildingElementProxy", parentId := some sid,
              children := [], ifcClass := some "IfcBuildingElementProxy" })
          { id := "ifc:obj:" ++ okey, kind := .Object, name := nm,
            parentId := some (sid ++ "__" ++ "IfcBuildingElementProxy"),
            children := [], ifcClass := some "IfcBuildingElementProxy",
            tag := tg, psets := ps, ifc := meta })
        (sid ++ "__" ++ "IfcBuildingElementProxy") ("ifc:obj:" ++ okey))
      (ensureChild
        (upsertNode
          (condCreate v (sid ++ "__" ++ "IfcBuildingElementProxy") sid
            { id := sid ++ "__" ++ "IfcBuildingElementProxy", kind := .ClassGroup,
              name := "IfcBuildingElementProxy", parentId := some sid,
              children := [], ifcClass := some "IfcBuildingElementProxy" })
          { id := "ifc:obj:" ++ okey, kind := .Object, name := nm,
            parentId := some (sid ++ "__" ++ "IfcBuildingElementProxy"),
            children := [], ifcClass := some "IfcBuildingElementProxy",
            tag := tg, psets := ps, ifc := meta })
        (sid ++ "__" ++ "IfcBuildingElementProxy") ("ifc:obj:" ++ okey)) := by
  have hcg : take6 (sid ++ "__" ++ "IfcBuildingElementProxy") = st6 :=
    take6_append_of (sid ++ "__") _ st6 (by decide)
      (take6_append_of sid "__" st6 (by decide) hsid)
  obtain ⟨⟨s1, t1, r1, m1, n1⟩, hc1⟩ :=
    Good_condCreate u v (sid ++ "__" ++ "IfcBuildingElementProxy") sid
      { id := sid ++ "__" ++ "IfcBuildingElementProxy", kind := .ClassGroup,
        name := "IfcBuildingElementProxy", parentId := some sid,
        children := [], ifcClass := some "IfcBuildingElementProxy" }
      rfl hSu hSv hR
      (iff_of_false (fun hh => NodeKind.noConfusion hh)
        (fun hh => absurd (hcg.symm.trans hh) (by decide)))
      (fun hh => absurd (hcg.symm.trans hh) (by decide))
      (fun hh => absurd (hcg.symm.trans hh) (by decide))
      (take6_ne_imp _ _ (by rw [hcg]; decide))
  obtain ⟨⟨s2, t2, r2, m2, n2⟩, ho1⟩ :=
    Good_upsert _ _
      { id := "ifc:obj:" ++ okey, kind := .Object, name := nm,
        parentId := some (sid ++ "__" ++ "IfcBuildingElementProxy"),
        children := [], ifcClass := some "IfcBuildingElementProxy",
        tag := tg, psets := ps, ifc := meta }
      s1 t1 r1
      (iff_of_false (fun hh => NodeKind.noConfusion hh)
        (fun hh => absurd ((take6_objId okey).symm.trans hh) (by decide)))
      (fun hh => absurd ((take6_objId okey).symm.trans hh) (by decide))
      (fun hh => absurd ((take6_objId okey).symm.trans hh) (by decide))
      (take6_ne_imp _ _ (by rw [take6_objId]; decide))
  have ge := Good_ensureChild _ _ (sid ++ "__" ++ "IfcBuildingElementProxy")
    ("ifc:obj:" ++ okey) s2 t2 r2
  exact Good_trans _ _ _ _ _ _
    (Good_trans _ _ _ _ _ _ ⟨s1, t1, r1, m1, n1⟩ ⟨s2, t2, r2, m2, n2⟩) ge

theorem Good_spatialFull (a : Attrs) (m : Nat) (ch : SpatialForest) (u v : St)
    (rp : String) (node : TreeNode) (st' : Option String)
    (hSu : Sinv u) (hSv : Sinv v) (hR : Rel u v)
    (hb : node.kind = NodeKind.Building ↔ take6 node.id = bu6)
    (hpr : take6 node.id = pr6 → node.parentId = some "root")
    (hsi : take6 node.id = si6 →
      ∃ pp, node.parentId = some pp ∧ pp ≠ "" ∧ pp ∈ keysOf u)
    (hroot' : node.id ≠ "root")
    (hrootmem : "root" ∈ keysOf u)
    (hmyne : node.id ≠ "")
    (hst' : StOk st') (hpok' : st' = none → POk node.id)
    (ihC : ∀ u1 v1 p1 st1, Sinv u1 → Sinv v1 → Rel u1 v1 → p1 ∈ keysOf u1 →
      p1 ≠ "" → "root" ∈ keysOf u1 → StOk st1 → (st1 = none → POk p1) →
      Good u1 v1 (walkF a m ch p1 st1 u1) (walkF a m ch p1 st1 v1)) :
    Good u v (walkF a m ch node.id st' (ensureChild (upsertNode u node) rp node.id))
      (walkF a m ch node.id st' (ensureChild (upsertNode v node) rp node.id)) := by
  obtain ⟨⟨s2, t2, r2, m2, n2⟩, hmem⟩ :=
    Good_upsert_child u v node rp hSu hSv hR hb hpr hsi hroot'
  have g3 := ihC _ _ node.id st' s2 t2 r2 hmem hmyne (m2 "root" hrootmem) hst' hpok'
  exact Good_trans _ _ _ _ _ _ ⟨s2, t2, r2, m2, n2⟩ g3

theorem Good_leafFull (a : Attrs) (m : Nat) (ch : SpatialForest) (u v : St)
    (p sid okey nm : String) (tg : Option String) (ps : List Pset)
    (meta : Option IfcMeta)
    (hSu : Sinv u) (hSv : Sinv v) (hR : Rel u v)
    (hp : p ∈ keysOf u) (hpne : p ≠ "") (hroot : "root" ∈ keysOf u)
    (hsid : take6 sid = st6)
    (ihC : ∀ u1 v1 p1 st1, Sinv u1 → Sinv v1 → Rel u1 v1 → p1 ∈ keysOf u1 →
      p1 ≠ "" → "root" ∈ keysOf u1 → StOk st1 → (st1 = none → POk p1) →
      Good u1 v1 (walkF a m ch p1 st1 u1) (walkF a m ch p1 st1 v1)) :
    Good u v
      (walkF a m ch p (some sid)
        (ensureChild
          (upsertNode
            (if containsN u (sid ++ "__" ++ "IfcBuildingElementProxy") then u
             else
               ensureChild
                 (upsertNode u
                   { id := sid ++ "__" ++ "IfcBuildingElementProxy",
                     kind := .ClassGroup, name := "IfcBuildingElementProxy",
                     parentId := some sid, children := [],
                     ifcClass := some "IfcBuildingElementProxy" })
                 sid (sid ++ "__" ++ "IfcBuildingElementProxy"))
            { id := "ifc:obj:" ++ okey, kind := .Object, name := nm,
              parentId := some (sid ++ "__" ++ "IfcBuildingElementProxy"),
              children := [], ifcClass := some "IfcBuildingElementProxy",
              tag := tg, psets := ps, ifc := meta })
          (sid ++ "__" ++ "IfcBuildingElementProxy") ("ifc:obj:" ++ okey)))
      (walkF a m ch p (some sid)
        (ensureChild
          (upsertNode
            (if containsN v (sid ++ "__" ++ "IfcBuildingElementProxy") then v
             else
               ensureChild
                 (upsertNode v
                   { id := sid ++ "__" ++ "IfcBuildingElementProxy",
                     kind := .ClassGroup, name := "IfcBuildingElementProxy",
                     parentId := some sid, children := [],
                     ifcClass := some "IfcBuildingElementProxy" })
                 sid (sid ++ "__" ++ "IfcBuildingElementProxy"))
            { id := "ifc:obj:" ++ okey, kind := .Object, name := nm,
              parentId := some (sid ++ "__" ++ "IfcBuildingElementProxy"),
              children := [], ifcClass := some "IfcBuildingElementProxy",
              tag := tg, psets := ps, ifc := meta })
          (sid ++ "__" ++ "IfcBuildingElementProxy") ("ifc:obj:" ++ okey))) := by
  obtain ⟨s3, t3, r3, m3, n3⟩ :=
    Good_leafTail u v sid okey nm tg ps meta hSu hSv hR hsid
  have g4 := ihC _ _ p (some sid) s3 t3 r3 (m3 p hp) hpne (m3 "root" hroot) hsid
    (fun h => Option.noConfusion h)
  exact Good_trans _ _ _ _ _ _ ⟨s3, t3, r3, m3, n3⟩ g4

theorem walk_twin (a : Attrs) (m : Nat) :
    (∀ sp : SpatialNode, ∀ u v p st, Sinv u → Sinv v → Rel u v →
      p ∈ keysOf u → p ≠ "" → "root" ∈ keysOf u → StOk st →
      (st = none → POk p) →
      Good u v (walk a m sp p st u) (walk a m sp p st v)) ∧
    (∀ f : SpatialForest, ∀ u v p st, Sinv u → Sinv v → Rel u v →
      p ∈ keysOf u → p ≠ "" → "root" ∈ keysOf u → StOk st →
      (st = none → POk p) →
      Good u v (walkF a m f p st u) (walkF a m f p st v)) := by
  refine spatialInduction
    (fun sp => ∀ u v p st, Sinv u → Sinv v → Rel u v → p ∈ keysOf u → p ≠ "" →
      "root" ∈ keysOf u → StOk st → (st = none → POk p) →
      Good u v (walk a m sp p st u) (walk a m sp p st v))
    (fun f => ∀ u v p st, Sinv u → Sinv v → Rel u v → p ∈ keysOf u → p ≠ "" →
      "root" ∈ keysOf u → StOk st → (st = none → POk p) →
      Good u v (walkF a m f p st u) (walkF a m f p st v))
    ?_ ?_ ?_
  · intro e ty ch ihC u v p st hSu hSv hR hp hpne hroot hst hpok
    simp only [walk.eq_def]
    try dsimp only
    cases hk : spatialKindFromIfcType (jsToUpper ty) with
    | some kind =>
      rcases spatialKind_cases _ _ hk with hkk | hkk | hkk | hkk <;> subst hkk <;>
        simp only [eq_self_iff_true, if_true, reduceCtorEq, if_false]
      · rw [ensureNode_of_mem u "root" _ hroot,
          ensureNode_of_mem v "root" _ (hR.1 "root" hroot)]
        refine Good_spatialFull a m ch u v "root"
          { id := stableSpatialId NodeKind.Project (a.globalId e) e, kind := NodeKind.Project,
            name := if (a.name e).getD (jsToUpper ty) ≠ "" then (a.name e).getD (jsToUpper ty)
                    else kindStr NodeKind.Project,
            parentId := some "root", children := [],
            ifc := some { modelID := m, expressID := e, globalId := a.globalId e,
                          type := some (jsToUpper ty) } }
          st hSu hSv hR ?_ ?_ ?_ ?_ hroot ?_ ?_ ?_ ihC
        · exact iff_of_false (fun hh => NodeKind.noConfusion hh)
            (fun hh => absurd ((take6_stable_project _ _).symm.trans hh) (by decide))
        · exact fun _ => rfl
        · exact fun hh => absurd ((take6_stable_project _ _).symm.trans hh) (by decide)
        · exact take6_ne_imp _ _ (by rw [take6_stable_project]; decide)
        · exact ne_empty_of_take6 _ _ (take6_stable_project _ _) (by decide)
        · exact hst
        · exact fun _ => Or.inr (Or.inl (take6_stable_project _ _))
      · rw [ensureNode_of_mem u p _ hp, ensureNode_of_mem v p _ (hR.1 p hp)]
        refine Good_spatialFull a m ch u v p
          { id := stableSpatialId NodeKind.Site (a.globalId e) e, kind := NodeKind.Site,
            name := if (a.name e).getD (jsToUpper ty) ≠ "" then (a.name e).getD (jsToUpper ty)
                    else kindStr NodeKind.Site,
            parentId := some p, children := [],
            ifc := some { modelID := m, expressID := e, globalId := a.globalId e,
                          type := some (jsToUpper ty) } }
          st hSu hSv hR ?_ ?_ ?_ ?_ hroot ?_ ?_ ?_ ihC
        · exact iff_of_false (fun hh => NodeKind.noConfusion hh)
            (fun hh => absurd ((take6_stable_site _ _).symm.trans hh) (by decide))
        · exact fun hh => absurd ((take6_stable_site _ _).symm.trans hh) (by decide)
        · exact fun _ => ⟨p, rfl, hpne, hp⟩
        · exact take6_ne_imp _ _ (by rw [take6_stable_site]; decide)
        · exact ne_empty_of_take6 _ _ (take6_stable_site _ _) (by decide)
        · exact hst
        · exact fun _ => Or.inr (Or.inr (Or.inl (take6_stable_site _ _)))
      · rw [ensureNode_of_mem u p _ hp, ensureNode_of_mem v p _ (hR.1 p hp)]
        refine Good_spatialFull a m ch u v p
          { id := stableSpatialId NodeKind.Building (a.globalId e) e, kind := NodeKind.Building,
            name := if (a.name e).getD (jsToUpper ty) ≠ "" then (a.name e).getD (jsToUpper ty)
                    else kindStr NodeKind.Building,
            parentId := some p, children := [],
            ifc := some { modelID := m, expressID := e, globalId := a.globalId e,
                          type := some (jsToUpper ty) } }
          st hSu hSv hR ?_ ?_ ?_ ?_ hroot ?_ ?_ ?_ ihC
        · exact Iff.intro (fun _ => take6_stable_building _ _) (fun _ => rfl)
        · exact fun hh => absurd ((take6_stable_building _ _).symm.trans hh) (by decide)
        · exact fun hh => absurd ((take6_stable_building _ _).symm.trans hh) (by decide)
        · exact take6_ne_imp _ _ (by rw [take6_stable_building]; decide)
        · exact ne_empty_of_take6 _ _ (take6_stable_building _ _) (by decide)
        · exact hst
        · exact fun _ => Or.inr (Or.inr (Or.inr (take6_stable_building _ _)))
      · rw [ensureNode_of_mem u p _ hp, ensureNode_of_mem v p _ (hR.1 p hp)]
        refine Good_spatialFull a m ch u v p
          { id := stableSpatialId NodeKind.Storey (a.globalId e) e, kind := NodeKind.Storey,
            name := if (a.name e).getD (jsToUpper ty) ≠ "" then (a.name e).getD (jsToUpper ty)
                    else kindStr NodeKind.Storey,
            parentId := some p, children := [],
            ifc := some { modelID := m, expressID := e, globalId := a.globalId e,
                          type := some (jsToUpper ty) } }
          (some (stableSpatialId NodeKind.Storey (a.globalId e) e))
          hSu hSv hR ?_ ?_ ?_ ?_ hroot ?_ ?_ ?_ ihC
        · exact iff_of_false (fun hh => NodeKind.noConfusion hh)
            (fun hh => absurd ((take6_stable_storey _ _).symm.trans hh) (by decide))
        · exact fun hh => absurd ((take6_stable_storey _ _).symm.trans hh) (by decide)
        · exact fun hh => absurd ((take6_stable_storey _ _).symm.trans hh) (by decide)
        · exact take6_ne_imp _ _ (by rw [take6_stable_storey]; decide)
        · exact ne_empty_of_take6 _ _ (take6_stable_storey _ _) (by decide)
        · exact take6_stable_storey _ _
        · exact fun h => Option.noConfusion h
    | none =>
      rw [ifcClassForElement_eq]
      cases st with
      | some sid =>
        dsimp only
        exact Good_leafFull a m ch u v p sid _ _ _ _ _ hSu hSv hR hp hpne hroot
          hst ihC
      | none =>
        dsimp only
        have hdec := leafBuildingId_eq u v p hSu hSv hR hp (hpok rfl)
        rw [hdec]
        cases hlb : leafBuildingId u p with
        | some bid =>
          dsimp only
          rw [ensureSyntheticStorey_eq u bid, ensureSyntheticStorey_eq v bid]
          dsimp only
          obtain ⟨⟨s1, t1, r1, m1, n1⟩, hk1⟩ :=
            Good_condCreate u v ("ifc:storey:synthetic:" ++ bid) bid
              { id := "ifc:storey:synthetic:" ++ bid, kind := .Storey,
                name := "Storey 0", parentId := some bid, children := [] }
              rfl hSu hSv hR
              (iff_of_false (fun hh => NodeKind.noConfusion hh)
                (fun hh => absurd ((take6_storeySynth bid).symm.trans hh) (by decide)))
              (fun hh => absurd ((take6_storeySynth bid).symm.trans hh) (by decide))
              (fun hh => absurd ((take6_storeySynth bid).symm.trans hh) (by decide))
              (take6_ne_imp _ _ (by rw [take6_storeySynth]; decide))
          exact Good_trans _ _ _ _ _ _ ⟨s1, t1, r1, m1, n1⟩
            (Good_leafFull a m ch _ _ p ("ifc:storey:synthetic:" ++ bid) _ _ _ _ _
              s1 t1 r1 (m1 p hp) hpne (m1 "root" hroot) (take6_storeySynth bid) ihC)
        | none =>
          dsimp only
          rw [ensureFallbackSpatialContainers_eq u,
            ensureFallbackSpatialContainers_eq v]
          dsimp only
          obtain ⟨⟨s1, t1, r1, m1, n1⟩, hk1⟩ :=
            Good_condCreate u v "ifc:project:default" "root"
              { id := "ifc:project:default", kind := .Project,
                name := "Imported Project", parentId := some "root", children := [] }
              rfl hSu hSv hR
              (iff_of_false (fun hh => NodeKind.noConfusion hh) (by decide))
              (fun _ => rfl)
              (by decide)
              (by decide)
          obtain ⟨⟨s2, t2, r2, m2, n2⟩, hk2⟩ :=
            Good_condCreate _ _ ("ifc:building:synthetic:" ++ "ifc:project:default")
              "ifc:project:default"
              { id := "ifc:building:synthetic:" ++ "ifc:project:default",
                kind := .Building, name := "Building 0",
                parentId := some "ifc:project:default", children := [] }
              rfl s1 t1 r1
              (Iff.intro (fun _ => take6_buildingSynth _) (fun _ => rfl))
              (fun hh => absurd ((take6_buildingSynth _).symm.trans hh) (by decide))
              (fun hh => absurd ((take6_buildingSynth _).symm.trans hh) (by decide))
              (take6_ne_imp _ _ (by rw [take6_buildingSynth]; decide))
          obtain ⟨⟨s3, t3, r3, m3, n3⟩, hk3⟩ :=
            Good_condCreate _ _
              ("ifc:storey:synthetic:" ++
                ("ifc:building:synthetic:" ++ "ifc:project:default"))
              ("ifc:building:synthetic:" ++ "ifc:project:default")
              { id := "ifc:storey:synthetic:" ++
                  ("ifc:building:synthetic:" ++ "ifc:project:default"),
                kind := .Storey, name := "Storey 0",
                parentId := some ("ifc:building:synthetic:" ++ "ifc:project:default"),
                children := [] }
              rfl s2 t2 r2
              (iff_of_false (fun hh => NodeKind.noConfusion hh)
                (fun hh => absurd ((take6_storeySynth _).symm.trans hh) (by decide)))
              (fun hh => absurd ((take6_storeySynth _).symm.trans hh) (by decide))
              (fun hh => absurd ((take6_storeySynth _).symm.trans hh) (by decide))
              (take6_ne_imp _ _ (by rw [take6_storeySynth]; decide))
          exact Good_trans _ _ _ _ _ _ ⟨s1, t1, r1, m1, n1⟩
            (Good_trans _ _ _ _ _ _ ⟨s2, t2, r2, m2, n2⟩
              (Good_trans _ _ _ _ _ _ ⟨s3, t3, r3, m3, n3⟩
                (Good_leafFull a m ch _ _ p
                  ("ifc:storey:synthetic:" ++
                    ("ifc:building:synthetic:" ++ "ifc:project:default"))
                  _ _ _ _ _ s3 t3 r3
                  (m3 p (m2 p (m1 p hp))) hpne
                  (m3 "root" (m2 "root" (m1 "root" hroot)))
                  (take6_storeySynth _) ihC)))
  · intro u v p st hSu hSv hR hp hpne hroot hst hpok
    exact ⟨hSu, hSv, hR, fun x hx => hx, fun x hx => Or.inl hx⟩
  · intro h t ihH ihT u v p st hSu hSv hR hp hpne hroot hst hpok
    obtain ⟨s1, t1, r1, m1, n1⟩ := ihH u v p st hSu hSv hR hp hpne hroot hst hpok
    have g2 := ihT (walk a m h p st u) (walk a m h p st v) p st s1 t1 r1 (m1 p hp)
      hpne (m1 "root" hroot) hst hpok
    exact Good_trans _ _ _ _ _ _ ⟨s1, t1, r1, m1, n1⟩ g2

theorem lookup_single (a : String) (b : TreeNode) (k : String) (n : TreeNode)
    (h : lookupN [(a, b)] k = some n) : k = a ∧ n = b := by
  unfold lookupN at h
  by_cases hk : a = k
  · rw [if_pos hk] at h
    injection h with he
    exact ⟨hk.symm, he.symm⟩
  · rw [if_neg hk] at h
    exact Option.noConfusion h

theorem Sinv_init :
    Sinv [("root",
      { id := "root", kind := NodeKind.Root, name := "Workspace",
        children := [] })] := by
  refine ⟨?_, ?_, ?_, ?_, ?_⟩
  · intro k n h
    obtain ⟨hk, hn⟩ := lookup_single _ _ _ _ h
    rw [hk, hn]
  · intro k n h
    obtain ⟨hk, hn⟩ := lookup_single _ _ _ _ h
    rw [hk, hn]
    exact iff_of_false (by decide) (by decide)
  · intro k n h h6
    obtain ⟨hk, hn⟩ := lookup_single _ _ _ _ h
    rw [hk] at h6
    exact absurd h6 (by decide)
  · intro n h
    obtain ⟨_, hn⟩ := lookup_single _ _ _ _ h
    rw [hn]
    exact ⟨rfl, rfl⟩
  · intro k n h h6
    obtain ⟨hk, _⟩ := lookup_single _ _ _ _ h
    rw [hk] at h6
    exact absurd h6 (by decide)

theorem Rel_refl (u : St) : Rel u u := by
  constructor
  · exact fun x h => h
  · intro k nu nv h1 h2 _
    rw [h1] at h2
    injection h2 with e
    rw [e]

theorem nodup_setN_any (s : St) (k : String) (v : TreeNode) (h : NodupKeys s) :
    NodupKeys (setN s k v) := by
  by_cases hk : k ∈ keysOf s
  · exact nodup_setN s k v h hk
  · rw [setN_append_of_absent s k v ((lookupN_eq_none_iff s k).2 hk)]
    unfold NodupKeys keysOf at *
    rw [List.map_append, List.nodup_append]
    refine ⟨h, List.nodup_singleton _, ?_⟩
    intro x hx hx2
    rw [List.map_singleton, List.mem_singleton] at hx2
    subst hx2
    exact hk hx

theorem nodup_ensureNode (s : St) (p : String) (fb : TreeNode)
    (h : NodupKeys s) : NodupKeys (ensureNode s p fb) := by
  unfold ensureNode
  split
  · exact h
  · exact nodup_setN_any s p fb h

theorem nodup_upsert (s : St) (node : TreeNode) (h : NodupKeys s) :
    NodupKeys (upsertNode s node) := by
  unfold upsertNode
  cases lookupN s node.id
  · exact nodup_setN_any s node.id node h
  · exact nodup_setN_any s node.id _ h

theorem nodup_ensureChild (s : St) (a b : String) (h : NodupKeys s) :
    NodupKeys (ensureChild s a b) := by
  unfold ensureChild
  cases hl : lookupN s a with
  | none => exact h
  | some q =>
    dsimp only
    by_cases hc : b ∈ q.children
    · rw [if_pos hc]
      exact h
    · rw [if_neg hc]
      exact nodup_setN_any s a _ h

theorem nodup_condCreate (s : St) (k par : String) (node : TreeNode)
    (h : NodupKeys s) : NodupKeys (condCreate s k par node) := by
  unfold condCreate
  split
  · exact h
  · exact nodup_ensureChild _ _ _ (nodup_upsert _ _ h)

theorem walk_nodup (a : Attrs) (m : Nat) :
    (∀ sp : SpatialNode, ∀ p st s, NodupKeys s →
      NodupKeys (walk a m sp p st s)) ∧
    (∀ f : SpatialForest, ∀ p st s, NodupKeys s →
      NodupKeys (walkF a m f p st s)) := by
  refine spatialInduction
    (fun sp => ∀ p st s, NodupKeys s → NodupKeys (walk a m sp p st s))
    (fun f => ∀ p st s, NodupKeys s → NodupKeys (walkF a m f p st s))
    ?_ ?_ ?_
  · intro e ty ch ihC p st s hnd
    simp only [walk.eq_def]
    try dsimp only
    cases hk : spatialKindFromIfcType (jsToUpper ty) with
    | some kind =>
      exact ihC _ _ _ (nodup_ensureChild _ _ _
        (nodup_upsert _ _ (nodup_ensureNode _ _ _ hnd)))
    | none =>
      cases st with
      | some sid =>
        dsimp only
        exact ihC _ _ _ (nodup_ensureChild _ _ _
          (nodup_upsert _ _ (nodup_condCreate _ _ _ _ hnd)))
      | none =>
        dsimp only
        cases hlb : leafBuildingId s p with
        | some bid =>
          dsimp only
          rw [ensureSyntheticStorey_eq]
          dsimp only
          exact ihC _ _ _ (nodup_ensureChild _ _ _ (nodup_upsert _ _
            (nodup_condCreate _ _ _ _ (nodup_condCreate _ _ _ _ hnd))))
        | none =>
          dsimp only
          rw [ensureFallbackSpatialContainers_eq]
          dsimp only
          exact ihC _ _ _ (nodup_ensureChild _ _ _ (nodup_upsert _ _
            (nodup_condCreate _ _ _ _ (nodup_condCreate _ _ _ _
              (nodup_condCreate _ _ _ _ (nodup_condCreate _ _ _ _ hnd))))))
  · intro p st s h
    exact h
  · intro h t ihH ihT p st s hnd
    exact ihT _ _ _ (ihH _ _ _ hnd)

/-- C6: running the importer twice with the same external spatial hierarchy
and the same attribute source, starting from an empty tree, yields after the
second run exactly the same set of node ids as after the first run, and the
resulting id list has no duplicates. -/
theorem C6_import_id_idempotent (a : Attrs) (m : Nat) (sp : SpatialNode) :
    (∀ x, x ∈ keysOf (importIfcIntoCoordinator a m sp
        (importIfcIntoCoordinator a m sp [])) ↔
      x ∈ keysOf (importIfcIntoCoordinator a m sp [])) ∧
    NodupKeys (importIfcIntoCoordinator a m sp
      (importIfcIntoCoordinator a m sp [])) := by
  have hrun1 : importIfcIntoCoordinator a m sp [] =
      walk a m sp "root" none [("root",
        { id := "root", kind := NodeKind.Root, name := "Workspace",
          children := [] })] := rfl
  have hS0 := Sinv_init
  have hroot0 : "root" ∈ keysOf [("root",
        { id := "root", kind := NodeKind.Root, name := "Workspace",
          children := [] })] := by decide
  obtain ⟨SW, _, RWW, monoU, _⟩ :=
    (walk_twin a m).1 sp [("root",
        { id := "root", kind := NodeKind.Root, name := "Workspace",
          children := [] })] [("root",
        { id := "root", kind := NodeKind.Root, name := "Workspace",
          children := [] })] "root" none hS0 hS0 (Rel_refl _) hroot0
      (by decide) hroot0 True.intro (fun _ => Or.inl rfl)
  have rootW : "root" ∈ keysOf (walk a m sp "root" none [("root",
        { id := "root", kind := NodeKind.Root, name := "Workspace",
          children := [] })]) :=
    monoU "root" hroot0
  have R0W : Rel [("root",
        { id := "root", kind := NodeKind.Root, name := "Workspace",
          children := [] })] (walk a m sp "root" none [("root",
        { id := "root", kind := NodeKind.Root, name := "Workspace",
          children := [] })]) := by
    constructor
    · exact monoU
    · intro k nu nv h1 h2 h6
      obtain ⟨hk, _⟩ := lookup_single _ _ _ _ h1
      rw [hk] at h6
      exact absurd h6 (by decide)
  obtain ⟨_, _, _, _, keysNew⟩ :=
    (walk_twin a m).1 sp [("root",
        { id := "root", kind := NodeKind.Root, name := "Workspace",
          children := [] })] (walk a m sp "root" none [("root",
        { id := "root", kind := NodeKind.Root, name := "Workspace",
          children := [] })]) "root" none hS0 SW
      R0W hroot0 (by decide) hroot0 True.intro (fun _ => Or.inl rfl)
  obtain ⟨_, _, _, monoW, _⟩ :=
    (walk_twin a m).1 sp (walk a m sp "root" none [("root",
        { id := "root", kind := NodeKind.Root, name := "Workspace",
          children := [] })])
      (walk a m sp "root" none [("root",
        { id := "root", kind := NodeKind.Root, name := "Workspace",
          children := [] })]) "root" none SW SW RWW rootW (by decide)
      rootW True.intro (fun _ => Or.inl rfl)
  have hrun2 : importIfcIntoCoordinator a m sp
        (importIfcIntoCoordinator a m sp []) =
      walk a m sp "root" none (walk a m sp "root" none [("root",
        { id := "root", kind := NodeKind.Root, name := "Workspace",
          children := [] })]) := by
    rw [hrun1]
    unfold importIfcIntoCoordinator
    rw [ensureNode_of_mem _ "root" _ rootW]
  constructor
  · intro x
    rw [hrun2, hrun1]
    constructor
    · intro hx
      rcases keysNew x hx with h | h
      · exact h
      · exact h
    · intro hx
      exact monoW x hx
  · rw [hrun2]
    exact (walk_nodup a m).1 sp "root" none _
      ((walk_nodup a m).1 sp "root" none _ (by decide))

/-! ### Exporter (src/ifc/exportIfc2x3.ts)

The SPF text layer is abstracted: each `w.add(...)` call becomes one `Rec`
record carrying the entity kind and the reference/name/tag fields the control
flow depends on, in emission order with the writer's running ids.  Random
GUIDs, timestamps, string escaping, `ifcValue` typing and the
header/footer/download are dropped — the claims under verification concern
only which records are emitted and when the exporter raises. -/

def jsTrim (s : String) : String :=
  String.mk (((s.data.dropWhile Char.isWhitespace).reverse.dropWhile
    Char.isWhitespace).reverse)

inductive Rec where
  | ownerHistory
  | cartesianPoint
  | axis2Placement3D (p : Nat)
  | localPlacementWorld (ax : Nat)
  | localPlacement (relativeTo : Option Nat) (ax : Nat)
  | geomContext (ax : Nat)
  | siUnit
  | unitAssignment (u : Nat)
  | project (name : String) (context units : Nat)
  | site (name : String) (placement : Nat)
  | building (name : String) (placement : Nat)
  | storey (name : String) (placement : Nat)
  | relAggregates (parent : Nat) (children : List Nat)
  | propertySingleValue (k v : String)
  | propertySet (name : String) (props : List Nat)
  | relDefinesByProperties (el ps : Nat)
  | element (entity name : String) (objectType : Option String) (placement : Nat)
      (tag : Option String)
  | relContained (els : List Nat) (storey : Nat)
deriving DecidableEq

/-- The `IfcWriter`: `_nextId` starts at 1, `add` appends a line with the
current id and increments. -/
structure W where
  nextId : Nat
  lines : List (Nat × Rec)
deriving DecidableEq

def wadd (w : W) (r : Rec) : W × Nat :=
  ({ nextId := w.nextId + 1, lines := w.lines ++ [(w.nextId, r)] }, w.nextId)

/-- `createLocalPlacement` — `relativeTo` is an `Option` because the call
sites feed it `nodeToIfcId.get(...)!`, which is `undefined` when the id is
unregistered. -/
def createLocalPlacement (w : W) (relativeTo : Option Nat) : W × Nat :=
  let r1 := wadd w .cartesianPoint
  let r2 := wadd r1.1 (.axis2Placement3D r1.2)
  wadd r2.1 (.localPlacement relativeTo r2.2)

def createSite (w : W) (m : List (String × Nat)) (node : TreeNode)
    (parentPlacement : Option Nat) : W × List (String × Nat) × Nat :=
  let rp := createLocalPlacement w parentPlacement
  let rs := wadd rp.1 (.site node.name rp.2)
  (rs.1, setA m node.id rs.2, rs.2)

def createBuilding (w : W) (m : List (String × Nat)) (node : TreeNode)
    (parentPlacement : Option Nat) : W × List (String × Nat) × Nat :=
  let rp := createLocalPlacement w parentPlacement
  let rs := wadd rp.1 (.building node.name rp.2)
  (rs.1, setA m node.id rs.2, rs.2)

def createStorey (w : W) (m : List (String × Nat)) (node : TreeNode)
    (parentPlacement : Option Nat) : W × List (String × Nat) × Nat :=
  let rp := createLocalPlacement w parentPlacement
  let rs := wadd rp.1 (.storey node.name rp.2)
  (rs.1, setA m node.id rs.2, rs.2)

def createRelAggregates (w : W) (parentIfc : Nat) (childrenIfc : List Nat) : W :=
  if childrenIfc.isEmpty then w
  else (wadd w (.relAggregates parentIfc childrenIfc)).1

/-- `.map(id => nodes[id]).filter(Boolean).filter(n => n.kind === k)`. -/
def childNodesOfKind (nodes : St) (ids : List String) (k : NodeKind) :
    List TreeNode :=
  (ids.filterMap (fun id => lookupN nodes id)).filter (fun n => n.kind == k)

/-- The storey loop of one building (`nodeToIfcId.get(bNode.id)!` is looked
up again at every iteration). -/
def exportStoreys (w : W) (m : List (String × Nat)) (bId : String) :
    List TreeNode → W × List (String × Nat) × List Nat
  | [] => (w, m, [])
  | stNode :: rest =>
    let r := createStorey w m stNode (lookupA m bId)
    let rr := exportStoreys r.1 r.2.1 bId rest
    (rr.1, rr.2.1, r.2.2 :: rr.2.2)

def exportBuildings (nodes : St) (w : W) (m : List (String × Nat)) (sId : String) :
    List TreeNode → W × List (String × Nat) × List Nat
  | [] => (w, m, [])
  | bNode :: rest =>
    let rb := createBuilding w m bNode (lookupA m sId)
    let rs := exportStoreys rb.1 rb.2.1 bNode.id
      (childNodesOfKind nodes bNode.children .Storey)
    let w2 := createRelAggregates rs.1 rb.2.2 rs.2.2
    let rr := exportBuildings nodes w2 rs.2.1 sId rest
    (rr.1, rr.2.1, rb.2.2 :: rr.2.2)

def exportSites (nodes : St) (w : W) (m : List (String × Nat))
    (worldPlacement : Nat) : List TreeNode → W × List (String × Nat) × List Nat
  | [] => (w, m, [])
  | sNode :: rest =>
    let rsit := createSite w m sNode (some worldPlacement)
    let rb := exportBuildings nodes rsit.1 rsit.2.1 sNode.id
      (childNodesOfKind nodes sNode.children .Building)
    let w2 := createRelAggregates rb.1 rsit.2.2 rb.2.2
    let rr := exportSites nodes w2 rb.2.1 worldPlacement rest
    (rr.1, rr.2.1, rsit.2.2 :: rr.2.2)

def normalizeEntityName (ifcClass : Option String) : String :=
  let raw := jsTrim (ifcClass.getD "")
  if raw = "" then "IFCBUILDINGELEMENTPROXY"
  else
    let ent := toUpperStr raw
    if ¬ (startsWithChars ['I', 'F', 'C'] ent.data = true) then
      "IFCBUILDINGELEMENTPROXY"
    else if ent ∈ ["IFCBUILDINGELEMENTPROXY", "IFCVALVE", "IFCPUMP", "IFCTANK",
        "IFCPIPESEGMENT", "IFCPIPEFITTING", "IFCFLOWMETER", "IFCACTUATOR",
        "IFCSENSOR", "IFCCABLECARRIERSEGMENT"] then ent
    else "IFCBUILDINGELEMENTPROXY"

def getObjectsUnderStorey (nodes : St) (storeyNode : TreeNode) : List TreeNode :=
  storeyNode.children.foldl
    (fun out cgId =>
      match lookupN nodes cgId with
      | none => out
      | some cg =>
        if cg.kind = NodeKind.ClassGroup then
          cg.children.foldl
            (fun out2 objId =>
              match lookupN nodes objId with
              | none => out2
              | some obj =>
                if obj.kind = NodeKind.Object then out2 ++ [obj] else out2)
            out
        else out)
    []

/-- The `entries.map(([k, v]) => w.add(...))` of `addPsetsForElement`: emit
one property record per entry, collecting the ids in order. -/
def addPropEntries (w : W) (ids : List Nat) : List (String × String) → W × List Nat
  | [] => (w, ids)
  | kv :: rest =>
    let ra := wadd w (.propertySingleValue kv.1 kv.2)
    addPropEntries ra.1 (ids ++ [ra.2]) rest

def addPsetList (elementIfcId : Nat) : List Pset → W → W
  | [], w => w
  | pset :: rest, w =>
    let psetName := jsTrim pset.name
    if psetName = "" then addPsetList elementIfcId rest w
    else
      let entries := pset.props.filter (fun kv => 0 < (jsTrim kv.1).length)
      if entries.isEmpty then addPsetList elementIfcId rest w
      else
        let r := addPropEntries w [] entries
        let rp := wadd r.1 (.propertySet psetName r.2)
        addPsetList elementIfcId rest
          (wadd rp.1 (.relDefinesByProperties elementIfcId rp.2)).1

def addPsetsForElement (w : W) (elementIfcId : Nat) (obj : TreeNode) : W :=
  addPsetList elementIfcId obj.psets w

/-- `emitElement` — `obj.tag ? ... : "$"` and `obj.ifcClass ? ... : "$"` are
JS truthiness checks, so an empty string degrades to `$`. -/
def emitElement (w : W) (entity : String) (obj : TreeNode) (placementRef : Nat) :
    W × Nat :=
  wadd w (.element entity obj.name
    (match obj.ifcClass with
     | some c => if c = "" then none else some c
     | none => none)
    placementRef
    (match obj.tag with
     | some t => if t = "" then none else some t
     | none => none))

def emitObjs (w : W) (ifcStorey : Nat) : List TreeNode → W × List Nat
  | [] => (w, [])
  | obj :: rest =>
    let rp := createLocalPlacement w (some ifcStorey)
    let re := emitElement rp.1 (normalizeEntityName obj.ifcClass) obj rp.2
    let w2 := addPsetsForElement re.1 re.2 obj
    let rr := emitObjs w2 ifcStorey rest
    (rr.1, re.2 :: rr.2)

def exportElements (nodes : St) (m : List (String × Nat)) (w : W) :
    List TreeNode → W
  | [] => w
  | stNode :: rest =>
    match lookupA m stNode.id with
    | none => exportElements nodes m w rest
    | some ifcStorey =>
      let objs := getObjectsUnderStorey nodes stNode
      if objs.isEmpty then exportElements nodes m w rest
      else
        let r := emitObjs w ifcStorey objs
        let w2 := (wadd r.1 (.relContained r.2 ifcStorey)).1
        exportElements nodes m w2 rest

/-- `Object.values(nodes).find(n => n.kind === "Project") ?? nodes["project"]`. -/
def projectOf (nodes : St) : Option TreeNode :=
  match (valuesOf nodes).find? (fun n => n.kind == NodeKind.Project) with
  | some p => some p
  | none => lookupN nodes "project"

/-- The eight records emitted before the spatial walk; returns the writer,
the world placement id and the project record id. -/
def exportCommon (project : TreeNode) : W × Nat × Nat :=
  let w0 : W := { nextId := 1, lines := [] }
  let r1 := wadd w0 .ownerHistory
  let r2 := wadd r1.1 .cartesianPoint
  let r3 := wadd r2.1 (.axis2Placement3D r2.2)
  let r4 := wadd r3.1 (.localPlacementWorld r3.2)
  let r5 := wadd r4.1 (.geomContext r3.2)
  let r6 := wadd r5.1 .siUnit
  let r7 := wadd r6.1 (.unitAssignment r6.2)
  let r8 := wadd r7.1 (.project project.name r5.2 r7.2)
  (r8.1, r4.2, r8.2)

def exportBody (nodes : St) (project : TreeNode) : List (Nat × Rec) :=
  let c := exportCommon project
  let m0 := setA ([] : List (String × Nat)) project.id c.2.2
  let rs := exportSites nodes c.1 m0 c.2.1
    (childNodesOfKind nodes project.children .Site)
  let w2 := createRelAggregates rs.1 c.2.2 rs.2.2
  (exportElements nodes rs.2.1 w2
    ((valuesOf nodes).filter (fun n => n.kind == NodeKind.Storey))).lines

def exportIfc2x3FromTree (nodes : St) : Except String (List (Nat × Rec)) :=
  match projectOf nodes with
  | none => Except.error "No Project node found (kind=Project or id='project')."
  | some project => Except.ok (exportBody nodes project)

/-- The `nodeToIfcId` map as it stands when the element loop starts. -/
def spatialMap (nodes : St) (project : TreeNode) : List (String × Nat) :=
  (exportSites nodes (exportCommon project).1
    (setA ([] : List (String × Nat)) project.id (exportCommon project).2.2)
    (exportCommon project).2.1
    (childNodesOfKind nodes project.children .Site)).2.1

def chainStoreyIdsOfBuilding (nodes : St) (bNode : TreeNode) : List String :=
  (childNodesOfKind nodes bNode.children .Storey).map TreeNode.id

def chainIdsOfSite (nodes : St) (sNode : TreeNode) : List String :=
  sNode.id :: ((childNodesOfKind nodes sNode.children .Building).flatMap
    (fun b => b.id :: chainStoreyIdsOfBuilding nodes b))

/-- The node ids registered by the spatial walk below the selected project:
every Site child of the project, every Building child of such a Site, every
Storey child of such a Building. -/
def chainIds (nodes : St) (project : TreeNode) : List String :=
  (childNodesOfKind nodes project.children .Site).flatMap (chainIdsOfSite nodes)

def isElementRec : Nat × Rec → Bool := fun pr =>
  match pr.2 with
  | .element .. => true
  | _ => false

def elemCount (lines : List (Nat × Rec)) : Nat := (lines.filter isElementRec).length

def cexC2snap : St :=
  [("project", { id := "project", kind := .Site, name := "S", children := [] })]

/-- C2 (amended): the exporter raises its missing-project error exactly when
the snapshot has no node of kind Project AND no node stored under the key
`"project"`; in every other case it returns a document.  (The claim's
kind-only condition is refuted by `C2_counterexample`.) -/
theorem C2_export_error_amended (nodes : St) :
    (∃ e, exportIfc2x3FromTree nodes = Except.error e) ↔
      ((∀ n ∈ valuesOf nodes, n.kind ≠ NodeKind.Project) ∧
        lookupN nodes "project" = none) := by
  unfold exportIfc2x3FromTree projectOf
  cases hf : (valuesOf nodes).find? (fun n => n.kind == NodeKind.Project) with
  | some p =>
    dsimp only
    constructor
    · rintro ⟨e, he⟩
      exact Except.noConfusion he
    · rintro ⟨hall, _⟩
      have hp := List.find?_some hf
      have hmem := List.mem_of_find?_eq_some hf
      exact absurd (by simpa using hp) (hall p hmem)
  | none =>
    dsimp only
    cases hl : lookupN nodes "project" with
    | some q =>
      dsimp only
      constructor
      · rintro ⟨e, he⟩
        exact Except.noConfusion he
      · rintro ⟨_, hn⟩
        exact Option.noConfusion hn
    | none =>
      dsimp only
      constructor
      · intro _
        refine ⟨?_, rfl⟩
        intro n hn hkind
        have := List.find?_eq_none.1 hf n hn
        simp [hkind] at this
      · intro _
        exact ⟨_, rfl⟩

/-- C2 counterexample: a snapshot with no Project-kind node at all, but a
Site node stored under the key `"project"`: the exporter does not raise. -/
theorem C2_counterexample :
    (∀ n ∈ valuesOf cexC2snap, n.kind ≠ NodeKind.Project) ∧
    (exportIfc2x3FromTree cexC2snap).toOption.isSome = true := by decide

theorem lookupA_setA {v : Type} (m : List (String × v)) (k x : String) (val : v) :
    lookupA (setA m k val) x = if k = x then some val else lookupA m x := by
  induction m with
  | nil => rfl
  | cons hd tl ih =>
    obtain ⟨k0, v0⟩ := hd
    by_cases h0 : k0 = k
    · subst h0
      simp only [setA, if_pos rfl]
      unfold lookupA
      by_cases hx : k0 = x
      · simp [hx]
      · simp [hx]
    · simp only [setA, if_neg h0]
      unfold lookupA
      by_cases h0x : k0 = x
      · have hkx : k ≠ x := fun he => h0 (by rw [he, h0x])
        simp [h0x, hkx]
      · simp [h0x, ih]

theorem exportStoreys_map (bId : String) : ∀ (l : List TreeNode) (w : W)
    (m : List (String × Nat)) (x : String),
    (lookupA (exportStoreys w m bId l).2.1 x).isSome = true ↔
      x ∈ l.map TreeNode.id ∨ (lookupA m x).isSome = true := by
  intro l
  induction l with
  | nil =>
    intro w m x
    simp [exportStoreys]
  | cons st rest ih =>
    intro w m x
    unfold exportStoreys
    dsimp only
    rw [ih]
    unfold createStorey
    dsimp only
    rw [lookupA_setA]
    simp only [List.map_cons, List.mem_cons]
    by_cases hx : x = st.id
    · subst hx
      simp
    · rw [if_neg (fun e => hx e.symm)]
      simp only [hx, false_or]
      try tauto

theorem exportBuildings_map (nodes : St) (sId : String) : ∀ (l : List TreeNode)
    (w : W) (m : List (String × Nat)) (x : String),
    (lookupA (exportBuildings nodes w m sId l).2.1 x).isSome = true ↔
      x ∈ l.flatMap (fun b => b.id :: chainStoreyIdsOfBuilding nodes b) ∨
        (lookupA m x).isSome = true := by
  intro l
  induction l with
  | nil =>
    intro w m x
    simp [exportBuildings]
  | cons b rest ih =>
    intro w m x
    unfold exportBuildings
    dsimp only
    rw [ih, exportStoreys_map]
    unfold createBuilding
    dsimp only
    rw [lookupA_setA]
    simp only [List.flatMap_cons, List.mem_append, List.mem_cons,
      chainStoreyIdsOfBuilding]
    by_cases hx : x = b.id
    · subst hx
      simp
    · rw [if_neg (fun e => hx e.symm)]
      simp only [hx, false_or]
      try tauto

theorem exportSites_map (nodes : St) (wp : Nat) : ∀ (l : List TreeNode)
    (w : W) (m : List (String × Nat)) (x : String),
    (lookupA (exportSites nodes w m wp l).2.1 x).isSome = true ↔
      x ∈ l.flatMap (chainIdsOfSite nodes) ∨ (lookupA m x).isSome = true := by
  intro l
  induction l with
  | nil =>
    intro w m x
    simp [exportSites]
  | cons sn rest ih =>
    intro w m x
    unfold exportSites
    dsimp only
    rw [ih, exportBuildings_map]
    unfold createSite
    dsimp only
    rw [lookupA_setA]
    simp only [List.flatMap_cons, List.mem_append, List.mem_cons, chainIdsOfSite]
    by_cases hx : x = sn.id
    · subst hx
      simp
    · rw [if_neg (fun e => hx e.symm)]
      simp only [hx, false_or]
      try tauto

theorem spatialMap_isSome (nodes : St) (project : TreeNode) (x : String) :
    (lookupA (spatialMap nodes project) x).isSome = true ↔
      x = project.id ∨ x ∈ chainIds nodes project := by
  unfold spatialMap chainIds
  rw [exportSites_map, lookupA_setA]
  by_cases hx : x = project.id
  · subst hx
    simp
  · rw [if_neg (fun e => hx e.symm)]
    simp only [hx, false_or]
    constructor
    · intro h
      rcases h with h | h
      · exact h
      · exact absurd h (by simp [lookupA])
    · intro h
      exact Or.inl h

theorem elemCount_append (l1 l2 : List (Nat × Rec)) :
    elemCount (l1 ++ l2) = elemCount l1 + elemCount l2 := by
  unfold elemCount
  rw [List.filter_append, List.length_append]

theorem ec_cLP (w : W) (rel : Option Nat) :
    elemCount (createLocalPlacement w rel).1.lines = elemCount w.lines := by
  simp [createLocalPlacement, wadd, elemCount, List.filter_append, isElementRec]

theorem ec_createSite (w : W) (m : List (String × Nat)) (node : TreeNode)
    (pp : Option Nat) : elemCount (createSite w m node pp).1.lines = elemCount w.lines := by
  simp [createSite, createLocalPlacement, wadd, elemCount, List.filter_append,
    isElementRec]

theorem ec_createBuilding (w : W) (m : List (String × Nat)) (node : TreeNode)
    (pp : Option Nat) :
    elemCount (createBuilding w m node pp).1.lines = elemCount w.lines := by
  simp [createBuilding, createLocalPlacement, wadd, elemCount, List.filter_append,
    isElementRec]

theorem ec_createStorey (w : W) (m : List (String × Nat)) (node : TreeNode)
    (pp : Option Nat) :
    elemCount (createStorey w m node pp).1.lines = elemCount w.lines := by
  simp [createStorey, createLocalPlacement, wadd, elemCount, List.filter_append,
    isElementRec]

theorem ec_relAgg (w : W) (p : Nat) (c : List Nat) :
    elemCount (createRelAggregates w p c).lines = elemCount w.lines := by
  unfold createRelAggregates
  split
  · rfl
  · simp [wadd, elemCount, List.filter_append, isElementRec]

theorem ec_exportStoreys (bId : String) : ∀ (l : List TreeNode) (w : W)
    (m : List (String × Nat)),
    elemCount (exportStoreys w m bId l).1.lines = elemCount w.lines := by
  intro l
  induction l with
  | nil =>
    intro w m
    rfl
  | cons st rest ih =>
    intro w m
    unfold exportStoreys
    dsimp only
    rw [ih, ec_createStorey]

theorem ec_exportBuildings (nodes : St) (sId : String) : ∀ (l : List TreeNode)
    (w : W) (m : List (String × Nat)),
    elemCount (exportBuildings nodes w m sId l).1.lines = elemCount w.lines := by
  intro l
  induction l with
  | nil =>
    intro w m
    rfl
  | cons b rest ih =>
    intro w m
    unfold exportBuildings
    dsimp only
    rw [ih, ec_relAgg, ec_exportStoreys, ec_createBuilding]

theorem ec_exportSites (nodes : St) (wp : Nat) : ∀ (l : List TreeNode) (w : W)
    (m : List (String × Nat)),
    elemCount (exportSites nodes w m wp l).1.lines = elemCount w.lines := by
  intro l
  induction l with
  | nil =>
    intro w m
    rfl
  | cons sn rest ih =>
    intro w m
    unfold exportSites
    dsimp only
    rw [ih, ec_relAgg, ec_exportBuildings, ec_createSite]

theorem ec_addPropEntries : ∀ (entries : List (String × String)) (w : W)
    (ids : List Nat),
    elemCount (addPropEntries w ids entries).1.lines = elemCount w.lines := by
  intro entries
  induction entries with
  | nil =>
    intro w ids
    rfl
  | cons kv rest ih =>
    intro w ids
    unfold addPropEntries
    dsimp only
    rw [ih]
    simp [wadd, elemCount, List.filter_append, isElementRec]

theorem ec_addPsetList (el : Nat) : ∀ (ps : List Pset) (w : W),
    elemCount (addPsetList el ps w).lines = elemCount w.lines := by
  intro ps
  induction ps with
  | nil =>
    intro w
    rfl
  | cons pset rest ih =>
    intro w
    unfold addPsetList
    dsimp only
    by_cases h1 : jsTrim pset.name = ""
    · rw [if_pos h1, ih]
    · rw [if_neg h1]
      by_cases h2 : (pset.props.filter (fun kv => 0 < (jsTrim kv.1).length)).isEmpty = true
      · rw [if_pos h2, ih]
      · rw [if_neg h2, ih]
        simp only [wadd]
        rw [elemCount_append, elemCount_append, ec_addPropEntries]
        simp [elemCount, isElementRec]

theorem ec_addPsets (w : W) (el : Nat) (obj : TreeNode) :
    elemCount (addPsetsForElement w el obj).lines = elemCount w.lines := by
  unfold addPsetsForElement
  exact ec_addPsetList el obj.psets w

theorem ec_emitElement (w : W) (entity : String) (obj : TreeNode) (p : Nat) :
    elemCount (emitElement w entity obj p).1.lines = elemCount w.lines + 1 := by
  simp [emitElement, wadd, elemCount, List.filter_append, isElementRec]

theorem ec_emitObjs (i : Nat) : ∀ (objs : List TreeNode) (w : W),
    elemCount (emitObjs w i objs).1.lines = elemCount w.lines + objs.length := by
  intro objs
  induction objs with
  | nil =>
    intro w
    rfl
  | cons obj rest ih =>
    intro w
    unfold emitObjs
    dsimp only
    rw [ih, ec_addPsets, ec_emitElement, ec_cLP]
    simp [List.length_cons]
    omega

theorem ec_exportElements (nodes : St) (m : List (String × Nat)) :
    ∀ (l : List TreeNode) (w : W),
    elemCount (exportElements nodes m w l).lines =
      elemCount w.lines +
        ((l.filter (fun st => (lookupA m st.id).isSome)).map
          (fun st => (getObjectsUnderStorey nodes st).length)).sum := by
  intro l
  induction l with
  | nil =>
    intro w
    simp [exportElements]
  | cons st rest ih =>
    intro w
    unfold exportElements
    cases hl : lookupA m st.id with
    | none =>
      dsimp only
      rw [ih]
      have hf : (lookupA m st.id).isSome = false := by
        rw [hl]
        rfl
      simp [List.filter_cons, hf]
    | some i =>
      dsimp only
      have ht : (lookupA m st.id).isSome = true := by
        rw [hl]
        rfl
      by_cases he : (getObjectsUnderStorey nodes st).isEmpty = true
      · rw [if_pos he, ih]
        have hlen : (getObjectsUnderStorey nodes st).length = 0 := by
          rw [List.isEmpty_iff] at he
          rw [he]
          rfl
        simp [List.filter_cons, ht, hlen]
      · rw [if_neg he, ih]
        have hwc : elemCount ((wadd (emitObjs w i (getObjectsUnderStorey nodes st)).1
            (.relContained (emitObjs w i (getObjectsUnderStorey nodes st)).2 i)).1.lines) =
            elemCount w.lines + (getObjectsUnderStorey nodes st).length := by
          rw [show (wadd (emitObjs w i (getObjectsUnderStorey nodes st)).1
              (.relContained (emitObjs w i (getObjectsUnderStorey nodes st)).2 i)).1.lines =
            (emitObjs w i (getObjectsUnderStorey nodes st)).1.lines ++
              [((emitObjs w i (getObjectsUnderStorey nodes st)).1.nextId,
                .relContained (emitObjs w i (getObjectsUnderStorey nodes st)).2 i)] from rfl]
          rw [elemCount_append, ec_emitObjs]
          simp [elemCount, isElementRec]
        rw [hwc]
        simp [List.filter_cons, ht]
        omega

def cexC10snap : St :=
  [("project",
    { id := "project", kind := .Storey, name := "S", children := ["cg"] }),
   ("cg", { id := "cg", kind := .ClassGroup, name := "G", children := ["o"] }),
   ("o", { id := "o", kind := .Object, name := "O" })]

def witC10snap : St :=
  [("p1", { id := "p1", kind := .Project, name := "P", children := [] })]

def witC10proj : TreeNode :=
  { id := "p1", kind := .Project, name := "P", children := [] }

/-- C10 (amended): when a project node is selected, the exporter returns a
document without raising; the number of element records in it is the sum of
the object counts of exactly those Storey-kind nodes whose id is registered
in `nodeToIfcId`; and an id is registered precisely when it is the selected
project's own id or is reached through the Project→Site→Building→Storey
child chain.  (The claim's chain-only condition misses the project's own id:
the `id='project'` fallback can select a Storey node, which then receives
element records — see the counterexample.) -/
theorem C10_storey_gating_amended (nodes : St) (project : TreeNode)
    (hp : projectOf nodes = some project) :
    exportIfc2x3FromTree nodes = Except.ok (exportBody nodes project) ∧
    elemCount (exportBody nodes project) =
      ((((valuesOf nodes).filter (fun n => n.kind == NodeKind.Storey)).filter
          (fun st => (lookupA (spatialMap nodes project) st.id).isSome)).map
        (fun st => (getObjectsUnderStorey nodes st).length)).sum ∧
    (∀ x, (lookupA (spatialMap nodes project) x).isSome = true ↔
      x = project.id ∨ x ∈ chainIds nodes project) := by
  refine ⟨?_, ?_, fun x => spatialMap_isSome nodes project x⟩
  · unfold exportIfc2x3FromTree
    rw [hp]
  · unfold exportBody
    dsimp only
    rw [ec_exportElements, ec_relAgg, ec_exportSites]
    rw [show elemCount (exportCommon project).1.lines = 0 from rfl]
    rw [Nat.zero_add]
    rfl

/-- C10 at a concrete input: a snapshot whose only node is a childless
Project. -/
theorem C10_witness :
    exportIfc2x3FromTree witC10snap = Except.ok (exportBody witC10snap witC10proj) ∧
    elemCount (exportBody witC10snap witC10proj) =
      ((((valuesOf witC10snap).filter (fun n => n.kind == NodeKind.Storey)).filter
          (fun st => (lookupA (spatialMap witC10snap witC10proj) st.id).isSome)).map
        (fun st => (getObjectsUnderStorey witC10snap st).length)).sum ∧
    (∀ x, (lookupA (spatialMap witC10snap witC10proj) x).isSome = true ↔
      x = witC10proj.id ∨ x ∈ chainIds witC10snap witC10proj) :=
  C10_storey_gating_amended witC10snap witC10proj (by decide)

/-- C10 counterexample: a Storey stored under the key `"project"` (selected
as the project by the fallback) is reachable through no
Project→Site→Building→Storey chain, yet its Object is emitted as an element
record, and no error is raised. -/
theorem C10_counterexample :
    chainIds cexC10snap
        { id := "project", kind := .Storey, name := "S", children := ["cg"] } = [] ∧
    elemCount ((exportIfc2x3FromTree cexC10snap).toOption.getD []) = 1 ∧
    (exportIfc2x3FromTree cexC10snap).toOption.isSome = true := by decide

end IfcCoord
